import Mathlib

/-! P1 reader: the DLMS frame decoder of `src/main.cpp`.

A shallow embedding of `decodeDLMSFrame`, `getObisDescription`, `swap_uint16`,
`swap_uint32` and the frame assembler of `loop`.

Modelling conventions.

* A byte (`uint8_t`) is a natural number below 256; the frame is a list of bytes and a read
  `frame[i]` is `frameAt frame i`.  The decoder receives the frame and its `length`
  separately, as in the source.
* `int` variables (`current_position`, `length`) are integers; no `int` expression of the
  decoder leaves the 32-bit range for a frame length a buffer can have.
* `uint16_t` and `uint32_t` values are natural numbers, reduced modulo `2 ^ 16` and `2 ^ 32`
  where the source can overflow.  The host is little-endian (`memcpy` of frame bytes into
  an integer puts the first byte in the low-order position).
* A `float` or `double` value is the rational number it denotes.  Conversions and
  divisions round to nearest, ties to even, with 24 (`float`) or 53 (`double`) significand
  bits: `toFloat`, `toDouble`.  `float_value /= 10.0` divides in `double` and stores the
  quotient in a `float`.  Infinities and NaN do not occur: every operand is an unsigned
  16-bit value or its quotient by 10, 100 or 1000.  The active energy line of the summary
  records the exact quotient of the `uint32_t` value by 1000, of which the source prints
  the `double` approximation with three decimals.
* Everything written to `Serial` is recorded: the debug lines in `State.serial`, the
  frame summary as the result of `printSummary`.  For a `printf` the arguments are
  recorded, not the formatted text.
* Two fields of the state are bookkeeping only and are never read by the decoder:
  `reads`, the frame indices read so far, and `assigned`, the Reading fields written so
  far by an assignment statement of the source.
* Assignments to the locals are written with the setters `State.goto`, `State.found`,
  `State.store`; `State.print` and `State.rd` do the bookkeeping.
-/

namespace P1Reader

/-! ## Constants (`#define`s and the OBIS C,D patterns) -/

abbrev MAX_BUFFER_SIZE : Nat := 1024
abbrev FRAME_FLAG : Nat := 0x7E

abbrev DATA_NULL : Nat := 0x00
abbrev DATA_OCTET_STRING : Nat := 0x09
abbrev DATA_LONG_UNSIGNED : Nat := 0x12
abbrev DATA_LONG_DOUBLE_UNSIGNED : Nat := 0x06

abbrev OBIS_CODE_LEN : Nat := 6

abbrev SCALE_TENTHS : Nat := 0xFF
abbrev SCALE_HUNDREDTHS : Nat := 0xFE
abbrev SCALE_THOUSANDS : Nat := 0xFD

abbrev DECODER_START_OFFSET : Int := 20

abbrev OBIS_A : Nat := 0
abbrev OBIS_B : Nat := 1
abbrev OBIS_C : Nat := 2
abbrev OBIS_D : Nat := 3
abbrev OBIS_E : Nat := 4
abbrev OBIS_F : Nat := 5

abbrev OBIS_TIMESTAMP : Nat × Nat := (0x01, 0x00)
abbrev OBIS_ACTIVE_ENERGY_PLUS : Nat × Nat := (0x01, 0x08)
abbrev OBIS_ACTIVE_ENERGY_MINUS : Nat × Nat := (0x02, 0x08)
abbrev OBIS_REACTIVE_ENERGY_PLUS : Nat × Nat := (0x03, 0x08)
abbrev OBIS_REACTIVE_ENERGY_MINUS : Nat × Nat := (0x04, 0x08)
abbrev OBIS_ACTIVE_POWER_PLUS : Nat × Nat := (0x01, 0x07)
abbrev OBIS_ACTIVE_POWER_MINUS : Nat × Nat := (0x02, 0x07)
abbrev OBIS_REACTIVE_POWER_PLUS : Nat × Nat := (0x03, 0x07)
abbrev OBIS_REACTIVE_POWER_MINUS : Nat × Nat := (0x04, 0x07)
abbrev OBIS_VOLTAGE_L1 : Nat × Nat := (0x20, 0x07)
abbrev OBIS_VOLTAGE_L2 : Nat × Nat := (0x34, 0x07)
abbrev OBIS_VOLTAGE_L3 : Nat × Nat := (0x48, 0x07)
abbrev OBIS_CURRENT_L1 : Nat × Nat := (0x1F, 0x07)
abbrev OBIS_CURRENT_L2 : Nat × Nat := (0x33, 0x07)
abbrev OBIS_CURRENT_L3 : Nat × Nat := (0x47, 0x07)

/-! ## Bytes and byte order -/

/-- The byte `frame[i]`.  Outside the list the model reads 0. -/
def frameAt (frame : List Nat) (i : Int) : Nat := frame.getD i.toNat 0 % 256

/-- The `uint16_t` found at `&frame[i]` by a little-endian host. -/
def loadLE16 (frame : List Nat) (i : Int) : Nat :=
  frameAt frame i + frameAt frame (i + 1) * 2 ^ 8

/-- The `uint32_t` that `memcpy(&v, &frame[i], 4)` leaves in `v` on a little-endian host. -/
def loadLE32 (frame : List Nat) (i : Int) : Nat :=
  frameAt frame i + frameAt frame (i + 1) * 2 ^ 8 + frameAt frame (i + 2) * 2 ^ 16
    + frameAt frame (i + 3) * 2 ^ 24

/-- Source: `return (val << 8) | (val >> 8);` with the result converted to `uint16_t`. -/
def swap_uint16 (val : Nat) : Nat := ((val <<< 8) ||| (val >>> 8)) % 2 ^ 16

/-- Source: `val = ((val << 8) & 0xFF00FF00) | ((val >> 8) & 0xFF00FF);`
`return (val << 16) | (val >> 16);` on `uint32_t`. -/
def swap_uint32 (val : Nat) : Nat :=
  let val1 := ((val <<< 8) &&& 0xFF00FF00) ||| ((val >>> 8) &&& 0xFF00FF)
  ((val1 <<< 16) % 2 ^ 32) ||| (val1 >>> 16)

/-- The test `memcmp(&obisCode[OBIS_C], pattern, 2) == 0`. -/
def memcmpCD (obisCode : List Nat) (pattern : Nat × Nat) : Bool :=
  obisCode.getD OBIS_C 0 == pattern.1 && obisCode.getD OBIS_D 0 == pattern.2

/-- Source: `getObisDescription`; `none` is `nullptr`. -/
def getObisDescription (obisCode : List Nat) : Option String :=
  if memcmpCD obisCode OBIS_TIMESTAMP then some "Timestamp"
  else if memcmpCD obisCode OBIS_ACTIVE_ENERGY_PLUS then some "Active Energy (+)"
  else if memcmpCD obisCode OBIS_ACTIVE_ENERGY_MINUS then some "Active Energy (-)"
  else if memcmpCD obisCode OBIS_REACTIVE_ENERGY_PLUS then some "Reactive Energy (+)"
  else if memcmpCD obisCode OBIS_REACTIVE_ENERGY_MINUS then some "Reactive Energy (-)"
  else if memcmpCD obisCode OBIS_ACTIVE_POWER_PLUS then some "Active Power (+)"
  else if memcmpCD obisCode OBIS_ACTIVE_POWER_MINUS then some "Active Power (-)"
  else if memcmpCD obisCode OBIS_REACTIVE_POWER_PLUS then some "Reactive Power (+)"
  else if memcmpCD obisCode OBIS_REACTIVE_POWER_MINUS then some "Reactive Power (-)"
  else if memcmpCD obisCode OBIS_VOLTAGE_L1 then some "Voltage L1"
  else if memcmpCD obisCode OBIS_VOLTAGE_L2 then some "Voltage L2"
  else if memcmpCD obisCode OBIS_VOLTAGE_L3 then some "Voltage L3"
  else if memcmpCD obisCode OBIS_CURRENT_L1 then some "Current L1"
  else if memcmpCD obisCode OBIS_CURRENT_L2 then some "Current L2"
  else if memcmpCD obisCode OBIS_CURRENT_L3 then some "Current L3"
  else none

/-! ## `snprintf` of the timestamp -/

/-- Decimal digits of `n`, most significant first (`fuel` bounds the number of digits). -/
def decDigits : Nat → Nat → List Char
  | 0, _ => []
  | fuel + 1, n =>
    if n < 10 then [Nat.digitChar n] else decDigits fuel (n / 10) ++ [Nat.digitChar (n % 10)]

/-- The conversion `%0<width>u`: decimal, padded with zeros up to `width` characters. -/
def fmtUnsigned (width n : Nat) : List Char :=
  let ds := decDigits (n + 1) n
  List.replicate (width - ds.length) '0' ++ ds

/-- Source: `snprintf(timestamp, sizeof(timestamp), "%04u-%02u-%02u %02u:%02u:%02u", ...)`
with `sizeof(timestamp) = 20`: at most 19 characters are stored. -/
def formatTimestamp (year month day hour minute second : Nat) : String :=
  String.mk ((fmtUnsigned 4 year ++ ['-'] ++ fmtUnsigned 2 month ++ ['-'] ++ fmtUnsigned 2 day
    ++ [' '] ++ fmtUnsigned 2 hour ++ [':'] ++ fmtUnsigned 2 minute ++ [':']
    ++ fmtUnsigned 2 second).take 19)

/-! ## Decoder state -/

/-- The local variables of `decodeDLMSFrame` that hold decoded values. -/
structure Reading where
  voltageL1 : ℚ
  voltageL2 : ℚ
  voltageL3 : ℚ
  currentL1 : ℚ
  currentL2 : ℚ
  currentL3 : ℚ
  activePowerPlus : ℚ
  activePowerMinus : ℚ
  activeEnergyPlus : Nat
  activeEnergyMinus : Nat
  timestamp : String
  deriving DecidableEq

/-- Names of the eleven variables of `Reading`. -/
inductive Field
  | timestamp
  | voltageL1 | voltageL2 | voltageL3
  | currentL1 | currentL2 | currentL3
  | activePowerPlus | activePowerMinus
  | activeEnergyPlus | activeEnergyMinus
  deriving DecidableEq, Repr

/-- The debug lines the decoder writes to `Serial`. -/
inductive Msg
  | debugHeader
  | foundObis (pos : Int) (obis_code : List Nat) (description : Option String)
  | dataType (pos : Int) (data_type : Nat)
  | rawVal32 (value : Nat)
  | rawValScaled (raw : Nat) (scaled : ℚ)
  | stringLength (data_length : Nat)
  | rawHex (bytes : List Nat) (more : Bool)
  | notEnoughData
  | noLengthByte
  | processed (next : Int)
  | skippingSeparator (pos : Int) (b0 b1 : Nat)
  | noDataType (pos : Int)
  deriving DecidableEq

/-- The state of the scan loop. -/
structure State where
  current_position : Int
  reading : Reading
  dataFound : Bool
  serial : List Msg
  reads : List Int
  assigned : List Field
  deriving DecidableEq

/-- The values of the locals when the `switch` on the type tag is left. -/
structure Element where
  st : State
  data_length : Nat
  known_obis : Bool

/-- Record a debug line. -/
def State.print (s : State) (m : Msg) : State := { s with serial := s.serial ++ [m] }

/-- Record frame indices as read. -/
def State.rd (s : State) (is : List Int) : State := { s with reads := s.reads ++ is }

/-- The assignment `current_position = p`. -/
def State.goto (s : State) (p : Int) : State := { s with current_position := p }

/-- The assignment `dataFound = true`. -/
def State.found (s : State) : State := { s with dataFound := true }

/-- An assignment to the Reading variable `f`, after which the variables are `r`. -/
def State.store (s : State) (f : Field) (r : Reading) : State :=
  { s with reading := r, assigned := s.assigned ++ [f] }

/-- Declarations at the head of `decodeDLMSFrame` (source lines 67-77). -/
def initState : State :=
  { current_position := DECODER_START_OFFSET
    reading :=
      { voltageL1 := -1, voltageL2 := -1, voltageL3 := -1
        currentL1 := -1, currentL2 := -1, currentL3 := -1
        activePowerPlus := -1, activePowerMinus := -1
        activeEnergyPlus := 0, activeEnergyMinus := 0
        timestamp := "" }
    dataFound := false
    serial := [Msg.debugHeader]
    reads := []
    assigned := [] }

/-! ## The `switch` on the type tag -/

/-- The end of a `case` that decoded a value: with `some (f, r)` an assignment of the
chain wrote variable `f`, giving `r`, and `known_obis` stays true; with `none` the chain
ended in `else known_obis = false`. -/
def finish (s : State) (data_length : Nat) (a : Option (Field × Reading)) : Element :=
  match a with
  | some (f, r) => { st := s.store f r, data_length := data_length, known_obis := true }
  | none => { st := s, data_length := data_length, known_obis := false }

/-- Source lines 114-117: the assignment chain of the `DATA_LONG_DOUBLE_UNSIGNED` case. -/
def assignLongDoubleUnsigned (obis_code : List Nat) (uint32_value : Nat) (r : Reading) :
    Option (Field × Reading) :=
  if memcmpCD obis_code OBIS_ACTIVE_ENERGY_PLUS then
    some (Field.activeEnergyPlus, { r with activeEnergyPlus := uint32_value })
  else if memcmpCD obis_code OBIS_ACTIVE_ENERGY_MINUS then
    some (Field.activeEnergyMinus, { r with activeEnergyMinus := uint32_value })
  else none

/-- Source lines 107-119: `case DATA_LONG_DOUBLE_UNSIGNED`.  `s.current_position` is the
position after the type tag. -/
def caseLongDoubleUnsigned (frame : List Nat) (length : Int) (obis_code : List Nat)
    (s : State) : Element :=
  let cp := s.current_position
  let data_length : Nat := 4
  if cp + data_length ≤ length then
    let uint32_value := swap_uint32 (loadLE32 frame cp)
    let s1 := (s.rd [cp, cp + 1, cp + 2, cp + 3]).print (Msg.rawVal32 uint32_value)
    finish s1 data_length (assignLongDoubleUnsigned obis_code uint32_value s.reading)
  else { st := s.print Msg.notEnoughData, data_length := 0, known_obis := false }

/-! ## Floating point -/

/-- The integer nearest to `x`, the even one of two equally near. -/
def roundHalfEven (x : ℚ) : Int :=
  let f := ⌊x⌋
  if x - f < 1 / 2 then f
  else if 1 / 2 < x - f then f + 1
  else if f % 2 = 0 then f else f + 1

/-- The number of binary digits of `n` after the first: the largest `k` with
`2 ^ k <= n`, for `n > 0`; `fuel` bounds the number of halvings. -/
def log2Fuel : Nat → Nat → Nat
  | 0, _ => 0
  | fuel + 1, n => if n < 2 then 0 else log2Fuel fuel (n / 2) + 1

/-- The binary exponent of `x > 0`: the largest `e` with `2 ^ e <= x`. -/
def floorLog2 (x : ℚ) : Int :=
  let n := x.num.natAbs
  let d := x.den
  let a := log2Fuel n n
  let b := log2Fuel d d
  if d * 2 ^ a ≤ n * 2 ^ b then (a : Int) - b else (a : Int) - b - 1

/-- IEEE 754 rounding of `x` to a binary format with `p` significand bits and least
exponent `emin` (round to nearest, ties to even; subnormal below `2 ^ emin`).  The
magnitudes met in the decoder are far below the overflow threshold of either format. -/
@[irreducible] def roundBinary (p : Nat) (emin : Int) (x : ℚ) : ℚ :=
  if x = 0 then 0
  else
    let e := max (floorLog2 |x|) emin
    let ulp : ℚ := (2 : ℚ) ^ (e - ((p : Int) - 1))
    (roundHalfEven (x / ulp) : ℚ) * ulp

/-- The `double` nearest to `x` (binary64). -/
def toDouble (x : ℚ) : ℚ := roundBinary 53 (-1022) x

/-- The `float` nearest to `x` (binary32). -/
def toFloat (x : ℚ) : ℚ := roundBinary 24 (-126) x

/-- Source lines 128-133: the scaler peek of the `DATA_LONG_UNSIGNED` case, applied to
`float_value`; `cp` is the position of the first value byte.  `float_value /= 10.0` is
`float_value = (float)((double)float_value / 10.0)`; the conversion of a `float` to `double`
is exact. -/
def applyScaler (frame : List Nat) (length : Int) (cp : Int) (float_value : ℚ) : ℚ :=
  if cp + 3 < length then
    let scaler := frameAt frame (cp + 3)
    if scaler = SCALE_TENTHS then toFloat (toDouble (float_value / 10))
    else if scaler = SCALE_HUNDREDTHS then toFloat (toDouble (float_value / 100))
    else if scaler = SCALE_THOUSANDS then toFloat (toDouble (float_value / 1000))
    else float_value
  else float_value

/-- Source lines 136-145: the assignment chain of the `DATA_LONG_UNSIGNED` case. -/
def assignLongUnsigned (obis_code : List Nat) (float_value : ℚ) (r : Reading) :
    Option (Field × Reading) :=
  if memcmpCD obis_code OBIS_VOLTAGE_L1 then
    some (Field.voltageL1, { r with voltageL1 := float_value })
  else if memcmpCD obis_code OBIS_VOLTAGE_L2 then
    some (Field.voltageL2, { r with voltageL2 := float_value })
  else if memcmpCD obis_code OBIS_VOLTAGE_L3 then
    some (Field.voltageL3, { r with voltageL3 := float_value })
  else if memcmpCD obis_code OBIS_CURRENT_L1 then
    some (Field.currentL1, { r with currentL1 := float_value })
  else if memcmpCD obis_code OBIS_CURRENT_L2 then
    some (Field.currentL2, { r with currentL2 := float_value })
  else if memcmpCD obis_code OBIS_CURRENT_L3 then
    some (Field.currentL3, { r with currentL3 := float_value })
  else if memcmpCD obis_code OBIS_ACTIVE_POWER_PLUS then
    some (Field.activePowerPlus, { r with activePowerPlus := float_value })
  else if memcmpCD obis_code OBIS_ACTIVE_POWER_MINUS then
    some (Field.activePowerMinus, { r with activePowerMinus := float_value })
  else none

/-- Source lines 121-147: `case DATA_LONG_UNSIGNED`. -/
def caseLongUnsigned (frame : List Nat) (length : Int) (obis_code : List Nat)
    (s : State) : Element :=
  let cp := s.current_position
  let data_length : Nat := 2
  if cp + data_length ≤ length then
    let uint16_value := swap_uint16 (loadLE16 frame cp)
    let float_value : ℚ := applyScaler frame length cp (toFloat (uint16_value : ℚ))
    let s1 := ((s.rd [cp, cp + 1]).rd (if cp + 3 < length then [cp + 3] else [])).print
      (Msg.rawValScaled uint16_value float_value)
    finish s1 data_length (assignLongUnsigned obis_code float_value s.reading)
  else { st := s.print Msg.notEnoughData, data_length := 0, known_obis := false }

/-- The test `data_length == 12 && obis_code[OBIS_A]==0 && obis_code[OBIS_B]==0 &&
obis_code[OBIS_C]==1 && obis_code[OBIS_D]==0` of source lines 154 and 166. -/
def isTimestampElement (data_length : Nat) (obis_code : List Nat) : Bool :=
  data_length == 12 && obis_code.getD OBIS_A 0 == 0 && obis_code.getD OBIS_B 0 == 0
    && obis_code.getD OBIS_C 0 == 1 && obis_code.getD OBIS_D 0 == 0

/-- Source lines 155-161: the timestamp read from the eight bytes at `cp`. -/
def decodeTimestamp (frame : List Nat) (cp : Int) : String :=
  let year := swap_uint16 (loadLE16 frame cp)
  let month := frameAt frame (cp + 2)
  let day := frameAt frame (cp + 3)
  let hour := frameAt frame (cp + 5)
  let minute := frameAt frame (cp + 6)
  let second := frameAt frame (cp + 7)
  formatTimestamp year month day hour minute second

/-- Source lines 149-177: `case DATA_OCTET_STRING`. -/
def caseOctetString (frame : List Nat) (length : Int) (obis_code : List Nat)
    (s : State) : Element :=
  if s.current_position < length then
    let data_length := frameAt frame s.current_position
    let s1 := ((s.rd [s.current_position]).goto (s.current_position + 1)).print
      (Msg.stringLength data_length)
    let cp := s1.current_position
    if cp + data_length ≤ length then
      let e1 : Element :=
        if isTimestampElement data_length obis_code then
          finish (s1.rd [cp, cp + 1, cp + 2, cp + 3, cp + 5, cp + 6, cp + 7]) data_length
            (some (Field.timestamp, { s.reading with timestamp := decodeTimestamp frame cp }))
        else finish s1 data_length none
      if !(isTimestampElement data_length obis_code) then
        let shown := (List.range (min data_length 8)).map (fun (k : Nat) => cp + (k : Int))
        let line := Msg.rawHex (shown.map (frameAt frame)) (decide (data_length > 8))
        { e1 with st := (e1.st.rd shown).print line }
      else e1
    else { st := s1.print Msg.notEnoughData, data_length := 0, known_obis := false }
  else { st := s.print Msg.noLengthByte, data_length := 0, known_obis := false }

/-- Source lines 106-191: the whole `switch (data_type)`. -/
def switchDataType (frame : List Nat) (length : Int) (obis_code : List Nat) (data_type : Nat)
    (s : State) : Element :=
  if data_type = DATA_LONG_DOUBLE_UNSIGNED then caseLongDoubleUnsigned frame length obis_code s
  else if data_type = DATA_LONG_UNSIGNED then caseLongUnsigned frame length obis_code s
  else if data_type = DATA_OCTET_STRING then caseOctetString frame length obis_code s
  else if data_type = DATA_NULL then { st := s, data_length := 0, known_obis := false }
  else { st := s.goto length, data_length := 0, known_obis := false }

/-! ## The scan loop -/

/-- Source lines 192-201: what follows the `switch`: advance by `data_length`, update
`dataFound`, skip a separator. -/
def afterSwitch (frame : List Nat) (length : Int) (e : Element) : State :=
  let s1 := e.st.goto (e.st.current_position + e.data_length)
  let s2 := if e.known_obis then s1.found else s1
  let s3 := s2.print (Msg.processed s2.current_position)
  let cp := s3.current_position
  if cp < length - 1 then
    if frameAt frame cp = 0x02 ∨ frameAt frame cp = 0x0F then
      ((s3.rd [cp, cp + 1]).print
        (Msg.skippingSeparator cp (frameAt frame cp) (frameAt frame (cp + 1)))).goto (cp + 2)
    else s3.rd [cp]
  else s3

/-- The six bytes `memcpy(obis_code, &frame[current_position + 2], OBIS_CODE_LEN)` copies. -/
def obisAt (frame : List Nat) (cp : Int) : List Nat :=
  [frameAt frame (cp + 2), frameAt frame (cp + 3), frameAt frame (cp + 4),
   frameAt frame (cp + 5), frameAt frame (cp + 6), frameAt frame (cp + 7)]

/-- The marker test of source line 82. -/
def isMarker (frame : List Nat) (cp : Int) : Bool :=
  frameAt frame cp == DATA_OCTET_STRING && frameAt frame (cp + 1) == OBIS_CODE_LEN

/-- The state after source lines 83-93: identifier copied and described, cursor moved over
marker and identifier. -/
def identState (frame : List Nat) (s : State) : State :=
  let cp := s.current_position
  let obis_code := obisAt frame cp
  ((s.rd [cp, cp + 1, cp + 2, cp + 3, cp + 4, cp + 5, cp + 6, cp + 7]).print
    (Msg.foundObis cp obis_code (getObisDescription obis_code))).goto
    (cp + (2 + OBIS_CODE_LEN : Nat))

/-- The state when the `switch` is entered for the element whose marker is at
`s.current_position` (source lines 83-104): as `identState`, then type tag read and
cursor moved over it. -/
def tagState (frame : List Nat) (s : State) : State :=
  let s1 := identState frame s
  let data_type := frameAt frame s1.current_position
  ((s1.rd [s1.current_position]).goto (s1.current_position + 1)).print
    (Msg.dataType s1.current_position data_type)

/-- The locals at the end of the `switch` for the element whose marker is at
`s.current_position` (source lines 83-191, reached when line 95 holds). -/
def element (frame : List Nat) (length : Int) (s : State) : Element :=
  let obis_code := obisAt frame s.current_position
  let data_type := frameAt frame (identState frame s).current_position
  switchDataType frame length obis_code data_type (tagState frame s)

/-- One iteration of the `while` loop of `decodeDLMSFrame` (source lines 80-214). -/
def step (frame : List Nat) (length : Int) (s : State) : State :=
  let loop_start_pos := s.current_position
  if isMarker frame s.current_position then
    let s1 := identState frame s
    if s1.current_position < length then
      afterSwitch frame length (element frame length s)
    else
      (s1.print (Msg.noDataType s1.current_position)).goto length
  else
    let s1 := s.rd (if frameAt frame s.current_position = DATA_OCTET_STRING
      then [s.current_position, s.current_position + 1] else [s.current_position])
    if s1.current_position = loop_start_pos then s1.goto (s1.current_position + 1)
    else s1

/-- The loop `while (current_position < length - 10)`, run for at most `fuel` iterations. -/
def scanLoop (frame : List Nat) (length : Int) : Nat → State → State
  | 0, s => s
  | fuel + 1, s =>
    if s.current_position < length - 10 then scanLoop frame length fuel (step frame length s)
    else s

/-- The state when the loop of `decodeDLMSFrame` is left.  Every iteration advances the
cursor, so `length` iterations suffice (`scanFrame_exits`). -/
def scanFrame (frame : List Nat) (length : Int) : State :=
  scanLoop frame length length.toNat initState

/-- The state at the loop head after `n` iterations of the body. -/
def loopState (frame : List Nat) (length : Int) : Nat → State
  | 0 => initState
  | n + 1 => step frame length (loopState frame length n)

/-- The loop body is executed at least `n + 1` times: the loop condition holds at the loop
head after `0, 1, ..., n` iterations.  Iteration `n + 1` then starts from `loopState n`. -/
def iterationRuns (frame : List Nat) (length : Int) (n : Nat) : Prop :=
  ∀ k, k ≤ n → (loopState frame length k).current_position < length - 10

instance (frame : List Nat) (length : Int) (n : Nat) : Decidable (iterationRuns frame length n) := by
  unfold iterationRuns
  infer_instance

/-! ## The frame summary -/

/-- The lines of the frame summary, with the arguments of their `printf`. -/
inductive SummaryLine
  | timestamp (text : String)
  | voltage (l1 l2 l3 : ℚ)
  | current (l1 l2 l3 : ℚ)
  | activePower (plus minus : ℚ)
  | activeEnergy (plus minus : ℚ)
  deriving DecidableEq

/-- Source lines 220-235: the lines printed between `--- Frame Summary ---` and the closing
rule. -/
def summaryLines (r : Reading) : List SummaryLine :=
  (if r.timestamp.length > 0 then [SummaryLine.timestamp r.timestamp] else [])
  ++ (if r.voltageL1 ≥ 0 ∨ r.voltageL2 ≥ 0 ∨ r.voltageL3 ≥ 0
      then [SummaryLine.voltage r.voltageL1 r.voltageL2 r.voltageL3] else [])
  ++ (if r.currentL1 ≥ 0 ∨ r.currentL2 ≥ 0 ∨ r.currentL3 ≥ 0
      then [SummaryLine.current r.currentL1 r.currentL2 r.currentL3] else [])
  ++ (if r.activePowerPlus ≥ 0 ∨ r.activePowerMinus ≥ 0
      then [SummaryLine.activePower r.activePowerPlus r.activePowerMinus] else [])
  ++ (if r.activeEnergyPlus > 0 ∨ r.activeEnergyMinus > 0
      then [SummaryLine.activeEnergy ((r.activeEnergyPlus : ℚ) / 1000)
        ((r.activeEnergyMinus : ℚ) / 1000)] else [])

/-- Source lines 218-237.  `none`: nothing is printed; `some lines`: the summary is printed
with these lines. -/
def printSummary (s : State) : Option (List SummaryLine) :=
  if s.dataFound then some (summaryLines s.reading) else none

/-- What `decodeDLMSFrame` writes to `Serial`. -/
structure Output where
  debug : List Msg
  summary : Option (List SummaryLine)
  deriving DecidableEq

/-- Source: `void decodeDLMSFrame(uint8_t* frame, int length)`. -/
def decodeDLMSFrame (frame : List Nat) (length : Int) : Output :=
  let s := scanFrame frame length
  { debug := s.serial, summary := printSummary s }

/-! ## The frame assembler of `loop()` -/

/-- The globals `buffer`, `bufferIndex`, `inFrame`, with a record of what `loop()` has done:
`calls`, the arguments of the calls of `decodeDLMSFrame` so far (the buffer as it was and
the length passed), oldest first; `writes`, the indices at which `buffer` was written;
`overflows`, the number of lines `Error: Frame buffer overflow!` printed. -/
structure Assembler where
  buffer : List Nat
  bufferIndex : Int
  inFrame : Bool
  calls : List (List Nat × Int)
  writes : List Int
  overflows : Nat

/-- The globals at start-up: `uint8_t buffer[MAX_BUFFER_SIZE]` zero-initialised,
`bufferIndex = 0`, `inFrame = false`. -/
def initAssembler : Assembler :=
  { buffer := List.replicate MAX_BUFFER_SIZE 0
    bufferIndex := 0
    inFrame := false
    calls := []
    writes := []
    overflows := 0 }

/-- The body of the `while` loop of `loop()` for one byte `inByte` read from the serial
port (source lines 280-296); `inByte` is the value of the `uint8_t` read. -/
def onByte (a : Assembler) (inByte : Nat) : Assembler :=
  if inByte = FRAME_FLAG then
    let a1 :=
      if a.inFrame = true ∧ a.bufferIndex > 0 then
        { a with calls := a.calls ++ [(a.buffer, a.bufferIndex)] }
      else a
    { a1 with bufferIndex := 0, inFrame := true }
  else if a.inFrame then
    if a.bufferIndex < MAX_BUFFER_SIZE then
      { a with
        buffer := a.buffer.set a.bufferIndex.toNat inByte
        bufferIndex := a.bufferIndex + 1
        writes := a.writes ++ [a.bufferIndex] }
    else
      { a with inFrame := false, bufferIndex := 0, overflows := a.overflows + 1 }
  else a

/-- Source: `loop()`, for the bytes the serial port delivers, in order.  Successive calls
of `loop()` continue from the globals the previous call left. -/
def loop (a : Assembler) (received : List Nat) : Assembler :=
  received.foldl onByte a

/-- What the calls of `decodeDLMSFrame` made so far have written to `Serial`. -/
def Assembler.decoded (a : Assembler) : List Output :=
  a.calls.map (fun c => decodeDLMSFrame c.1 c.2)

/-! ## Example frames -/

/-- Twenty header bytes: the decoder starts at `DECODER_START_OFFSET`. -/
def header : List Nat := List.replicate 20 0

/-- Scenario A: identifier {0,0,1,8,0,255}, tag 0x06, payload 00 00 27 10; 40 bytes. -/
def scenarioA : List Nat :=
  header ++ [0x09, 0x06, 0, 0, 1, 8, 0, 255, 0x06, 0x00, 0x00, 0x27, 0x10] ++ List.replicate 7 0

/-- Scenario B read literally: identifier {1,0,32,7,0,255}, tag 0x12, payload 09 06, and
the byte 0xFF immediately after the two value bytes; 40 bytes. -/
def scenarioB : List Nat :=
  header ++ [0x09, 0x06, 1, 0, 32, 7, 0, 255, 0x12, 0x09, 0x06, 0xFF, 0x00] ++ List.replicate 7 0

/-- Scenario B with the byte 0xFF one position later, three bytes after the start of the
value; 40 bytes. -/
def scenarioBShifted : List Nat :=
  header ++ [0x09, 0x06, 1, 0, 32, 7, 0, 255, 0x12, 0x09, 0x06, 0x00, 0xFF] ++ List.replicate 7 0

/-- As `scenarioBShifted` with the payload 09 07: raw value 2311, whose tenth is not a
`float`; 40 bytes. -/
def scenarioBInexact : List Nat :=
  header ++ [0x09, 0x06, 1, 0, 32, 7, 0, 255, 0x12, 0x09, 0x07, 0x00, 0xFF] ++ List.replicate 7 0

/-- Scenario C: identifier {0,0,1,0,0,255}, tag 0x09, length 12, payload for
2024-05-01 14:30:00 (year 0x07E8, month 5, day 1, a weekday byte, 14, 30, 0, and four more
bytes); 50 bytes. -/
def scenarioC : List Nat :=
  header ++ [0x09, 0x06, 0, 0, 1, 0, 0, 255, 0x09, 12,
    0x07, 0xE8, 5, 1, 3, 14, 30, 0, 0xFF, 0x80, 0x00, 0x00] ++ List.replicate 8 0

/-- Scenario C with other values in payload bytes 4 and 8..11. -/
def scenarioCOther : List Nat :=
  header ++ [0x09, 0x06, 0, 0, 1, 0, 0, 255, 0x09, 12,
    0x07, 0xE8, 5, 1, 7, 14, 30, 0, 0x11, 0x22, 0x33, 0x44] ++ List.replicate 8 0

/-- Scenario D: a voltage L1 element (231.0), then an element with the unrecognized type tag
0x7F at position 41, then a well-formed voltage L2 element; 70 bytes. -/
def scenarioD : List Nat :=
  header ++ [0x09, 0x06, 1, 0, 32, 7, 0, 255, 0x12, 0x09, 0x06, 0x00, 0xFF]
    ++ [0x09, 0x06, 1, 0, 31, 7, 0, 255, 0x7F]
    ++ [0x09, 0x06, 1, 0, 52, 7, 0, 255, 0x12, 0x09, 0x06, 0x00, 0xFF] ++ List.replicate 15 0

/-- An UnsignedLong element one byte short: the frame ends after three payload bytes;
32 bytes. -/
def truncatedLong : List Nat :=
  header ++ [0x09, 0x06, 0, 0, 1, 8, 0, 255, 0x06, 0x00, 0x27, 0x10]

/-- An OctetString element declaring 200 bytes where 25 are left, followed at once by a
well-formed voltage L1 element; 55 bytes. -/
def truncatedOctets : List Nat :=
  header ++ [0x09, 0x06, 0, 0, 96, 1, 0, 255, 0x09, 200]
    ++ [0x09, 0x06, 1, 0, 32, 7, 0, 255, 0x12, 0x09, 0x06, 0x00, 0xFF] ++ List.replicate 12 0

/-- An OctetString element at marker 20 in a frame of 32 bytes, declaring 3 bytes where 2
are left: the length byte, at position 29, is followed by the byte 0x02 at position
30 = length - 2 and one more byte. -/
def truncatedAtEnd : List Nat :=
  header ++ [0x09, 0x06, 0, 0, 96, 1, 0, 255, 0x09, 0x03, 0x02, 0x00]

/-- Scenario A with the payload 00 00 00 00: an active energy of 0; 40 bytes. -/
def zeroEnergy : List Nat :=
  header ++ [0x09, 0x06, 0, 0, 1, 8, 0, 255, 0x06, 0x00, 0x00, 0x00, 0x00] ++ List.replicate 7 0

/-- A frame of 29 bytes, with a voltage marker and identifier at position 20. -/
def shortFrame : List Nat :=
  header ++ [0x09, 0x06, 1, 0, 32, 7, 0, 255, 0x12]

/-- A voltage L1 element whose value 09 06 is followed by 0x0F 0xFF; 40 bytes. -/
def separatorFrame : List Nat :=
  header ++ [0x09, 0x06, 1, 0, 32, 7, 0, 255, 0x12, 0x09, 0x06, 0x0F, 0xFF] ++ List.replicate 7 0

/-- Scenario A with the last payload byte, at position 32 of 40, changed from 0x10 to
0x11. -/
def scenarioATail : List Nat :=
  header ++ [0x09, 0x06, 0, 0, 1, 8, 0, 255, 0x06, 0x00, 0x00, 0x27, 0x11] ++ List.replicate 7 0

/-- A voltage L1 element whose marker starts at position 29 of 40: everything after its
first byte lies in the final 10 bytes. -/
def lateMarker : List Nat :=
  List.replicate 29 0 ++ [0x09, 0x06, 1, 0, 32, 7, 0, 255, 0x12, 0x09, 0x06]

/-- As `lateMarker`, with the byte at position 30 changed from 0x06 to 0x00: no marker. -/
def lateMarkerBroken : List Nat :=
  List.replicate 29 0 ++ [0x09, 0x00, 1, 0, 32, 7, 0, 255, 0x12, 0x09, 0x06]

/-- A frame of 5 bytes. -/
def tinyFrame : List Nat := [1, 2, 3, 4, 5]

/-- Scenario A followed by ten more bytes 0x00; 50 bytes.  The element ends at position 32,
before the final 10 bytes. -/
def paddedA : List Nat := scenarioA ++ List.replicate 10 0

/-- As `paddedA`, with each of the final 10 bytes changed to 0xAA. -/
def paddedATail : List Nat := scenarioA ++ List.replicate 10 0xAA

/-! ## Specification vocabulary -/

/-- The divisor the decoder applies to an UnsignedShort whose value bytes are at `p` and
`p + 1`: chosen by the byte at `p + 3` when that position is inside the frame. -/
def scaleDivisor (frame : List Nat) (length : Int) (p : Int) : Nat :=
  if p + 3 < length then
    if frameAt frame (p + 3) = 0xFF then 10
    else if frameAt frame (p + 3) = 0xFE then 100
    else if frameAt frame (p + 3) = 0xFD then 1000
    else 1
  else 1

/-- Two decimal digits of a number below 100. -/
def twoDigits (n : Nat) : List Char := [Nat.digitChar (n / 10), Nat.digitChar (n % 10)]

/-- Four decimal digits of a number below 10000. -/
def fourDigits (n : Nat) : List Char :=
  [Nat.digitChar (n / 1000), Nat.digitChar (n / 100 % 10), Nat.digitChar (n / 10 % 10),
    Nat.digitChar (n % 10)]

/-- The text `YYYY-MM-DD hh:mm:ss` with every field zero-padded in decimal. -/
def isoTimestamp (year month day hour minute second : Nat) : String :=
  String.mk (fourDigits year ++ ['-'] ++ twoDigits month ++ ['-'] ++ twoDigits day ++ [' ']
    ++ twoDigits hour ++ [':'] ++ twoDigits minute ++ [':'] ++ twoDigits second)

/-- The iteration that starts in state `s` meets an element and assigns its value to a
Reading variable: the marker is at the cursor and `known_obis` is true when the `switch`
is left. -/
def assignsField (frame : List Nat) (length : Int) (s : State) : Bool :=
  isMarker frame s.current_position && (element frame length s).known_obis

/-- The variable `f` holds a value the summary treats as decoded: a non-empty timestamp, a
voltage, current or power `>= 0`, an energy `> 0`. -/
def Reading.present (r : Reading) : Field → Prop
  | Field.timestamp => 0 < r.timestamp.length
  | Field.voltageL1 => 0 ≤ r.voltageL1
  | Field.voltageL2 => 0 ≤ r.voltageL2
  | Field.voltageL3 => 0 ≤ r.voltageL3
  | Field.currentL1 => 0 ≤ r.currentL1
  | Field.currentL2 => 0 ≤ r.currentL2
  | Field.currentL3 => 0 ≤ r.currentL3
  | Field.activePowerPlus => 0 ≤ r.activePowerPlus
  | Field.activePowerMinus => 0 ≤ r.activePowerMinus
  | Field.activeEnergyPlus => 0 < r.activeEnergyPlus
  | Field.activeEnergyMinus => 0 < r.activeEnergyMinus

/-- The variable `f` holds its initial value (the sentinel): the empty string, -1.0, or 0
for an energy. -/
def Reading.sentinel (r : Reading) : Field → Prop
  | Field.timestamp => r.timestamp = ""
  | Field.voltageL1 => r.voltageL1 = -1
  | Field.voltageL2 => r.voltageL2 = -1
  | Field.voltageL3 => r.voltageL3 = -1
  | Field.currentL1 => r.currentL1 = -1
  | Field.currentL2 => r.currentL2 = -1
  | Field.currentL3 => r.currentL3 = -1
  | Field.activePowerPlus => r.activePowerPlus = -1
  | Field.activePowerMinus => r.activePowerMinus = -1
  | Field.activeEnergyPlus => r.activeEnergyPlus = 0
  | Field.activeEnergyMinus => r.activeEnergyMinus = 0

/-- The five lines of the frame summary. -/
inductive Group
  | timestamp | voltage | current | activePower | activeEnergy
  deriving DecidableEq

/-- The summary line on which a variable is printed. -/
def Field.group : Field → Group
  | Field.timestamp => Group.timestamp
  | Field.voltageL1 => Group.voltage
  | Field.voltageL2 => Group.voltage
  | Field.voltageL3 => Group.voltage
  | Field.currentL1 => Group.current
  | Field.currentL2 => Group.current
  | Field.currentL3 => Group.current
  | Field.activePowerPlus => Group.activePower
  | Field.activePowerMinus => Group.activePower
  | Field.activeEnergyPlus => Group.activeEnergy
  | Field.activeEnergyMinus => Group.activeEnergy

/-- Which of the five lines a printed line is. -/
def SummaryLine.group : SummaryLine → Group
  | SummaryLine.timestamp _ => Group.timestamp
  | SummaryLine.voltage _ _ _ => Group.voltage
  | SummaryLine.current _ _ _ => Group.current
  | SummaryLine.activePower _ _ => Group.activePower
  | SummaryLine.activeEnergy _ _ => Group.activeEnergy

/-- The variable `f` is reported in the summary: its line is printed (a printed line shows
all its variables). -/
def reported (lines : List SummaryLine) (f : Field) : Prop :=
  ∃ l, l ∈ lines ∧ l.group = f.group

/-- An assignment of `f` turns the variables `r` into `r2`: the other variables keep their
status, and `f`, unless an energy, holds a decoded value. -/
def Writes (f : Field) (r r2 : Reading) : Prop :=
  (∀ g, g ≠ f → (r.sentinel g → r2.sentinel g) ∧ (r.present g → r2.present g))
    ∧ (f.group ≠ Group.activeEnergy → r2.present f)

/-- What the `switch` may do to the state `s` it starts from (apart from cursor, debug
lines and read indices): nothing when `known_obis` ends false, and one assignment when it
ends true. -/
def Effect (s : State) (e : Element) : Prop :=
  e.st.dataFound = s.dataFound
    ∧ ((e.known_obis = false ∧ e.st.reading = s.reading ∧ e.st.assigned = s.assigned)
      ∨ (e.known_obis = true
          ∧ ∃ f, e.st.assigned = s.assigned ++ [f] ∧ Writes f s.reading e.st.reading))

/-- The bookkeeping invariant of the scan: a variable never assigned holds its sentinel, an
assigned variable other than an energy holds a decoded value, and `dataFound` tells
whether any variable was assigned. -/
def Inv (s : State) : Prop :=
  (∀ f, f ∉ s.assigned → s.reading.sentinel f)
    ∧ (∀ f, f ∈ s.assigned → f.group ≠ Group.activeEnergy → s.reading.present f)
    ∧ (s.dataFound = true ↔ s.assigned ≠ [])

/-- The table of `getObisDescription`, in the order of its tests. -/
def obisTable : List ((Nat × Nat) × String) :=
  [(OBIS_TIMESTAMP, "Timestamp"),
   (OBIS_ACTIVE_ENERGY_PLUS, "Active Energy (+)"),
   (OBIS_ACTIVE_ENERGY_MINUS, "Active Energy (-)"),
   (OBIS_REACTIVE_ENERGY_PLUS, "Reactive Energy (+)"),
   (OBIS_REACTIVE_ENERGY_MINUS, "Reactive Energy (-)"),
   (OBIS_ACTIVE_POWER_PLUS, "Active Power (+)"),
   (OBIS_ACTIVE_POWER_MINUS, "Active Power (-)"),
   (OBIS_REACTIVE_POWER_PLUS, "Reactive Power (+)"),
   (OBIS_REACTIVE_POWER_MINUS, "Reactive Power (-)"),
   (OBIS_VOLTAGE_L1, "Voltage L1"),
   (OBIS_VOLTAGE_L2, "Voltage L2"),
   (OBIS_VOLTAGE_L3, "Voltage L3"),
   (OBIS_CURRENT_L1, "Current L1"),
   (OBIS_CURRENT_L2, "Current L2"),
   (OBIS_CURRENT_L3, "Current L3")]

/-- The description that names the quantity of a Reading variable. -/
def Field.description : Field → String
  | Field.timestamp => "Timestamp"
  | Field.voltageL1 => "Voltage L1"
  | Field.voltageL2 => "Voltage L2"
  | Field.voltageL3 => "Voltage L3"
  | Field.currentL1 => "Current L1"
  | Field.currentL2 => "Current L2"
  | Field.currentL3 => "Current L3"
  | Field.activePowerPlus => "Active Power (+)"
  | Field.activePowerMinus => "Active Power (-)"
  | Field.activeEnergyPlus => "Active Energy (+)"
  | Field.activeEnergyMinus => "Active Energy (-)"

/-- The bytes received since the last delimiter 0x7E, if a delimiter was received. -/
def sinceDelimiter (received : List Nat) : Option (List Nat) :=
  if FRAME_FLAG ∈ received then
    some (received.reverse.takeWhile (fun b => b != FRAME_FLAG)).reverse
  else none

/-- The frame handed to `decodeDLMSFrame` when a delimiter arrives after `received`,
following the specification: the bytes since the previous delimiter, if a delimiter was
received before, at least one and at most `MAX_BUFFER_SIZE` bytes followed it. -/
def frameOnDelimiter (received : List Nat) : Option (List Nat) :=
  match sinceDelimiter received with
  | some seg => if 1 ≤ seg.length ∧ seg.length ≤ MAX_BUFFER_SIZE then some seg else none
  | none => none

/-- The frames handed to `decodeDLMSFrame` for a whole input, following the specification;
the argument lists the input latest byte first. -/
def framesOfReversed : List Nat → List (List Nat)
  | [] => []
  | b :: older =>
    framesOfReversed older
      ++ (if b = FRAME_FLAG then (frameOnDelimiter older.reverse).toList else [])

/-- The frames handed to `decodeDLMSFrame` for the input `received`, oldest first. -/
def framesOf (received : List Nat) : List (List Nat) :=
  framesOfReversed received.reverse

/-- The globals of the assembler agree with the bytes received so far: with a frame open
and at most `MAX_BUFFER_SIZE` bytes since the last delimiter, these bytes are the first
`bufferIndex` bytes of `buffer`; otherwise no frame is open and `bufferIndex` is 0. -/
def Assembler.follows (a : Assembler) (received : List Nat) : Prop :=
  a.buffer.length = MAX_BUFFER_SIZE
    ∧ match sinceDelimiter received with
      | some seg =>
        if seg.length ≤ MAX_BUFFER_SIZE then
          a.inFrame = true ∧ a.bufferIndex = seg.length ∧ a.buffer.take seg.length = seg
        else a.inFrame = false ∧ a.bufferIndex = 0
      | none => a.inFrame = false ∧ a.bufferIndex = 0

/-- The two error lines of branches claimed to be unreachable: `Error: No length byte`
and `Error: No data type found after OBIS code`. -/
def Msg.unreachableError : Msg → Bool
  | Msg.noLengthByte => true
  | Msg.noDataType _ => true
  | _ => false

/-! # Theorems -/

/-! ## Byte order -/

theorem frameAt_lt (frame : List Nat) (i : Int) : frameAt frame i < 256 :=
  Nat.mod_lt _ (by norm_num)

theorem testBit_high (v i : Nat) (hv : v < 2 ^ 32) (hi : 32 ≤ i) : v.testBit i = false := by
  apply Nat.testBit_lt_two_pow
  calc v < 2 ^ 32 := hv
    _ ≤ 2 ^ i := Nat.pow_le_pow_right (by norm_num) hi

theorem testBit_maskHi (j : Nat) :
    Nat.testBit 0xFF00FF00 j = decide ((8 ≤ j ∧ j < 16) ∨ (24 ≤ j ∧ j < 32)) := by
  by_cases hj : j < 32
  · interval_cases j <;> decide
  · rw [testBit_high _ _ (by norm_num) (by omega)]
    simp; omega

theorem testBit_maskLo (j : Nat) :
    Nat.testBit 0xFF00FF j = decide (j < 8 ∨ (16 ≤ j ∧ j < 24)) := by
  by_cases hj : j < 32
  · interval_cases j <;> decide
  · rw [testBit_high _ _ (by norm_num) (by omega)]
    simp; omega

/-- Bit-level description of `swap_uint32`: the four bytes in reverse order. -/
theorem swap_uint32_bits (v : Nat) (hv : v < 2 ^ 32) :
    swap_uint32 v =
      ((((v % 2 ^ 8) <<< 8 ||| ((v >>> 8) % 2 ^ 8)) <<< 8 ||| ((v >>> 16) % 2 ^ 8)) <<< 8)
        ||| (v >>> 24) := by
  apply Nat.eq_of_testBit_eq
  intro i
  unfold swap_uint32
  simp only [Nat.testBit_or, Nat.testBit_and, Nat.testBit_shiftLeft, Nat.testBit_shiftRight,
    Nat.testBit_mod_two_pow, testBit_maskHi, testBit_maskLo]
  by_cases hi : i < 32
  · have hb : ∀ j, 32 ≤ j → v.testBit j = false := fun j hj => testBit_high v j hv hj
    interval_cases i <;> simp [hb]
  · have hb : ∀ j, v.testBit (j + i) = false := fun j => testBit_high v _ hv (by omega)
    have a1 : ¬ (i - 8 - 8 - 8 < 8) := by omega
    have a2 : ¬ (i - 8 - 8 < 8) := by omega
    have a3 : ¬ (i - 8 < 8) := by omega
    simp [hi, hb, a1, a2, a3]
    refine ⟨fun _ _ _ => by omega, fun _ => by omega⟩

theorem shiftLeft_or_eq_add (a b k : Nat) (hb : b < 2 ^ k) : (a <<< k) ||| b = a * 2 ^ k + b := by
  rw [Nat.shiftLeft_eq, Nat.mul_comm]
  exact (Nat.mul_add_lt_is_or hb a).symm

/-- Arithmetic description of `swap_uint32` on a 32-bit value. -/
theorem swap_uint32_eq (v : Nat) (hv : v < 2 ^ 32) :
    swap_uint32 v = (v % 256) * 2 ^ 24 + (v / 2 ^ 8 % 256) * 2 ^ 16 + (v / 2 ^ 16 % 256) * 2 ^ 8
      + v / 2 ^ 24 := by
  rw [swap_uint32_bits v hv]
  simp only [Nat.shiftRight_eq_div_pow]
  have h0 : v / 2 ^ 24 < 2 ^ 8 := by omega
  have h1 : v / 2 ^ 16 % 2 ^ 8 < 2 ^ 8 := Nat.mod_lt _ (by norm_num)
  have h2 : v / 2 ^ 8 % 2 ^ 8 < 2 ^ 8 := Nat.mod_lt _ (by norm_num)
  rw [shiftLeft_or_eq_add _ _ 8 h0, shiftLeft_or_eq_add _ _ 8 h1, shiftLeft_or_eq_add _ _ 8 h2]
  omega

/-- Arithmetic description of `swap_uint16` on a 16-bit value. -/
theorem swap_uint16_eq (v : Nat) (hv : v < 2 ^ 16) :
    swap_uint16 v = (v % 256) * 256 + v / 256 := by
  unfold swap_uint16
  have h0 : v >>> 8 < 2 ^ 8 := by rw [Nat.shiftRight_eq_div_pow]; omega
  rw [shiftLeft_or_eq_add _ _ 8 h0, Nat.shiftRight_eq_div_pow]
  omega

theorem swap_uint32_loadLE32 (frame : List Nat) (i : Int) :
    swap_uint32 (loadLE32 frame i) =
      frameAt frame i * 2 ^ 24 + frameAt frame (i + 1) * 2 ^ 16 + frameAt frame (i + 2) * 2 ^ 8
        + frameAt frame (i + 3) := by
  have h0 := frameAt_lt frame i
  have h1 := frameAt_lt frame (i + 1)
  have h2 := frameAt_lt frame (i + 2)
  have h3 := frameAt_lt frame (i + 3)
  rw [swap_uint32_eq _ (by unfold loadLE32; omega)]
  unfold loadLE32
  omega

theorem swap_uint16_loadLE16 (frame : List Nat) (i : Int) :
    swap_uint16 (loadLE16 frame i) = frameAt frame i * 256 + frameAt frame (i + 1) := by
  have h0 := frameAt_lt frame i
  have h1 := frameAt_lt frame (i + 1)
  rw [swap_uint16_eq _ (by unfold loadLE16; omega)]
  unfold loadLE16
  omega

/-! ## Floating point rounding -/

theorem log2Fuel_spec (fuel : Nat) : ∀ n : Nat, n ≤ fuel → n ≠ 0 →
    2 ^ log2Fuel fuel n ≤ n ∧ n < 2 ^ (log2Fuel fuel n + 1) := by
  induction fuel with
  | zero => intro n h h0; omega
  | succ k ih =>
    intro n h h0
    simp only [log2Fuel]
    split_ifs with h2
    · have : n = 1 := by omega
      subst this
      simp
    · obtain ⟨h3, h4⟩ := ih (n / 2) (by omega) (by omega)
      rw [pow_succ] at h4
      rw [pow_succ, pow_succ, pow_succ]
      generalize 2 ^ log2Fuel k (n / 2) = t at *
      constructor <;> omega

theorem floorLog2_spec (x : ℚ) (hx : 0 < x) :
    (2 : ℚ) ^ floorLog2 x ≤ x ∧ x < (2 : ℚ) ^ (floorLog2 x + 1) := by
  have hnum : 0 < x.num := Rat.num_pos.2 hx
  have hn0 : x.num.natAbs ≠ 0 := by omega
  have hd0 : x.den ≠ 0 := x.den_nz
  obtain ⟨a1, a2⟩ := log2Fuel_spec x.num.natAbs x.num.natAbs (le_refl _) hn0
  obtain ⟨b1, b2⟩ := log2Fuel_spec x.den x.den (le_refl _) hd0
  have hxe : x = (x.num.natAbs : ℚ) / (x.den : ℚ) := by
    have h2 : (x.num.natAbs : ℚ) = (x.num : ℚ) := by
      rw [Nat.cast_natAbs, abs_of_pos hnum]
    rw [h2]
    exact (Rat.num_div_den x).symm
  unfold floorLog2
  simp only []
  generalize x.num.natAbs = n at *
  generalize x.den = d at *
  generalize log2Fuel n n = a at *
  generalize log2Fuel d d = b at *
  have hdpos : (0 : ℚ) < d := by
    have : 0 < d := Nat.pos_of_ne_zero hd0
    exact_mod_cast this
  have hbpos : (0 : ℚ) < 2 ^ b := by positivity
  have a1q : ((2 : ℚ) ^ a) ≤ n := by exact_mod_cast a1
  have a2q : (n : ℚ) < 2 ^ (a + 1) := by exact_mod_cast a2
  have b1q : ((2 : ℚ) ^ b) ≤ d := by exact_mod_cast b1
  have b2q : (d : ℚ) < 2 ^ (b + 1) := by exact_mod_cast b2
  have hnpos : (0 : ℚ) < n := lt_of_lt_of_le (by positivity) a1q
  have k1 : (n : ℚ) * 2 ^ b < 2 ^ (a + 1) * d :=
    calc (n : ℚ) * 2 ^ b ≤ n * d := mul_le_mul_of_nonneg_left b1q hnpos.le
      _ < 2 ^ (a + 1) * d := mul_lt_mul_of_pos_right a2q hdpos
  have k2 : (2 : ℚ) ^ a * d < n * 2 ^ (b + 1) :=
    calc (2 : ℚ) ^ a * d ≤ n * d := mul_le_mul_of_nonneg_right a1q hdpos.le
      _ < n * 2 ^ (b + 1) := mul_lt_mul_of_pos_left b2q hnpos
  have two0 : (2 : ℚ) ≠ 0 := by norm_num
  have z : ∀ u v : Nat, (2 : ℚ) ^ ((u : Int) - (v : Int)) = 2 ^ u / 2 ^ v := by
    intro u v
    rw [zpow_sub₀ two0, zpow_natCast, zpow_natCast]
  have hb1pos : (0 : ℚ) < 2 ^ (b + 1) := by positivity
  rw [hxe]
  split_ifs with hc
  · have hcq : (d : ℚ) * 2 ^ a ≤ n * 2 ^ b := by exact_mod_cast hc
    have e1 : (a : Int) - b + 1 = ((a + 1 : Nat) : Int) - (b : Int) := by push_cast; ring
    rw [e1, z, z]
    constructor
    · rw [div_le_div_iff₀ hbpos hdpos]; linarith
    · rw [div_lt_div_iff₀ hdpos hbpos]; exact k1
  · have hcq : (n : ℚ) * 2 ^ b < d * 2 ^ a := by
      have : n * 2 ^ b < d * 2 ^ a := Nat.lt_of_not_le hc
      exact_mod_cast this
    have e1 : (a : Int) - b - 1 = (a : Int) - ((b + 1 : Nat) : Int) := by push_cast; ring
    have e2 : (a : Int) - b - 1 + 1 = (a : Int) - (b : Int) := by ring
    rw [e2, e1, z, z]
    constructor
    · rw [div_le_div_iff₀ hb1pos hdpos]; exact k2.le
    · rw [div_lt_div_iff₀ hdpos hbpos]; linarith

theorem le_floorLog2 (x : ℚ) (k : Int) (hx : 0 < x) (h : (2 : ℚ) ^ k ≤ x) : k ≤ floorLog2 x := by
  by_contra hlt
  have h1 : floorLog2 x + 1 ≤ k := by omega
  have h2 : (2 : ℚ) ^ (floorLog2 x + 1) ≤ 2 ^ k := zpow_le_zpow_right₀ (by norm_num) h1
  have h3 := (floorLog2_spec x hx).2
  linarith

theorem floorLog2_lt (x : ℚ) (k : Int) (hx : 0 < x) (h : x < (2 : ℚ) ^ k) : floorLog2 x < k := by
  by_contra hge
  have h1 : k ≤ floorLog2 x := by omega
  have h2 : (2 : ℚ) ^ k ≤ 2 ^ floorLog2 x := zpow_le_zpow_right₀ (by norm_num) h1
  have h3 := (floorLog2_spec x hx).1
  linarith

theorem roundHalfEven_intCast (m : Int) : roundHalfEven (m : ℚ) = m := by
  simp [roundHalfEven]

theorem roundHalfEven_floor_le (x : ℚ) : ⌊x⌋ ≤ roundHalfEven x := by
  unfold roundHalfEven
  simp only []
  split_ifs <;> omega

theorem roundHalfEven_nonneg (x : ℚ) (hx : 0 ≤ x) : 0 ≤ roundHalfEven x :=
  le_trans (Int.floor_nonneg.2 hx) (roundHalfEven_floor_le x)

theorem roundHalfEven_abs_sub_le (x : ℚ) : |(roundHalfEven x : ℚ) - x| ≤ 1 / 2 := by
  have h1 := Int.floor_le x
  have h2 := Int.lt_floor_add_one x
  unfold roundHalfEven
  simp only []
  rw [abs_le]
  split_ifs with a b c
  · constructor <;> linarith
  · push_cast; constructor <;> linarith
  · constructor <;> linarith
  · push_cast; constructor <;> linarith

theorem roundBinary_nonneg (p : Nat) (emin : Int) (x : ℚ) (hx : 0 ≤ x) :
    0 ≤ roundBinary p emin x := by
  unfold roundBinary
  split_ifs
  · exact le_refl _
  · simp only []
    have hu : (0 : ℚ) < (2 : ℚ) ^ (max (floorLog2 |x|) emin - ((p : Int) - 1)) :=
      zpow_pos (by norm_num) _
    apply mul_nonneg _ hu.le
    exact_mod_cast roundHalfEven_nonneg _ (div_nonneg hx hu.le)

theorem roundBinary_natCast (p : Nat) (emin : Int) (n : Nat) (hn : n < 2 ^ p) (he : emin ≤ 0) :
    roundBinary p emin (n : ℚ) = n := by
  unfold roundBinary
  split_ifs with h0
  · exact h0.symm
  · simp only []
    have hpos : (0 : ℚ) < n := by
      have : (n : ℚ) ≠ 0 := h0
      positivity
    have habs : |(n : ℚ)| = n := abs_of_pos hpos
    rw [habs]
    have h1 : (1 : ℚ) ≤ n := by
      have : 0 < n := by exact_mod_cast hpos
      exact_mod_cast this
    have hlog0 : 0 ≤ floorLog2 (n : ℚ) := le_floorLog2 _ 0 hpos (by simpa using h1)
    have hlogp : floorLog2 (n : ℚ) < p := by
      apply floorLog2_lt _ _ hpos
      rw [zpow_natCast]
      exact_mod_cast hn
    have hmax : max (floorLog2 (n : ℚ)) emin = floorLog2 (n : ℚ) := max_eq_left (by omega)
    rw [hmax]
    obtain ⟨j, hj⟩ : ∃ j : Nat, floorLog2 (n : ℚ) - ((p : Int) - 1) = -(j : Int) :=
      ⟨((p : Int) - 1 - floorLog2 (n : ℚ)).toNat, by omega⟩
    rw [hj, zpow_neg, zpow_natCast, div_inv_eq_mul]
    have : ((n : ℚ) * 2 ^ j) = (((n * 2 ^ j : Nat) : Int) : ℚ) := by push_cast; rfl
    rw [this, roundHalfEven_intCast]
    push_cast
    field_simp

theorem roundBinary_abs_sub_le (p : Nat) (emin : Int) (x : ℚ) (hx : (2 : ℚ) ^ emin ≤ |x|) :
    |roundBinary p emin x - x| ≤ |x| / 2 ^ (p : Nat) := by
  have hxpos : 0 < |x| := lt_of_lt_of_le (zpow_pos (by norm_num) _) hx
  have hx0 : x ≠ 0 := abs_pos.1 hxpos
  have hlog : emin ≤ floorLog2 |x| := le_floorLog2 _ _ hxpos hx
  unfold roundBinary
  rw [if_neg hx0]
  simp only []
  rw [max_eq_left hlog]
  have hu : (0 : ℚ) < (2 : ℚ) ^ (floorLog2 |x| - ((p : Int) - 1)) := zpow_pos (by norm_num) _
  have hle : (2 : ℚ) ^ (floorLog2 |x|) ≤ |x| := (floorLog2_spec _ hxpos).1
  have hulp : (2 : ℚ) ^ (floorLog2 |x| - ((p : Int) - 1)) = (2 : ℚ) ^ (floorLog2 |x|) / 2 ^ p * 2 := by
    rw [zpow_sub₀ (by norm_num), zpow_sub₀ (by norm_num), zpow_natCast, zpow_one]
    field_simp
  have hr := roundHalfEven_abs_sub_le (x / (2 : ℚ) ^ (floorLog2 |x| - ((p : Int) - 1)))
  have heq : (roundHalfEven (x / (2 : ℚ) ^ (floorLog2 |x| - ((p : Int) - 1))) : ℚ)
        * (2 : ℚ) ^ (floorLog2 |x| - ((p : Int) - 1)) - x
      = ((roundHalfEven (x / (2 : ℚ) ^ (floorLog2 |x| - ((p : Int) - 1))) : ℚ)
        - x / (2 : ℚ) ^ (floorLog2 |x| - ((p : Int) - 1)))
        * (2 : ℚ) ^ (floorLog2 |x| - ((p : Int) - 1)) := by
    field_simp
  rw [heq, abs_mul, abs_of_pos hu]
  have h2p : (0 : ℚ) < 2 ^ p := by positivity
  calc _ ≤ 1 / 2 * (2 : ℚ) ^ (floorLog2 |x| - ((p : Int) - 1)) :=
        mul_le_mul_of_nonneg_right hr hu.le
    _ = (2 : ℚ) ^ (floorLog2 |x|) / 2 ^ p := by rw [hulp]; ring
    _ ≤ |x| / 2 ^ p := div_le_div_of_nonneg_right hle h2p.le

theorem toFloat_toDouble_abs_sub_le (x : ℚ) (hx : 1 / 1024 ≤ x) :
    |toFloat (toDouble x) - x| ≤ x / 2 ^ 23 := by
  have hxpos : 0 < x := lt_of_lt_of_le (by norm_num) hx
  have habs : |x| = x := abs_of_pos hxpos
  have e1 : (2 : ℚ) ^ (-1022 : Int) ≤ 1 / 1024 := by
    have : (1 : ℚ) / 1024 = 2 ^ (-10 : Int) := by norm_num
    rw [this]
    exact zpow_le_zpow_right₀ (by norm_num) (by norm_num)
  have e2 : (2 : ℚ) ^ (-126 : Int) ≤ 1 / 2048 := by
    have : (1 : ℚ) / 2048 = 2 ^ (-11 : Int) := by norm_num
    rw [this]
    exact zpow_le_zpow_right₀ (by norm_num) (by norm_num)
  have hd := roundBinary_abs_sub_le 53 (-1022) x (by rw [habs]; exact le_trans e1 hx)
  rw [habs, abs_le] at hd
  have hD : toDouble x = roundBinary 53 (-1022) x := rfl
  have h53 : (0 : ℚ) < 2 ^ 53 := by positivity
  have hq : x / 2 ^ 53 ≤ x / 2 := by
    apply div_le_div_of_nonneg_left hxpos.le (by norm_num) (by norm_num)
  have hDlo : x / 2 ≤ toDouble x := by rw [hD]; linarith [hd.1]
  have hDpos : 0 < toDouble x := by linarith
  have hDabs : |toDouble x| = toDouble x := abs_of_pos hDpos
  have hx2 : (1 : ℚ) / 2048 ≤ x / 2 := by linarith
  have hf := roundBinary_abs_sub_le 24 (-126) (toDouble x)
    (by rw [hDabs]; exact le_trans e2 (le_trans hx2 hDlo))
  rw [hDabs, abs_le] at hf
  have hF : toFloat (toDouble x) = roundBinary 24 (-126) (toDouble x) := rfl
  have hDhi : toDouble x ≤ x + x / 2 ^ 53 := by rw [hD]; linarith [hd.2]
  have hb : toDouble x / 2 ^ 24 ≤ (x + x / 2 ^ 53) / 2 ^ 24 :=
    div_le_div_of_nonneg_right hDhi (by positivity)
  have hfinal : (x + x / 2 ^ 53) / 2 ^ 24 + x / 2 ^ 53 ≤ x / 2 ^ 23 := by
    have : (x + x / 2 ^ 53) / 2 ^ 24 + x / 2 ^ 53 = x * ((1 + 1 / 2 ^ 53) / 2 ^ 24 + 1 / 2 ^ 53) := by
      ring
    rw [this, div_eq_mul_one_div x]
    apply mul_le_mul_of_nonneg_left _ hxpos.le
    norm_num
  rw [abs_le, hF]
  constructor <;> linarith [hf.1, hf.2, hd.1, hd.2]

theorem toFloat_natCast (n : Nat) (hn : n < 2 ^ 24) : toFloat (n : ℚ) = n :=
  roundBinary_natCast 24 (-126) n hn (by norm_num)

theorem toDouble_natCast (n : Nat) (hn : n < 2 ^ 53) : toDouble (n : ℚ) = n :=
  roundBinary_natCast 53 (-1022) n hn (by norm_num)

theorem toFloat_nonneg (x : ℚ) (hx : 0 ≤ x) : 0 ≤ toFloat x := roundBinary_nonneg _ _ x hx

theorem toDouble_nonneg (x : ℚ) (hx : 0 ≤ x) : 0 ≤ toDouble x := roundBinary_nonneg _ _ x hx

theorem swap_uint16_lt (val : Nat) : swap_uint16 val < 2 ^ 16 :=
  Nat.mod_lt _ (by norm_num)

/-- The conversion of a `uint16_t` to `float` is exact. -/
@[simp] theorem toFloat_swap_uint16 (val : Nat) :
    toFloat ((swap_uint16 val : Nat) : ℚ) = (swap_uint16 val : ℚ) :=
  toFloat_natCast _ (lt_trans (swap_uint16_lt val) (by norm_num))

/-- A quotient that is an integer is computed exactly. -/
theorem toFloat_toDouble_div_exact (raw d q : Nat) (hq : raw = q * d) (hd : 0 < d)
    (hraw : raw < 2 ^ 24) :
    toFloat (toDouble ((raw : ℚ) / (d : ℚ))) = q := by
  have hqlt : q < 2 ^ 24 := by
    have : q ≤ q * d := Nat.le_mul_of_pos_right q hd
    omega
  have hd0 : (d : ℚ) ≠ 0 := by exact_mod_cast hd.ne'
  rw [hq]
  push_cast
  rw [mul_div_assoc, div_self hd0, mul_one, toDouble_natCast q (lt_trans hqlt (by norm_num)),
    toFloat_natCast q hqlt]

/-- The quotient of an unsigned 16-bit value by 1, 10, 100 or 1000, computed in `double`
and stored in a `float`, is within the fraction 2^-23 of the exact quotient. -/
theorem toFloat_toDouble_div_error (raw d : Nat) (hd : 0 < d) (hd2 : d ≤ 1000) :
    |toFloat (toDouble ((raw : ℚ) / (d : ℚ))) - (raw : ℚ) / (d : ℚ)|
      ≤ (raw : ℚ) / (d : ℚ) / 2 ^ 23 := by
  rcases Nat.eq_zero_or_pos raw with h0 | hpos
  · subst h0
    have : toFloat (toDouble ((0 : Nat) : ℚ)) = ((0 : Nat) : ℚ) := by
      rw [toDouble_natCast 0 (by norm_num), toFloat_natCast 0 (by norm_num)]
    simp only [Nat.cast_zero, zero_div] at this ⊢
    rw [this]
    simp
  · apply toFloat_toDouble_abs_sub_le
    have hdq : (0 : ℚ) < d := by exact_mod_cast hd
    have hd2q : (d : ℚ) ≤ 1000 := by exact_mod_cast hd2
    have hrq : (1 : ℚ) ≤ raw := by exact_mod_cast hpos
    rw [le_div_iff₀ hdq]
    linarith

/-! ## The setters, field by field -/

@[simp] theorem State.print_current_position (s : State) (m : Msg) :
    (s.print m).current_position = s.current_position := rfl

@[simp] theorem State.print_reading (s : State) (m : Msg) :
    (s.print m).reading = s.reading := rfl

@[simp] theorem State.print_dataFound (s : State) (m : Msg) :
    (s.print m).dataFound = s.dataFound := rfl

@[simp] theorem State.print_serial (s : State) (m : Msg) :
    (s.print m).serial = s.serial ++ [m] := rfl

@[simp] theorem State.print_reads (s : State) (m : Msg) :
    (s.print m).reads = s.reads := rfl

@[simp] theorem State.print_assigned (s : State) (m : Msg) :
    (s.print m).assigned = s.assigned := rfl

@[simp] theorem State.rd_current_position (s : State) (is : List Int) :
    (s.rd is).current_position = s.current_position := rfl

@[simp] theorem State.rd_reading (s : State) (is : List Int) :
    (s.rd is).reading = s.reading := rfl

@[simp] theorem State.rd_dataFound (s : State) (is : List Int) :
    (s.rd is).dataFound = s.dataFound := rfl

@[simp] theorem State.rd_serial (s : State) (is : List Int) :
    (s.rd is).serial = s.serial := rfl

@[simp] theorem State.rd_reads (s : State) (is : List Int) :
    (s.rd is).reads = s.reads ++ is := rfl

@[simp] theorem State.rd_assigned (s : State) (is : List Int) :
    (s.rd is).assigned = s.assigned := rfl

@[simp] theorem State.goto_current_position (s : State) (p : Int) :
    (s.goto p).current_position = p := rfl

@[simp] theorem State.goto_reading (s : State) (p : Int) :
    (s.goto p).reading = s.reading := rfl

@[simp] theorem State.goto_dataFound (s : State) (p : Int) :
    (s.goto p).dataFound = s.dataFound := rfl

@[simp] theorem State.goto_serial (s : State) (p : Int) :
    (s.goto p).serial = s.serial := rfl

@[simp] theorem State.goto_reads (s : State) (p : Int) :
    (s.goto p).reads = s.reads := rfl

@[simp] theorem State.goto_assigned (s : State) (p : Int) :
    (s.goto p).assigned = s.assigned := rfl

@[simp] theorem State.found_current_position (s : State) :
    (s.found).current_position = s.current_position := rfl

@[simp] theorem State.found_reading (s : State) :
    (s.found).reading = s.reading := rfl

@[simp] theorem State.found_dataFound (s : State) :
    (s.found).dataFound = true := rfl

@[simp] theorem State.found_serial (s : State) :
    (s.found).serial = s.serial := rfl

@[simp] theorem State.found_reads (s : State) :
    (s.found).reads = s.reads := rfl

@[simp] theorem State.found_assigned (s : State) :
    (s.found).assigned = s.assigned := rfl

@[simp] theorem State.store_current_position (s : State) (f : Field) (r : Reading) :
    (s.store f r).current_position = s.current_position := rfl

@[simp] theorem State.store_reading (s : State) (f : Field) (r : Reading) :
    (s.store f r).reading = r := rfl

@[simp] theorem State.store_dataFound (s : State) (f : Field) (r : Reading) :
    (s.store f r).dataFound = s.dataFound := rfl

@[simp] theorem State.store_serial (s : State) (f : Field) (r : Reading) :
    (s.store f r).serial = s.serial := rfl

@[simp] theorem State.store_reads (s : State) (f : Field) (r : Reading) :
    (s.store f r).reads = s.reads := rfl

@[simp] theorem State.store_assigned (s : State) (f : Field) (r : Reading) :
    (s.store f r).assigned = s.assigned ++ [f] := rfl

@[simp] theorem finish_some (s : State) (n : Nat) (f : Field) (r : Reading) :
    finish s n (some (f, r)) = { st := s.store f r, data_length := n, known_obis := true } := rfl

@[simp] theorem finish_none (s : State) (n : Nat) :
    finish s n none = { st := s, data_length := n, known_obis := false } := rfl

@[simp] theorem finish_data_length (s : State) (n : Nat) (a : Option (Field × Reading)) :
    (finish s n a).data_length = n := by
  cases a <;> rfl

@[simp] theorem finish_known_obis (s : State) (n : Nat) (a : Option (Field × Reading)) :
    (finish s n a).known_obis = a.isSome := by
  cases a <;> rfl

@[simp] theorem finish_current_position (s : State) (n : Nat) (a : Option (Field × Reading)) :
    (finish s n a).st.current_position = s.current_position := by
  cases a <;> rfl

@[simp] theorem finish_serial (s : State) (n : Nat) (a : Option (Field × Reading)) :
    (finish s n a).st.serial = s.serial := by
  cases a <;> rfl

@[simp] theorem finish_reads (s : State) (n : Nat) (a : Option (Field × Reading)) :
    (finish s n a).st.reads = s.reads := by
  cases a <;> rfl

@[simp] theorem finish_dataFound (s : State) (n : Nat) (a : Option (Field × Reading)) :
    (finish s n a).st.dataFound = s.dataFound := by
  cases a <;> rfl

/-! ## One iteration of the loop -/

@[simp] theorem identState_current_position (frame : List Nat) (s : State) :
    (identState frame s).current_position = s.current_position + 8 := by
  simp [identState]

@[simp] theorem tagState_current_position (frame : List Nat) (s : State) :
    (tagState frame s).current_position = s.current_position + 9 := by
  simp [tagState, add_assoc]

@[simp] theorem tagState_reading (frame : List Nat) (s : State) :
    (tagState frame s).reading = s.reading := by
  simp [tagState, identState]

@[simp] theorem tagState_dataFound (frame : List Nat) (s : State) :
    (tagState frame s).dataFound = s.dataFound := by
  simp [tagState, identState]

@[simp] theorem tagState_assigned (frame : List Nat) (s : State) :
    (tagState frame s).assigned = s.assigned := by
  simp [tagState, identState]

@[simp] theorem tagState_serial (frame : List Nat) (s : State) :
    (tagState frame s).serial = s.serial ++
      [Msg.foundObis s.current_position (obisAt frame s.current_position)
          (getObisDescription (obisAt frame s.current_position)),
        Msg.dataType (s.current_position + 8) (frameAt frame (s.current_position + 8))] := by
  simp [tagState, identState]

@[simp] theorem tagState_reads (frame : List Nat) (s : State) :
    (tagState frame s).reads = s.reads ++
      [s.current_position, s.current_position + 1, s.current_position + 2,
        s.current_position + 3, s.current_position + 4, s.current_position + 5,
        s.current_position + 6, s.current_position + 7, s.current_position + 8] := by
  simp [tagState, identState]

theorem element_eq (frame : List Nat) (length : Int) (s : State) :
    element frame length s =
      switchDataType frame length (obisAt frame s.current_position)
        (frameAt frame (s.current_position + 8)) (tagState frame s) := by
  simp [element]

/-- In the loop, at a marker, the test of source line 95 holds and the body is the element
followed by lines 192-201. -/
theorem step_of_marker (frame : List Nat) (length : Int) (s : State)
    (hloop : s.current_position < length - 10)
    (hmark : isMarker frame s.current_position = true) :
    step frame length s = afterSwitch frame length (element frame length s) := by
  have h : s.current_position + 8 < length := by omega
  simp [step, hmark, h]

theorem step_of_not_marker (frame : List Nat) (length : Int) (s : State)
    (hmark : isMarker frame s.current_position = false) :
    (step frame length s).current_position = s.current_position + 1
      ∧ (step frame length s).reading = s.reading
      ∧ (step frame length s).dataFound = s.dataFound
      ∧ (step frame length s).serial = s.serial
      ∧ (step frame length s).assigned = s.assigned := by
  simp [step, hmark]

theorem afterSwitch_reading (frame : List Nat) (length : Int) (e : Element) :
    (afterSwitch frame length e).reading = e.st.reading := by
  unfold afterSwitch
  simp only []
  split_ifs <;> simp

theorem afterSwitch_dataFound (frame : List Nat) (length : Int) (e : Element) :
    (afterSwitch frame length e).dataFound = (e.known_obis || e.st.dataFound) := by
  unfold afterSwitch
  simp only []
  split_ifs <;> simp_all

theorem afterSwitch_assigned (frame : List Nat) (length : Int) (e : Element) :
    (afterSwitch frame length e).assigned = e.st.assigned := by
  unfold afterSwitch
  simp only []
  split_ifs <;> simp

/-- Lines 192-201 move the cursor over the payload and over at most one two-byte
separator. -/
theorem afterSwitch_current_position (frame : List Nat) (length : Int) (e : Element) :
    (afterSwitch frame length e).current_position =
      if e.st.current_position + e.data_length < length - 1
          ∧ (frameAt frame (e.st.current_position + e.data_length) = 0x02
            ∨ frameAt frame (e.st.current_position + e.data_length) = 0x0F)
      then e.st.current_position + e.data_length + 2
      else e.st.current_position + e.data_length := by
  unfold afterSwitch
  simp only []
  split_ifs <;> simp_all

/-! ## The cursor after an element -/

theorem caseLongDoubleUnsigned_position (frame : List Nat) (length : Int) (obis_code : List Nat)
    (s : State) :
    (caseLongDoubleUnsigned frame length obis_code s).st.current_position
      = s.current_position := by
  unfold caseLongDoubleUnsigned
  simp only []
  split_ifs <;> simp

theorem caseLongUnsigned_position (frame : List Nat) (length : Int) (obis_code : List Nat)
    (s : State) :
    (caseLongUnsigned frame length obis_code s).st.current_position = s.current_position := by
  unfold caseLongUnsigned
  simp only []
  split_ifs <;> simp

theorem caseOctetString_position (frame : List Nat) (length : Int) (obis_code : List Nat)
    (s : State) (h : s.current_position < length) :
    (caseOctetString frame length obis_code s).st.current_position
      = s.current_position + 1 := by
  unfold caseOctetString
  simp only [h, if_true]
  split_ifs <;> simp

/-- Inside the loop the `switch` leaves the cursor after the tag, after the length byte of
an octet string, or at the frame end. -/
theorem element_position (frame : List Nat) (length : Int) (s : State)
    (hloop : s.current_position < length - 10) :
    (element frame length s).st.current_position = s.current_position + 9
      ∨ (element frame length s).st.current_position = s.current_position + 10
      ∨ ((element frame length s).st.current_position = length
          ∧ (element frame length s).data_length = 0) := by
  rw [element_eq]
  unfold switchDataType
  split_ifs
  · left; rw [caseLongDoubleUnsigned_position]; simp
  · left; rw [caseLongUnsigned_position]; simp
  · right; left
    rw [caseOctetString_position _ _ _ _ (by simp; omega)]
    simp [add_assoc]
  · left; simp
  · right; right; simp

/-- At a marker the cursor advances by at least 9. -/
theorem step_position_of_marker (frame : List Nat) (length : Int) (s : State)
    (hloop : s.current_position < length - 10)
    (hmark : isMarker frame s.current_position = true) :
    s.current_position + 9 ≤ (step frame length s).current_position := by
  rw [step_of_marker frame length s hloop hmark, afterSwitch_current_position]
  have h := element_position frame length s hloop
  have hd : (0 : Int) ≤ ((element frame length s).data_length : Int) := Int.natCast_nonneg _
  split_ifs <;> omega

/-- Every iteration advances the cursor. -/
theorem step_position_lt (frame : List Nat) (length : Int) (s : State)
    (hloop : s.current_position < length - 10) :
    s.current_position + 1 ≤ (step frame length s).current_position := by
  cases hmark : isMarker frame s.current_position
  · rw [(step_of_not_marker frame length s hmark).1]
  · have := step_position_of_marker frame length s hloop hmark
    omega

/-! ## The loop -/

theorem scanLoop_of_exit (frame : List Nat) (length : Int) (fuel : Nat) (s : State)
    (h : ¬ s.current_position < length - 10) : scanLoop frame length fuel s = s := by
  cases fuel <;> simp [scanLoop, h]

theorem loopState_position (frame : List Nat) (length : Int) (n : Nat)
    (h : ∀ k, k < n → (loopState frame length k).current_position < length - 10) :
    20 + (n : Int) ≤ (loopState frame length n).current_position := by
  induction n with
  | zero => simp [loopState, initState]
  | succ n ih =>
    have h1 := ih (fun k hk => h k (by omega))
    have h2 := step_position_lt frame length _ (h n (by omega))
    simp only [loopState]
    push_cast
    omega

/-- While the loop condition holds, `n` iterations of `scanLoop` with enough fuel lead from
the initial state to `loopState n`. -/
theorem scanLoop_loopState (frame : List Nat) (length : Int) (n fuel : Nat)
    (h : ∀ k, k < n → (loopState frame length k).current_position < length - 10) :
    scanLoop frame length (n + fuel) initState
      = scanLoop frame length fuel (loopState frame length n) := by
  induction n generalizing fuel with
  | zero => simp [loopState]
  | succ n ih =>
    have h1 := ih (fuel + 1) (fun k hk => h k (by omega))
    have e : n + 1 + fuel = n + (fuel + 1) := by omega
    rw [e, h1]
    simp [scanLoop, loopState, h n (by omega)]

/-- The body cannot run more than `length` times. -/
theorem iterations_le (frame : List Nat) (length : Int) (n : Nat)
    (h : ∀ k, k < n → (loopState frame length k).current_position < length - 10) :
    n ≤ length.toNat := by
  rcases Nat.eq_zero_or_pos n with h0 | hpos
  · omega
  · have h1 := loopState_position frame length (n - 1) (fun k hk => h k (by omega))
    have h2 := h (n - 1) (by omega)
    have h3 : ((n - 1 : Nat) : Int) = (n : Int) - 1 := by omega
    omega

/-- The state in which the loop condition first fails is the state `scanFrame` returns. -/
theorem scanFrame_eq_loopState (frame : List Nat) (length : Int) (n : Nat)
    (h : ∀ k, k < n → (loopState frame length k).current_position < length - 10)
    (hexit : ¬ (loopState frame length n).current_position < length - 10) :
    scanFrame frame length = loopState frame length n := by
  have hn := iterations_le frame length n h
  unfold scanFrame
  have e : length.toNat = n + (length.toNat - n) := by omega
  rw [e, scanLoop_loopState frame length _ _ h]
  exact scanLoop_of_exit frame length _ _ hexit

/-- The loop is left after at most `length` iterations: `scanFrame` is the state after some
`n ≤ length` iterations, the first one at which the loop condition fails. -/
theorem scanFrame_exits (frame : List Nat) (length : Int) :
    ∃ n : Nat, n ≤ length.toNat
      ∧ scanFrame frame length = loopState frame length n
      ∧ ¬ (loopState frame length n).current_position < length - 10
      ∧ ∀ k, k < n → (loopState frame length k).current_position < length - 10 := by
  have hex : ∃ n, ¬ (loopState frame length n).current_position < length - 10 := by
    by_contra hall
    push_neg at hall
    have h1 := loopState_position frame length length.toNat (fun k _ => hall k)
    have h2 := hall length.toNat
    omega
  have hmin : ∀ k, k < Nat.find hex →
      (loopState frame length k).current_position < length - 10 := by
    intro k hk
    have := Nat.find_min hex hk
    push_neg at this
    exact this
  exact ⟨Nat.find hex, iterations_le frame length _ hmin,
    scanFrame_eq_loopState frame length _ hmin (Nat.find_spec hex), Nat.find_spec hex, hmin⟩

/-- More fuel than `length` does not change the result of the loop. -/
theorem scanLoop_fuel (frame : List Nat) (length : Int) (fuel : Nat)
    (h : length.toNat ≤ fuel) :
    scanLoop frame length fuel initState = scanFrame frame length := by
  obtain ⟨n, hn, heq, hexit, hmin⟩ := scanFrame_exits frame length
  have e : fuel = n + (fuel - n) := by omega
  rw [e, scanLoop_loopState frame length _ _ hmin, heq]
  exact scanLoop_of_exit frame length _ _ hexit

/-! ## What an element does to the Reading -/

theorem applyScaler_nonneg (frame : List Nat) (length : Int) (cp : Int) (x : ℚ) (hx : 0 ≤ x) :
    0 ≤ applyScaler frame length cp x := by
  unfold applyScaler
  simp only []
  split_ifs
  · exact toFloat_nonneg _ (toDouble_nonneg _ (by positivity))
  · exact toFloat_nonneg _ (toDouble_nonneg _ (by positivity))
  · exact toFloat_nonneg _ (toDouble_nonneg _ (by positivity))
  · exact hx
  · exact hx

theorem fmtUnsigned_length (width n : Nat) : width ≤ (fmtUnsigned width n).length := by
  unfold fmtUnsigned
  simp only [List.length_append, List.length_replicate]
  omega

theorem formatTimestamp_length (year month day hour minute second : Nat) :
    (formatTimestamp year month day hour minute second).length = 19 := by
  unfold formatTimestamp
  have h4 := fmtUnsigned_length 4 year
  have h1 := fmtUnsigned_length 2 month
  have h2 := fmtUnsigned_length 2 day
  have h3 := fmtUnsigned_length 2 hour
  have h5 := fmtUnsigned_length 2 minute
  have h6 := fmtUnsigned_length 2 second
  simp only [String.length, List.length_take, List.length_append, List.length_singleton]
  omega

theorem writes_longDoubleUnsigned (obis_code : List Nat) (v : Nat) (r : Reading) (f : Field)
    (r2 : Reading) (h : assignLongDoubleUnsigned obis_code v r = some (f, r2)) :
    Writes f r r2 := by
  unfold assignLongDoubleUnsigned at h
  split_ifs at h <;> simp only [Option.some.injEq, Prod.mk.injEq] at h <;>
    obtain ⟨rfl, rfl⟩ := h <;>
    refine ⟨fun g hg => ?_, fun hne => absurd rfl hne⟩ <;>
    cases g <;> simp_all [Reading.sentinel, Reading.present]

theorem writes_longUnsigned (obis_code : List Nat) (x : ℚ) (hx : 0 ≤ x) (r : Reading)
    (f : Field) (r2 : Reading) (h : assignLongUnsigned obis_code x r = some (f, r2)) :
    Writes f r r2 := by
  unfold assignLongUnsigned at h
  split_ifs at h <;> simp only [Option.some.injEq, Prod.mk.injEq] at h <;>
    obtain ⟨rfl, rfl⟩ := h <;>
    refine ⟨fun g hg => ?_, fun _ => hx⟩ <;>
    cases g <;> simp_all [Reading.sentinel, Reading.present]

theorem writes_timestamp (r : Reading) (t : String) (ht : 0 < t.length) :
    Writes Field.timestamp r { r with timestamp := t } := by
  refine ⟨fun g hg => ?_, fun _ => ht⟩
  cases g <;> simp_all [Reading.sentinel, Reading.present]

theorem effect_finish (s s1 : State) (n : Nat) (a : Option (Field × Reading))
    (hr : s1.reading = s.reading) (hd : s1.dataFound = s.dataFound)
    (ha : s1.assigned = s.assigned)
    (hw : ∀ f r2, a = some (f, r2) → Writes f s.reading r2) :
    Effect s (finish s1 n a) := by
  cases a with
  | none => exact ⟨by simp [hd], Or.inl ⟨by simp, by simp [hr], by simp [ha]⟩⟩
  | some p =>
    obtain ⟨f, r2⟩ := p
    exact ⟨by simp [hd], Or.inr ⟨by simp, f, by simp [ha], by simpa using hw f r2 rfl⟩⟩

theorem effect_skip (s s1 : State) (n : Nat)
    (hr : s1.reading = s.reading) (hd : s1.dataFound = s.dataFound)
    (ha : s1.assigned = s.assigned) :
    Effect s { st := s1, data_length := n, known_obis := false } :=
  ⟨hd, Or.inl ⟨rfl, hr, ha⟩⟩

theorem effect_caseLongDoubleUnsigned (frame : List Nat) (length : Int) (obis_code : List Nat)
    (s : State) : Effect s (caseLongDoubleUnsigned frame length obis_code s) := by
  unfold caseLongDoubleUnsigned
  simp only []
  split_ifs
  · exact effect_finish s _ _ _ (by simp) (by simp) (by simp)
      (fun f r2 h => writes_longDoubleUnsigned _ _ _ f r2 h)
  · exact effect_skip s _ _ (by simp) (by simp) (by simp)

theorem effect_caseLongUnsigned (frame : List Nat) (length : Int) (obis_code : List Nat)
    (s : State) : Effect s (caseLongUnsigned frame length obis_code s) := by
  unfold caseLongUnsigned
  simp only []
  split_ifs
  · exact effect_finish s _ _ _ (by simp) (by simp) (by simp)
      (fun f r2 h => writes_longUnsigned _ _
        (applyScaler_nonneg _ _ _ _ (toFloat_nonneg _ (Nat.cast_nonneg _))) _ f r2 h)
  · exact effect_finish s _ _ _ (by simp) (by simp) (by simp)
      (fun f r2 h => writes_longUnsigned _ _
        (applyScaler_nonneg _ _ _ _ (toFloat_nonneg _ (Nat.cast_nonneg _))) _ f r2 h)
  · exact effect_skip s _ _ (by simp) (by simp) (by simp)

theorem effect_caseOctetString (frame : List Nat) (length : Int) (obis_code : List Nat)
    (s : State) : Effect s (caseOctetString frame length obis_code s) := by
  have hw : ∀ cp : Int, Writes Field.timestamp s.reading
      { s.reading with timestamp := decodeTimestamp frame cp } :=
    fun cp => writes_timestamp _ _ (by unfold decodeTimestamp; simp [formatTimestamp_length])
  unfold caseOctetString
  simp only []
  split_ifs <;> first
    | (exfalso; simp_all; done)
    | (refine effect_finish s _ _ _ ?_ ?_ ?_ ?_ <;> first
        | (simp; done)
        | (intro f r2 h
           simp only [Option.some.injEq, Prod.mk.injEq] at h
           obtain ⟨rfl, rfl⟩ := h
           exact hw _))
    | (refine effect_skip s _ _ ?_ ?_ ?_ <;> simp)

/-- Whatever the type tag, an element either leaves the Reading alone or performs one
assignment. -/
theorem effect_element (frame : List Nat) (length : Int) (s : State) :
    Effect s (element frame length s) := by
  have key : ∀ (t : State) (obis_code : List Nat) (data_type : Nat),
      t.reading = s.reading → t.dataFound = s.dataFound → t.assigned = s.assigned →
      Effect s (switchDataType frame length obis_code data_type t) := by
    intro t obis_code data_type hr hd ha
    have tr : ∀ e, Effect t e → Effect s e := by
      intro e he
      unfold Effect at he ⊢
      rw [hr, hd, ha] at he
      exact he
    unfold switchDataType
    split_ifs
    · exact tr _ (effect_caseLongDoubleUnsigned frame length obis_code t)
    · exact tr _ (effect_caseLongUnsigned frame length obis_code t)
    · exact tr _ (effect_caseOctetString frame length obis_code t)
    · exact effect_skip s _ _ hr hd ha
    · exact effect_skip s _ _ (by simp [hr]) (by simp [hd]) (by simp [ha])
  rw [element_eq]
  exact key _ _ _ (by simp) (by simp) (by simp)

/-! ## The invariant of the scan -/

/-- What one iteration does to the data-found flag, the Reading and the assigned fields. -/
theorem step_effect (frame : List Nat) (length : Int) (s : State)
    (hloop : s.current_position < length - 10) :
    (step frame length s).dataFound = (assignsField frame length s || s.dataFound)
      ∧ (assignsField frame length s = false →
          (step frame length s).reading = s.reading
            ∧ (step frame length s).assigned = s.assigned)
      ∧ (assignsField frame length s = true →
          ∃ f, (step frame length s).assigned = s.assigned ++ [f]
            ∧ Writes f s.reading (step frame length s).reading) := by
  cases hmark : isMarker frame s.current_position
  · have h := step_of_not_marker frame length s hmark
    simp [assignsField, hmark, h.2.1, h.2.2.1, h.2.2.2.2]
  · have hstep := step_of_marker frame length s hloop hmark
    obtain ⟨hd, he⟩ := effect_element frame length s
    rw [hstep, afterSwitch_dataFound, afterSwitch_reading, afterSwitch_assigned, hd]
    simp only [assignsField, hmark, Bool.true_and]
    rcases he with ⟨hk, hr, ha⟩ | ⟨hk, f, ha, hw⟩
    · simp [hk, hr, ha]
    · simp only [hk, Bool.true_or, true_and]
      exact ⟨fun h => absurd h (by simp), fun _ => ⟨f, ha, hw⟩⟩

theorem inv_initState : Inv initState := by
  refine ⟨fun f _ => ?_, fun f hf => ?_, by simp [initState]⟩
  · cases f <;> simp [initState, Reading.sentinel]
  · simp [initState] at hf

theorem inv_step (frame : List Nat) (length : Int) (s : State)
    (hloop : s.current_position < length - 10) (hinv : Inv s) : Inv (step frame length s) := by
  obtain ⟨hd, hno, hyes⟩ := step_effect frame length s hloop
  obtain ⟨i1, i2, i3⟩ := hinv
  cases ha : assignsField frame length s
  · obtain ⟨hr, hasg⟩ := hno ha
    refine ⟨?_, ?_, ?_⟩
    · rw [hr, hasg]; exact i1
    · rw [hr, hasg]; exact i2
    · rw [hd, hasg, ha]; simpa using i3
  · obtain ⟨f, hasg, hw⟩ := hyes ha
    refine ⟨?_, ?_, ?_⟩
    · intro g hg
      rw [hasg] at hg
      simp only [List.mem_append, List.mem_singleton, not_or] at hg
      exact (hw.1 g hg.2).1 (i1 g hg.1)
    · intro g hg hne
      rw [hasg] at hg
      simp only [List.mem_append, List.mem_singleton] at hg
      by_cases hgf : g = f
      · subst hgf; exact hw.2 hne
      · rcases hg with hg | hg
        · exact (hw.1 g hgf).2 (i2 g hg hne)
        · exact absurd hg hgf
    · rw [hd, hasg, ha]; simp

theorem inv_loopState (frame : List Nat) (length : Int) (n : Nat)
    (h : ∀ k, k < n → (loopState frame length k).current_position < length - 10) :
    Inv (loopState frame length n) := by
  induction n with
  | zero => exact inv_initState
  | succ n ih =>
    exact inv_step frame length _ (h n (by omega)) (ih (fun k hk => h k (by omega)))

theorem inv_scanFrame (frame : List Nat) (length : Int) : Inv (scanFrame frame length) := by
  obtain ⟨n, _, heq, _, hmin⟩ := scanFrame_exits frame length
  rw [heq]
  exact inv_loopState frame length n hmin

/-- The data-found flag after `n` iterations tells whether one of them assigned a field. -/
theorem dataFound_loopState (frame : List Nat) (length : Int) (n : Nat)
    (h : ∀ k, k < n → (loopState frame length k).current_position < length - 10) :
    (loopState frame length n).dataFound = true
      ↔ ∃ k, k < n ∧ assignsField frame length (loopState frame length k) = true := by
  induction n with
  | zero => simp [loopState, initState]
  | succ n ih =>
    have ih2 := ih (fun k hk => h k (by omega))
    have hd := (step_effect frame length _ (h n (by omega))).1
    simp only [loopState, hd, Bool.or_eq_true, ih2]
    constructor
    · rintro (h1 | ⟨k, hk, h2⟩)
      · exact ⟨n, by omega, h1⟩
      · exact ⟨k, by omega, h2⟩
    · rintro ⟨k, hk, h2⟩
      by_cases hkn : k = n
      · subst hkn; exact Or.inl h2
      · exact Or.inr ⟨k, by omega, h2⟩

/-! ## Shared facts about the loop and the summary -/

theorem printSummary_congr (s t : State) (hr : t.reading = s.reading)
    (hd : t.dataFound = s.dataFound) : printSummary t = printSummary s := by
  unfold printSummary
  rw [hr, hd]

theorem afterSwitch_reads (frame : List Nat) (length : Int) (e : Element) :
    (afterSwitch frame length e).reads = e.st.reads ++
      (if e.st.current_position + e.data_length < length - 1 then
        (if frameAt frame (e.st.current_position + e.data_length) = 0x02
            ∨ frameAt frame (e.st.current_position + e.data_length) = 0x0F
          then [e.st.current_position + e.data_length, e.st.current_position + e.data_length + 1]
          else [e.st.current_position + e.data_length])
      else []) := by
  unfold afterSwitch
  simp only []
  split_ifs <;> simp_all

theorem summary_isSome (frame : List Nat) (length : Int) :
    (decodeDLMSFrame frame length).summary.isSome = (scanFrame frame length).dataFound := by
  simp only [decodeDLMSFrame, printSummary]
  cases (scanFrame frame length).dataFound <;> simp

/-- The iterations the loop executes are those before the exit. -/
theorem iterationRuns_iff (frame : List Nat) (length : Int) (n : Nat)
    (hexit : ¬ (loopState frame length n).current_position < length - 10)
    (hmin : ∀ k, k < n → (loopState frame length k).current_position < length - 10) (k : Nat) :
    iterationRuns frame length k ↔ k < n := by
  constructor
  · intro hr
    by_contra hk
    exact hexit (hr n (by omega))
  · intro hk j hj
    exact hmin j (by omega)

theorem scenarioB_summary :
    (decodeDLMSFrame scenarioB 40).summary = some [SummaryLine.voltage 2310 (-1) (-1)] := by
  have hr : (scanFrame scenarioB 40).reading =
      { voltageL1 := ((2310 : Nat) : ℚ), voltageL2 := -1, voltageL3 := -1
        currentL1 := -1, currentL2 := -1, currentL3 := -1
        activePowerPlus := -1, activePowerMinus := -1
        activeEnergyPlus := 0, activeEnergyMinus := 0, timestamp := "" } := by
    rw [← toFloat_natCast 2310 (by norm_num)]
    rfl
  have hd : (scanFrame scenarioB 40).dataFound = true := by decide
  simp only [decodeDLMSFrame, printSummary, hd, hr, summaryLines]
  norm_num

theorem zeroEnergy_summary : (decodeDLMSFrame zeroEnergy 40).summary = some [] := by
  have hr : (scanFrame zeroEnergy 40).reading = initState.reading := by rfl
  have hd : (scanFrame zeroEnergy 40).dataFound = true := by decide
  simp only [decodeDLMSFrame, printSummary, hd, hr, summaryLines, initState]
  norm_num

theorem scenarioA_summary :
    (decodeDLMSFrame scenarioA 40).summary = some [SummaryLine.activeEnergy 10 0] := by
  have hr : (scanFrame scenarioA 40).reading =
      { initState.reading with activeEnergyPlus := 10000 } := by rfl
  have hd : (scanFrame scenarioA 40).dataFound = true := by decide
  simp only [decodeDLMSFrame, printSummary, hd, hr, summaryLines, initState]
  norm_num

/-- Once set, the data-found flag stays set until the loop is left. -/
theorem dataFound_scanFrame (frame : List Nat) (length : Int) (n : Nat)
    (hruns : iterationRuns frame length n)
    (hd : (step frame length (loopState frame length n)).dataFound = true) :
    (scanFrame frame length).dataFound = true := by
  obtain ⟨m, _, heq, hexit, hmin⟩ := scanFrame_exits frame length
  have hnm : n < m := (iterationRuns_iff frame length m hexit hmin n).1 hruns
  have h1 : (loopState frame length (n + 1)).dataFound = true := hd
  rw [dataFound_loopState frame length (n + 1) (fun k hk => hmin k (by omega))] at h1
  obtain ⟨k, hk, ha⟩ := h1
  rw [heq, dataFound_loopState frame length m hmin]
  exact ⟨k, by omega, ha⟩

theorem element_long_truncated (frame : List Nat) (length : Int) (s : State)
    (htag : frameAt frame (s.current_position + 8) = DATA_LONG_DOUBLE_UNSIGNED)
    (htrunc : length < s.current_position + 9 + 4) :
    element frame length s =
      { st := (tagState frame s).print Msg.notEnoughData, data_length := 0,
        known_obis := false } := by
  have h : ¬ s.current_position + 13 ≤ length := by omega
  simp [element_eq, switchDataType, htag, caseLongDoubleUnsigned, add_assoc, h]

theorem element_octets_truncated (frame : List Nat) (length : Int) (s : State)
    (hloop : s.current_position < length - 10)
    (htag : frameAt frame (s.current_position + 8) = DATA_OCTET_STRING)
    (htrunc : length < s.current_position + 10 + frameAt frame (s.current_position + 9)) :
    element frame length s =
      { st := ((((tagState frame s).rd [s.current_position + 9]).goto
          (s.current_position + 10)).print
            (Msg.stringLength (frameAt frame (s.current_position + 9)))).print
            Msg.notEnoughData,
        data_length := 0, known_obis := false } := by
  have h9 : s.current_position + 9 < length := by omega
  have h : ¬ s.current_position + (10 + (frameAt frame (s.current_position + 9) : Int))
      ≤ length := by omega
  simp [element_eq, switchDataType, htag, caseOctetString, add_assoc, h9, h]

/-! ## The cases of an element met in the loop -/

/-- The positions `rawHex` shows for an octet string of `n` bytes starting at `c`. -/
theorem mem_shown (c : Int) (n : Nat) (i : Int) :
    i ∈ (List.range (min n 8)).map (fun (k : Nat) => c + (k : Int))
      ↔ c ≤ i ∧ i < c + (min n 8 : Nat) := by
  simp only [List.mem_map, List.mem_range]
  constructor
  · rintro ⟨k, hk, rfl⟩
    omega
  · intro h
    exact ⟨(i - c).toNat, by omega, by omega⟩

/-- Inside the loop the `switch` takes one of eight courses, according to the type tag
`frame[cursor + 8]` and to the bytes left. -/
theorem element_cases (frame : List Nat) (length : Int) (s : State)
    (hloop : s.current_position < length - 10) :
    (frameAt frame (s.current_position + 8) = DATA_LONG_DOUBLE_UNSIGNED
        ∧ s.current_position + 13 ≤ length
        ∧ element frame length s =
          finish (((tagState frame s).rd [s.current_position + 9, s.current_position + 10,
              s.current_position + 11, s.current_position + 12]).print
              (Msg.rawVal32 (swap_uint32 (loadLE32 frame (s.current_position + 9))))) 4
            (assignLongDoubleUnsigned (obisAt frame s.current_position)
              (swap_uint32 (loadLE32 frame (s.current_position + 9))) s.reading))
      ∨ (frameAt frame (s.current_position + 8) = DATA_LONG_DOUBLE_UNSIGNED
        ∧ length < s.current_position + 13
        ∧ element frame length s =
          { st := (tagState frame s).print Msg.notEnoughData, data_length := 0,
            known_obis := false })
      ∨ (frameAt frame (s.current_position + 8) = DATA_LONG_UNSIGNED
        ∧ element frame length s =
          finish ((((tagState frame s).rd [s.current_position + 9, s.current_position + 10]).rd
              (if s.current_position + 12 < length then [s.current_position + 12] else [])).print
              (Msg.rawValScaled (swap_uint16 (loadLE16 frame (s.current_position + 9)))
                (applyScaler frame length (s.current_position + 9)
                  (swap_uint16 (loadLE16 frame (s.current_position + 9)) : ℚ)))) 2
            (assignLongUnsigned (obisAt frame s.current_position)
              (applyScaler frame length (s.current_position + 9)
                (swap_uint16 (loadLE16 frame (s.current_position + 9)) : ℚ)) s.reading))
      ∨ (frameAt frame (s.current_position + 8) = DATA_OCTET_STRING
        ∧ (frameAt frame (s.current_position + 9) = 12 ∧ s.current_position + 22 ≤ length)
        ∧ isTimestampElement (frameAt frame (s.current_position + 9))
            (obisAt frame s.current_position) = true
        ∧ element frame length s =
          finish (((((tagState frame s).rd [s.current_position + 9]).goto
              (s.current_position + 10)).print
              (Msg.stringLength (frameAt frame (s.current_position + 9)))).rd
              [s.current_position + 10, s.current_position + 11, s.current_position + 12,
                s.current_position + 13, s.current_position + 15, s.current_position + 16,
                s.current_position + 17])
            (frameAt frame (s.current_position + 9))
            (some (Field.timestamp, { s.reading with
              timestamp := decodeTimestamp frame (s.current_position + 10) })))
      ∨ (frameAt frame (s.current_position + 8) = DATA_OCTET_STRING
        ∧ s.current_position + 10 + frameAt frame (s.current_position + 9) ≤ length
        ∧ isTimestampElement (frameAt frame (s.current_position + 9))
            (obisAt frame s.current_position) = false
        ∧ element frame length s =
          { st := (((((tagState frame s).rd [s.current_position + 9]).goto
                (s.current_position + 10)).print
                (Msg.stringLength (frameAt frame (s.current_position + 9)))).rd
                ((List.range (min (frameAt frame (s.current_position + 9)) 8)).map
                  (fun (k : Nat) => s.current_position + 10 + (k : Int)))).print
                (Msg.rawHex (((List.range (min (frameAt frame (s.current_position + 9)) 8)).map
                  (fun (k : Nat) => s.current_position + 10 + (k : Int))).map (frameAt frame))
                  (decide (frameAt frame (s.current_position + 9) > 8)))
            data_length := frameAt frame (s.current_position + 9)
            known_obis := false })
      ∨ (frameAt frame (s.current_position + 8) = DATA_OCTET_STRING
        ∧ length < s.current_position + 10 + frameAt frame (s.current_position + 9)
        ∧ element frame length s =
          { st := ((((tagState frame s).rd [s.current_position + 9]).goto
              (s.current_position + 10)).print
                (Msg.stringLength (frameAt frame (s.current_position + 9)))).print
                Msg.notEnoughData,
            data_length := 0, known_obis := false })
      ∨ (frameAt frame (s.current_position + 8) = DATA_NULL
        ∧ element frame length s =
          { st := tagState frame s, data_length := 0, known_obis := false })
      ∨ (frameAt frame (s.current_position + 8) ≠ DATA_NULL
        ∧ frameAt frame (s.current_position + 8) ≠ DATA_LONG_DOUBLE_UNSIGNED
        ∧ frameAt frame (s.current_position + 8) ≠ DATA_OCTET_STRING
        ∧ frameAt frame (s.current_position + 8) ≠ DATA_LONG_UNSIGNED
        ∧ element frame length s =
          { st := (tagState frame s).goto length, data_length := 0, known_obis := false }) := by
  by_cases h06 : frameAt frame (s.current_position + 8) = DATA_LONG_DOUBLE_UNSIGNED
  · by_cases hin : s.current_position + 13 ≤ length
    · left
      refine ⟨h06, hin, ?_⟩
      simp [element_eq, switchDataType, h06, caseLongDoubleUnsigned, add_assoc, hin]
    · right; left
      exact ⟨h06, by omega, element_long_truncated frame length s h06 (by omega)⟩
  by_cases h12 : frameAt frame (s.current_position + 8) = DATA_LONG_UNSIGNED
  · right; right; left
    have hin : s.current_position + 11 ≤ length := by omega
    refine ⟨h12, ?_⟩
    simp [element_eq, switchDataType, h12, caseLongUnsigned, add_assoc, hin]
  by_cases h09 : frameAt frame (s.current_position + 8) = DATA_OCTET_STRING
  · have h9 : s.current_position + 9 < length := by omega
    by_cases hin : s.current_position + 10 + frameAt frame (s.current_position + 9) ≤ length
    · have hin2 : s.current_position + (10 + (frameAt frame (s.current_position + 9) : Int))
          ≤ length := by omega
      cases hts : isTimestampElement (frameAt frame (s.current_position + 9))
          (obisAt frame s.current_position)
      · right; right; right; right; left
        refine ⟨h09, hin, rfl, ?_⟩
        simp [element_eq, switchDataType, h09, caseOctetString, add_assoc, h9, hin2, hts]
      · right; right; right; left
        have hn : frameAt frame (s.current_position + 9) = 12 := by
          simp only [isTimestampElement, Bool.and_eq_true, beq_iff_eq] at hts
          exact hts.1.1.1.1
        refine ⟨h09, ⟨hn, by omega⟩, rfl, ?_⟩
        simp [element_eq, switchDataType, h09, caseOctetString, add_assoc, h9, hin2, hts]
    · right; right; right; right; right; left
      exact ⟨h09, by omega, element_octets_truncated frame length s hloop h09 (by omega)⟩
  by_cases h00 : frameAt frame (s.current_position + 8) = DATA_NULL
  · right; right; right; right; right; right; left
    refine ⟨h00, ?_⟩
    simp [element_eq, switchDataType, h00]
  · right; right; right; right; right; right; right
    refine ⟨h00, h06, h09, h12, ?_⟩
    simp [element_eq, switchDataType, h00, h06, h09, h12]

/-! ## C1: UnsignedLong payloads are decoded big-endian -/

/-- C1: for every 32-bit value `v`, when an element with type tag 0x06 is met in the loop
(marker at the cursor, tag at cursor + 8) and its four payload bytes at cursor + 9 ..
cursor + 12 lie inside the frame and are the big-endian encoding of `v`, the value the
decoder computes by `memcpy` and `swap_uint32` is exactly `v` = b0*2^24 + b1*2^16 + b2*2^8
+ b3; it is the value printed as raw value and the value assigned to ActiveEnergyPlus
(C=1, D=8) or ActiveEnergyMinus (C=2, D=8). -/
theorem unsignedLong_decodes_big_endian (frame : List Nat) (length : Int) (s : State) (v : Nat)
    (hv : v < 2 ^ 32)
    (hloop : s.current_position < length - 10)
    (hmark : isMarker frame s.current_position = true)
    (htag : frameAt frame (s.current_position + 8) = DATA_LONG_DOUBLE_UNSIGNED)
    (hin : s.current_position + 9 + 4 ≤ length)
    (hb0 : frameAt frame (s.current_position + 9) = v / 2 ^ 24 % 256)
    (hb1 : frameAt frame (s.current_position + 10) = v / 2 ^ 16 % 256)
    (hb2 : frameAt frame (s.current_position + 11) = v / 2 ^ 8 % 256)
    (hb3 : frameAt frame (s.current_position + 12) = v % 256) :
    swap_uint32 (loadLE32 frame (s.current_position + 9)) = v
      ∧ v = frameAt frame (s.current_position + 9) * 2 ^ 24
          + frameAt frame (s.current_position + 10) * 2 ^ 16
          + frameAt frame (s.current_position + 11) * 2 ^ 8
          + frameAt frame (s.current_position + 12)
      ∧ (element frame length s).st.serial = s.serial ++
          [Msg.foundObis s.current_position (obisAt frame s.current_position)
              (getObisDescription (obisAt frame s.current_position)),
            Msg.dataType (s.current_position + 8) DATA_LONG_DOUBLE_UNSIGNED,
            Msg.rawVal32 v]
      ∧ (memcmpCD (obisAt frame s.current_position) OBIS_ACTIVE_ENERGY_PLUS = true →
          (step frame length s).reading.activeEnergyPlus = v)
      ∧ (memcmpCD (obisAt frame s.current_position) OBIS_ACTIVE_ENERGY_PLUS = false →
          memcmpCD (obisAt frame s.current_position) OBIS_ACTIVE_ENERGY_MINUS = true →
          (step frame length s).reading.activeEnergyMinus = v) := by
  have hval : swap_uint32 (loadLE32 frame (s.current_position + 9)) = v := by
    rw [swap_uint32_loadLE32]
    have e1 : s.current_position + 9 + 1 = s.current_position + 10 := by omega
    have e2 : s.current_position + 9 + 2 = s.current_position + 11 := by omega
    have e3 : s.current_position + 9 + 3 = s.current_position + 12 := by omega
    rw [e1, e2, e3, hb0, hb1, hb2, hb3]
    omega
  have hstep := step_of_marker frame length s hloop hmark
  have hin13 : s.current_position + 13 ≤ length := by omega
  refine ⟨hval, ?_, ?_, ?_, ?_⟩
  · rw [hb0, hb1, hb2, hb3]; omega
  · simp [element_eq, switchDataType, caseLongDoubleUnsigned, add_assoc, htag, hin13, hval]
  · intro hp
    rw [hstep, afterSwitch_reading]
    simp [element_eq, switchDataType, caseLongDoubleUnsigned, assignLongDoubleUnsigned,
      add_assoc, htag, hin13, hval, hp]
  · intro hp hm
    rw [hstep, afterSwitch_reading]
    simp [element_eq, switchDataType, caseLongDoubleUnsigned, assignLongDoubleUnsigned,
      add_assoc, htag, hin13, hval, hp, hm]

/-- Witness for C1: Scenario A, the value 10000 at the first loop iteration. -/
theorem unsignedLong_decodes_big_endian_witness :
    initState.current_position < (40 : Int) - 10
      ∧ isMarker scenarioA initState.current_position = true
      ∧ swap_uint32 (loadLE32 scenarioA (initState.current_position + 9)) = 10000
      ∧ (step scenarioA 40 initState).reading.activeEnergyPlus = 10000 :=
  have h := unsignedLong_decodes_big_endian scenarioA 40 initState 10000 (by norm_num)
    (by decide) (by decide) (by decide) (by decide) (by decide) (by decide) (by decide)
    (by decide)
  ⟨by decide, by decide, h.1, h.2.2.2.1 (by decide)⟩
/-! ## C2: the scaler of an UnsignedShort -/

theorem scaleDivisor_cases (frame : List Nat) (length : Int) (p : Int) :
    scaleDivisor frame length p = 10 ∨ scaleDivisor frame length p = 100
      ∨ scaleDivisor frame length p = 1000 ∨ scaleDivisor frame length p = 1 := by
  simp only [scaleDivisor]
  split_ifs <;> simp

/-- The scaled value is the quotient by the divisor, computed in `double` and stored in a
`float`; without a scaler byte the value is stored as it is. -/
theorem applyScaler_eq (frame : List Nat) (length : Int) (p : Int) (raw : Nat)
    (hraw : raw < 2 ^ 16) :
    applyScaler frame length p (toFloat (raw : ℚ))
      = toFloat (toDouble ((raw : ℚ) / (scaleDivisor frame length p : ℚ))) := by
  have h24 : raw < 2 ^ 24 := lt_trans hraw (by norm_num)
  have h53 : raw < 2 ^ 53 := lt_trans hraw (by norm_num)
  have h1 : toFloat (toDouble ((raw : ℚ) / ((1 : Nat) : ℚ))) = toFloat (raw : ℚ) := by
    rw [Nat.cast_one, div_one, toDouble_natCast raw h53]
  simp only [applyScaler, scaleDivisor, SCALE_TENTHS, SCALE_HUNDREDTHS, SCALE_THOUSANDS]
  rw [toFloat_natCast raw h24]
  split_ifs
  · norm_num
  · norm_num
  · norm_num
  · rw [h1, toFloat_natCast raw h24]
  · rw [h1, toFloat_natCast raw h24]

/-- C2, counterexample: in `scenarioB` the two value bytes 09 06 (positions 29, 30) are
immediately followed by 0xFF (position 31), yet the decoder leaves VoltageL1 = 2310,
unscaled, because it looks at position 32.  In `scenarioBInexact` the value bytes 09 07
(raw 2311) have 0xFF at position 32, where the decoder looks: VoltageL1 is the `float`
7572685/32768, not 2311/10. -/
theorem scaler_not_taken_from_next_byte :
    obisAt scenarioB 20 = [1, 0, 32, 7, 0, 255]
      ∧ frameAt scenarioB 28 = DATA_LONG_UNSIGNED
      ∧ frameAt scenarioB 29 = 0x09 ∧ frameAt scenarioB 30 = 0x06
      ∧ frameAt scenarioB 31 = SCALE_TENTHS
      ∧ (scanFrame scenarioB 40).reading.voltageL1 = 2310
      ∧ (scanFrame scenarioB 40).reading.voltageL1 ≠ 231
      ∧ frameAt scenarioBInexact 29 = 0x09 ∧ frameAt scenarioBInexact 30 = 0x07
      ∧ frameAt scenarioBInexact 32 = SCALE_TENTHS
      ∧ (scanFrame scenarioBInexact 40).reading.voltageL1 = 7572685 / 32768
      ∧ (scanFrame scenarioBInexact 40).reading.voltageL1 ≠ 2311 / 10 := by
  have h : (scanFrame scenarioB 40).reading.voltageL1 = ((2310 : Nat) : ℚ) := by
    rw [← toFloat_natCast 2310 (by norm_num)]
    rfl
  have h2 : (scanFrame scenarioBInexact 40).reading.voltageL1 = 7572685 / 32768 := by
    decide!
  refine ⟨by decide, by decide, by decide, by decide, by decide, ?_, ?_, by decide, by decide,
    by decide, h2, ?_⟩
  · rw [h]; norm_num
  · rw [h]; norm_num
  · rw [h2]; norm_num

/-- C2, amended: for an element with type tag 0x12 met in the loop, with value bytes at
p = cursor + 9 and p + 1, the raw value is the big-endian 16-bit value of the two bytes and
the scaled value is the `float` that the division of raw by d yields (the quotient rounded
to `double`, then to `float`), where d is chosen by the byte at position p + 3 (not p + 2):
10 for 0xFF, 100 for 0xFE, 1000 for 0xFD, and 1 for any other byte or when p + 3 is not
below the frame length.  The scaled value is raw / d itself when raw / d is an integer (so
whenever d = 1), and always within raw / d * 2^-23 of raw / d.  Raw and scaled value are
the ones printed, the scaled value is the one the assignment chain stores, and it is
assigned to VoltageL1 for C=0x20, D=7.  In particular value bytes 09 06 with 0xFF at p + 3
inside the frame give VoltageL1 = 231. -/
theorem unsignedShort_scaled_by_byte_three_after (frame : List Nat) (length : Int) (s : State)
    (hloop : s.current_position < length - 10)
    (hmark : isMarker frame s.current_position = true)
    (htag : frameAt frame (s.current_position + 8) = DATA_LONG_UNSIGNED) :
    let p := s.current_position + 9
    let raw := frameAt frame p * 256 + frameAt frame (p + 1)
    let d := scaleDivisor frame length p
    let v := toFloat (toDouble ((raw : ℚ) / (d : ℚ)))
    swap_uint16 (loadLE16 frame p) = raw
      ∧ (d = 10 ∨ d = 100 ∨ d = 1000 ∨ d = 1)
      ∧ applyScaler frame length p (toFloat (raw : ℚ)) = v
      ∧ |v - (raw : ℚ) / (d : ℚ)| ≤ (raw : ℚ) / (d : ℚ) / 2 ^ 23
      ∧ (∀ q : Nat, raw = q * d → v = q)
      ∧ (d = 1 → v = raw)
      ∧ (element frame length s).st.serial = s.serial ++
          [Msg.foundObis s.current_position (obisAt frame s.current_position)
              (getObisDescription (obisAt frame s.current_position)),
            Msg.dataType (s.current_position + 8) DATA_LONG_UNSIGNED,
            Msg.rawValScaled raw v]
      ∧ (step frame length s).reading =
          (match assignLongUnsigned (obisAt frame s.current_position) v s.reading with
            | some (_, r) => r
            | none => s.reading)
      ∧ (memcmpCD (obisAt frame s.current_position) OBIS_VOLTAGE_L1 = true →
          (step frame length s).reading.voltageL1 = v)
      ∧ (memcmpCD (obisAt frame s.current_position) OBIS_VOLTAGE_L1 = true →
          frameAt frame p = 0x09 → frameAt frame (p + 1) = 0x06 →
          p + 3 < length → frameAt frame (p + 3) = 0xFF →
          (step frame length s).reading.voltageL1 = 231) := by
  intro p raw d v
  have hraw : swap_uint16 (loadLE16 frame (s.current_position + 9)) = raw :=
    swap_uint16_loadLE16 frame _
  have hlt : raw < 2 ^ 16 := by
    have h0 := frameAt_lt frame p
    have h1 := frameAt_lt frame (p + 1)
    show frameAt frame p * 256 + frameAt frame (p + 1) < 2 ^ 16
    omega
  have hd : d = 10 ∨ d = 100 ∨ d = 1000 ∨ d = 1 := scaleDivisor_cases frame length p
  have hdpos : 0 < d := by omega
  have hsc : applyScaler frame length (s.current_position + 9) (toFloat (raw : ℚ)) = v :=
    applyScaler_eq frame length _ raw hlt
  have hexact : ∀ q : Nat, raw = q * d → v = q := fun q hq =>
    toFloat_toDouble_div_exact raw d q hq hdpos (lt_trans hlt (by norm_num))
  have hstep := step_of_marker frame length s hloop hmark
  have hin : s.current_position + 11 ≤ length := by omega
  have hv : memcmpCD (obisAt frame s.current_position) OBIS_VOLTAGE_L1 = true →
      (step frame length s).reading.voltageL1 = v := by
    intro hp
    rw [hstep, afterSwitch_reading]
    simp [element_eq, switchDataType, caseLongUnsigned, assignLongUnsigned, add_assoc, htag,
      hin, hraw, hp, hsc]
  refine ⟨hraw, hd, hsc, toFloat_toDouble_div_error raw d hdpos (by omega), hexact,
    fun h1 => hexact raw (by rw [h1, Nat.mul_one]), ?_, ?_, hv, ?_⟩
  · simp [element_eq, switchDataType, caseLongUnsigned, add_assoc, htag, hin, hraw, hsc]
  · rw [hstep, afterSwitch_reading]
    simp only [element_eq, switchDataType, caseLongUnsigned, htag, tagState_current_position,
      tagState_reading, add_assoc, hraw, hsc]
    norm_num [hin]
    generalize assignLongUnsigned (obisAt frame s.current_position) v s.reading = a
    rcases a with _ | ⟨f, r⟩ <;> simp
  · intro hp h0 h1 h3 hff
    rw [hv hp]
    have hd10 : d = 10 := by
      show scaleDivisor frame length p = 10
      simp [scaleDivisor, h3, hff]
    have hr : raw = 231 * d := by
      show frameAt frame p * 256 + frameAt frame (p + 1) = 231 * d
      rw [h0, h1, hd10]
    rw [hexact 231 hr]
    norm_num

/-- Witness for C2 (amended): `scenarioBShifted`, with 0xFF three bytes after the start of
the value, gives VoltageL1 = 231 at the first loop iteration; `scenarioBInexact`, with raw
value 2311 there, gives the `float` 7572685/32768. -/
theorem unsignedShort_scaled_by_byte_three_after_witness :
    initState.current_position < (40 : Int) - 10
      ∧ isMarker scenarioBShifted initState.current_position = true
      ∧ frameAt scenarioBShifted (initState.current_position + 8) = DATA_LONG_UNSIGNED
      ∧ (step scenarioBShifted 40 initState).reading.voltageL1 = 231
      ∧ (step scenarioBInexact 40 initState).reading.voltageL1 = 7572685 / 32768 :=
  have h := unsignedShort_scaled_by_byte_three_after scenarioBShifted 40 initState
    (by decide) (by decide) (by decide)
  have h2 := unsignedShort_scaled_by_byte_three_after scenarioBInexact 40 initState
    (by decide) (by decide) (by decide)
  ⟨by decide, by decide, by decide,
    h.2.2.2.2.2.2.2.2.2 (by decide) (by decide) (by decide) (by decide) (by decide),
    (h2.2.2.2.2.2.2.2.2.1 (by decide)).trans (by decide!)⟩

/-! ## C3: active energy -/

/-- C3, counterexample: `zeroEnergy` holds the element of Scenario A with the payload
00 00 00 00.  ActiveEnergyPlus is set to the value of the payload, 0, and the data-found
flag is set, but the summary that is emitted has no line: the value is not reported. -/
theorem zero_energy_not_in_summary :
    isMarker zeroEnergy 20 = true
      ∧ obisAt zeroEnergy 20 = [0, 0, 1, 8, 0, 255]
      ∧ frameAt zeroEnergy 28 = DATA_LONG_DOUBLE_UNSIGNED
      ∧ swap_uint32 (loadLE32 zeroEnergy 29) = 0
      ∧ (scanFrame zeroEnergy 40).reading.activeEnergyPlus = 0
      ∧ (scanFrame zeroEnergy 40).dataFound = true
      ∧ (decodeDLMSFrame zeroEnergy 40).summary = some []
      ∧ ∀ p m, SummaryLine.activeEnergy p m ∉ ([] : List SummaryLine) := by
  refine ⟨by decide, by decide, by decide, by decide, by decide, by decide,
    zeroEnergy_summary, fun p m h => ?_⟩
  simp at h

/-- C3, amended: when an element with type tag 0x06 and its four payload bytes inside the
frame is met in the loop, with identifier bytes C=1, D=8 the iteration sets
ActiveEnergyPlus to the big-endian value of the payload and sets the data-found flag (with
C=2, D=8 the same for ActiveEnergyMinus).  When this happens in the scan of the frame, a
summary is emitted; its active energy line is printed only if ActiveEnergyPlus or
ActiveEnergyMinus is non-zero when the loop is left, and then reports these final values
divided by 1000. -/
theorem activeEnergy_assigned_and_reported (frame : List Nat) (length : Int) (s : State)
    (hloop : s.current_position < length - 10)
    (hmark : isMarker frame s.current_position = true)
    (htag : frameAt frame (s.current_position + 8) = DATA_LONG_DOUBLE_UNSIGNED)
    (hin : s.current_position + 9 + 4 ≤ length)
    (hD : frameAt frame (s.current_position + 5) = 8) :
    (frameAt frame (s.current_position + 4) = 1 →
        (step frame length s).reading.activeEnergyPlus
            = frameAt frame (s.current_position + 9) * 2 ^ 24
              + frameAt frame (s.current_position + 10) * 2 ^ 16
              + frameAt frame (s.current_position + 11) * 2 ^ 8
              + frameAt frame (s.current_position + 12)
          ∧ (step frame length s).dataFound = true)
      ∧ (frameAt frame (s.current_position + 4) = 2 →
        (step frame length s).reading.activeEnergyMinus
            = frameAt frame (s.current_position + 9) * 2 ^ 24
              + frameAt frame (s.current_position + 10) * 2 ^ 16
              + frameAt frame (s.current_position + 11) * 2 ^ 8
              + frameAt frame (s.current_position + 12)
          ∧ (step frame length s).dataFound = true)
      ∧ (∀ n : Nat, iterationRuns frame length n → s = loopState frame length n →
          (frameAt frame (s.current_position + 4) = 1
            ∨ frameAt frame (s.current_position + 4) = 2) →
          ∃ lines, (decodeDLMSFrame frame length).summary = some lines
            ∧ ((0 < (scanFrame frame length).reading.activeEnergyPlus
                  ∨ 0 < (scanFrame frame length).reading.activeEnergyMinus) →
                SummaryLine.activeEnergy
                  (((scanFrame frame length).reading.activeEnergyPlus : ℚ) / 1000)
                  (((scanFrame frame length).reading.activeEnergyMinus : ℚ) / 1000) ∈ lines)
            ∧ (∀ p m, SummaryLine.activeEnergy p m ∈ lines →
                p = ((scanFrame frame length).reading.activeEnergyPlus : ℚ) / 1000
                  ∧ m = ((scanFrame frame length).reading.activeEnergyMinus : ℚ) / 1000
                  ∧ (0 < (scanFrame frame length).reading.activeEnergyPlus
                    ∨ 0 < (scanFrame frame length).reading.activeEnergyMinus))) := by
  have hstep := step_of_marker frame length s hloop hmark
  have hin13 : s.current_position + 13 ≤ length := by omega
  have hval := swap_uint32_loadLE32 frame (s.current_position + 9)
  simp only [add_assoc] at hval
  norm_num at hval
  have hplus : frameAt frame (s.current_position + 4) = 1 →
      (step frame length s).reading.activeEnergyPlus
          = frameAt frame (s.current_position + 9) * 2 ^ 24
            + frameAt frame (s.current_position + 10) * 2 ^ 16
            + frameAt frame (s.current_position + 11) * 2 ^ 8
            + frameAt frame (s.current_position + 12)
        ∧ (step frame length s).dataFound = true := by
    intro hC
    rw [hstep, afterSwitch_reading, afterSwitch_dataFound]
    simp [element_eq, switchDataType, caseLongDoubleUnsigned, assignLongDoubleUnsigned,
      memcmpCD, obisAt, add_assoc, htag, hin13, hval, hC, hD]
  have hminus : frameAt frame (s.current_position + 4) = 2 →
      (step frame length s).reading.activeEnergyMinus
          = frameAt frame (s.current_position + 9) * 2 ^ 24
            + frameAt frame (s.current_position + 10) * 2 ^ 16
            + frameAt frame (s.current_position + 11) * 2 ^ 8
            + frameAt frame (s.current_position + 12)
        ∧ (step frame length s).dataFound = true := by
    intro hC
    rw [hstep, afterSwitch_reading, afterSwitch_dataFound]
    simp [element_eq, switchDataType, caseLongDoubleUnsigned, assignLongDoubleUnsigned,
      memcmpCD, obisAt, add_assoc, htag, hin13, hval, hC, hD]
  refine ⟨hplus, hminus, ?_⟩
  intro n hruns hs hC
  have hd : (step frame length s).dataFound = true := by
    rcases hC with hC | hC
    · exact (hplus hC).2
    · exact (hminus hC).2
  have hfound := dataFound_scanFrame frame length n hruns (by rw [← hs]; exact hd)
  refine ⟨summaryLines (scanFrame frame length).reading, ?_, ?_, ?_⟩
  · simp [decodeDLMSFrame, printSummary, hfound]
  · intro hpos
    simp [summaryLines, hpos]
  · intro p m hmem
    simp only [summaryLines, List.mem_append] at hmem
    rcases hmem with (((hl | hl) | hl) | hl) | hl <;> split_ifs at hl with hc <;>
      simp only [List.mem_singleton, List.not_mem_nil, SummaryLine.activeEnergy.injEq,
        reduceCtorEq] at hl
    exact ⟨hl.1, hl.2, hc⟩

/-- Witness for C3 (amended): Scenario A sets ActiveEnergyPlus to 10000 at the first
iteration, and the summary reports 10 (and 0 for ActiveEnergyMinus). -/
theorem activeEnergy_assigned_and_reported_witness :
    initState.current_position < (40 : Int) - 10
      ∧ isMarker scenarioA initState.current_position = true
      ∧ obisAt scenarioA initState.current_position = [0, 0, 1, 8, 0, 255]
      ∧ (step scenarioA 40 initState).reading.activeEnergyPlus = 10000
      ∧ (step scenarioA 40 initState).dataFound = true
      ∧ (decodeDLMSFrame scenarioA 40).summary = some [SummaryLine.activeEnergy 10 0]
      ∧ (decodeDLMSFrame scenarioA 40).summary ≠ none :=
  have h := activeEnergy_assigned_and_reported scenarioA 40 initState (by decide) (by decide)
    (by decide) (by decide) (by decide)
  have h1 := h.1 (by decide)
  have h3 := h.2.2 0 (by decide) rfl (Or.inl (by decide))
  ⟨by decide, by decide, by decide, h1.1.trans (by decide), h1.2, scenarioA_summary,
    fun hnone => by
      obtain ⟨lines, hl, _⟩ := h3
      rw [hnone] at hl
      exact absurd hl (by simp)⟩

/-! ## C4: the timestamp -/

theorem decDigits_one (fuel n : Nat) (h : n < 10) :
    decDigits (fuel + 1) n = [Nat.digitChar n] := by
  simp [decDigits, h]

theorem decDigits_two (fuel n : Nat) (h1 : 10 ≤ n) (h2 : n < 100) :
    decDigits (fuel + 2) n = [Nat.digitChar (n / 10), Nat.digitChar (n % 10)] := by
  have h : ¬ n < 10 := by omega
  rw [decDigits, if_neg h, decDigits_one _ _ (by omega)]
  rfl

theorem decDigits_three (fuel n : Nat) (h1 : 100 ≤ n) (h2 : n < 1000) :
    decDigits (fuel + 3) n =
      [Nat.digitChar (n / 100), Nat.digitChar (n / 10 % 10), Nat.digitChar (n % 10)] := by
  have h : ¬ n < 10 := by omega
  rw [decDigits, if_neg h, decDigits_two _ _ (by omega) (by omega)]
  have e : n / 10 / 10 = n / 100 := by omega
  simp [e]

theorem decDigits_four (fuel n : Nat) (h1 : 1000 ≤ n) (h2 : n < 10000) :
    decDigits (fuel + 4) n =
      [Nat.digitChar (n / 1000), Nat.digitChar (n / 100 % 10), Nat.digitChar (n / 10 % 10),
        Nat.digitChar (n % 10)] := by
  have h : ¬ n < 10 := by omega
  rw [decDigits, if_neg h, decDigits_three _ _ (by omega) (by omega)]
  have e1 : n / 10 / 100 = n / 1000 := by omega
  have e2 : n / 10 / 10 % 10 = n / 100 % 10 := by omega
  simp [e1, e2]

theorem fmtUnsigned_two (n : Nat) (h : n ≤ 99) : fmtUnsigned 2 n = twoDigits n := by
  unfold fmtUnsigned twoDigits
  by_cases h1 : n < 10
  · have e : n / 10 = 0 := by omega
    have e2 : n % 10 = n := by omega
    rw [decDigits_one _ _ h1, e, e2]
    rfl
  · obtain ⟨k, rfl⟩ : ∃ k, n = k + 1 := ⟨n - 1, by omega⟩
    rw [decDigits_two _ _ (by omega) (by omega)]
    rfl

theorem fmtUnsigned_four (n : Nat) (h : n ≤ 9999) : fmtUnsigned 4 n = fourDigits n := by
  unfold fmtUnsigned fourDigits
  by_cases h1 : n < 10
  · have e : n / 1000 = 0 := by omega
    have e1 : n / 100 % 10 = 0 := by omega
    have e2 : n / 10 % 10 = 0 := by omega
    have e3 : n % 10 = n := by omega
    rw [decDigits_one _ _ h1, e, e1, e2, e3]
    rfl
  · by_cases h2 : n < 100
    · obtain ⟨k, rfl⟩ : ∃ k, n = k + 1 := ⟨n - 1, by omega⟩
      have e : (k + 1) / 1000 = 0 := by omega
      have e1 : (k + 1) / 100 % 10 = 0 := by omega
      have e2 : (k + 1) / 10 % 10 = (k + 1) / 10 := by omega
      rw [decDigits_two _ _ (by omega) (by omega), e, e1, e2]
      rfl
    · by_cases h3 : n < 1000
      · obtain ⟨k, rfl⟩ : ∃ k, n = k + 2 := ⟨n - 2, by omega⟩
        have e : (k + 2) / 1000 = 0 := by omega
        have e1 : (k + 2) / 100 % 10 = (k + 2) / 100 := by omega
        rw [decDigits_three _ _ (by omega) (by omega), e, e1]
        rfl
      · obtain ⟨k, rfl⟩ : ∃ k, n = k + 3 := ⟨n - 3, by omega⟩
        rw [decDigits_four _ _ (by omega) (by omega)]
        rfl

theorem formatTimestamp_eq (year month day hour minute second : Nat)
    (hy : year ≤ 9999) (hmo : month ≤ 99) (hd : day ≤ 99) (hh : hour ≤ 99) (hmi : minute ≤ 99)
    (hs : second ≤ 99) :
    formatTimestamp year month day hour minute second
      = isoTimestamp year month day hour minute second := by
  unfold formatTimestamp isoTimestamp
  rw [fmtUnsigned_four _ hy, fmtUnsigned_two _ hmo, fmtUnsigned_two _ hd, fmtUnsigned_two _ hh,
    fmtUnsigned_two _ hmi, fmtUnsigned_two _ hs]
  rfl

theorem isoTimestamp_length (year month day hour minute second : Nat) :
    (isoTimestamp year month day hour minute second).length = 19 := by
  rfl


/-- An OctetString element of length 12 with A=0, B=0, C=1, D=0 inside the frame writes the
timestamp decoded from its first eight payload bytes. -/
theorem step_timestamp (frame : List Nat) (length : Int) (s : State)
    (hloop : s.current_position < length - 10)
    (hmark : isMarker frame s.current_position = true)
    (htag : frameAt frame (s.current_position + 8) = DATA_OCTET_STRING)
    (hlen : frameAt frame (s.current_position + 9) = 12)
    (hin : s.current_position + 10 + 12 ≤ length)
    (hid : isTimestampElement 12 (obisAt frame s.current_position) = true) :
    (step frame length s).reading
        = { s.reading with timestamp := decodeTimestamp frame (s.current_position + 10) }
      ∧ (step frame length s).dataFound = true
      ∧ (step frame length s).assigned = s.assigned ++ [Field.timestamp] := by
  have h9 : s.current_position + 9 < length := by omega
  have h22 : s.current_position + 22 ≤ length := by omega
  have he : element frame length s =
      finish (((((tagState frame s).rd [s.current_position + 9]).goto
          (s.current_position + 10)).print (Msg.stringLength 12)).rd
          [s.current_position + 10, s.current_position + 11, s.current_position + 12,
            s.current_position + 13, s.current_position + 15, s.current_position + 16,
            s.current_position + 17]) 12
        (some (Field.timestamp,
          { s.reading with timestamp := decodeTimestamp frame (s.current_position + 10) })) := by
    simp [element_eq, switchDataType, htag, caseOctetString, h9, hlen, add_assoc, h22, hid]
  rw [step_of_marker frame length s hloop hmark, afterSwitch_reading, afterSwitch_dataFound,
    afterSwitch_assigned, he]
  simp

/-- C4: an OctetString element (tag 0x09) met in the loop, with declared length 12, lying
inside the frame, whose identifier has A=0, B=0, C=1, D=0 and whose payload has a big-endian
year (bytes 0-1) of at most 9999 and month, day, hour, minute, second (bytes 2, 3, 5, 6, 7)
of at most 99 each, sets the timestamp to the 19 characters `YYYY-MM-DD hh:mm:ss`, every
field zero-padded in decimal; a frame that differs only in payload bytes 4 and 8..11 gives
the same timestamp. -/
theorem timestamp_element_formats_date (frame : List Nat) (length : Int) (s : State)
    (hloop : s.current_position < length - 10)
    (hmark : isMarker frame s.current_position = true)
    (hA : frameAt frame (s.current_position + 2) = 0)
    (hB : frameAt frame (s.current_position + 3) = 0)
    (hC : frameAt frame (s.current_position + 4) = 1)
    (hD : frameAt frame (s.current_position + 5) = 0)
    (htag : frameAt frame (s.current_position + 8) = DATA_OCTET_STRING)
    (hlen : frameAt frame (s.current_position + 9) = 12)
    (hin : s.current_position + 10 + 12 ≤ length)
    (hyear : frameAt frame (s.current_position + 10) * 256
      + frameAt frame (s.current_position + 11) ≤ 9999)
    (hmonth : frameAt frame (s.current_position + 12) ≤ 99)
    (hday : frameAt frame (s.current_position + 13) ≤ 99)
    (hhour : frameAt frame (s.current_position + 15) ≤ 99)
    (hminute : frameAt frame (s.current_position + 16) ≤ 99)
    (hsecond : frameAt frame (s.current_position + 17) ≤ 99) :
    (step frame length s).reading.timestamp
        = isoTimestamp
            (frameAt frame (s.current_position + 10) * 256
              + frameAt frame (s.current_position + 11))
            (frameAt frame (s.current_position + 12)) (frameAt frame (s.current_position + 13))
            (frameAt frame (s.current_position + 15)) (frameAt frame (s.current_position + 16))
            (frameAt frame (s.current_position + 17))
      ∧ (step frame length s).reading.timestamp.length = 19
      ∧ (∀ frame2 : List Nat,
          (∀ i : Int, i ≠ s.current_position + 14 → i ≠ s.current_position + 18 →
            i ≠ s.current_position + 19 → i ≠ s.current_position + 20 →
            i ≠ s.current_position + 21 → frameAt frame2 i = frameAt frame i) →
          (step frame2 length s).reading.timestamp = (step frame length s).reading.timestamp) := by
  have key : ∀ fr : List Nat,
      (∀ i : Int, i ≠ s.current_position + 14 → i ≠ s.current_position + 18 →
        i ≠ s.current_position + 19 → i ≠ s.current_position + 20 →
        i ≠ s.current_position + 21 → frameAt fr i = frameAt frame i) →
      (step fr length s).reading.timestamp
        = isoTimestamp
            (frameAt frame (s.current_position + 10) * 256
              + frameAt frame (s.current_position + 11))
            (frameAt frame (s.current_position + 12)) (frameAt frame (s.current_position + 13))
            (frameAt frame (s.current_position + 15)) (frameAt frame (s.current_position + 16))
            (frameAt frame (s.current_position + 17)) := by
    intro fr hfr
    have g : ∀ k : Int, k ≠ 14 → k ≠ 18 → k ≠ 19 → k ≠ 20 → k ≠ 21 →
        frameAt fr (s.current_position + k) = frameAt frame (s.current_position + k) :=
      fun k h1 h2 h3 h4 h5 => hfr _ (by omega) (by omega) (by omega) (by omega) (by omega)
    have g0 : frameAt fr s.current_position = frameAt frame s.current_position := by
      have := g 0 (by omega) (by omega) (by omega) (by omega) (by omega)
      simpa using this
    have hmark2 : isMarker fr s.current_position = true := by
      have := g 1 (by omega) (by omega) (by omega) (by omega) (by omega)
      simpa [isMarker, g0, this] using hmark
    have hid : isTimestampElement 12 (obisAt fr s.current_position) = true := by
      simp [isTimestampElement, obisAt, g 2, g 3, g 4, g 5, hA, hB, hC, hD]
    have h := (step_timestamp fr length s hloop hmark2 (by rw [g 8]; exact htag; all_goals omega)
      (by rw [g 9]; exact hlen; all_goals omega) hin hid).1
    rw [h]
    show decodeTimestamp fr (s.current_position + 10) = _
    unfold decodeTimestamp
    simp only [swap_uint16_loadLE16, add_assoc]
    norm_num
    rw [g 10, g 11, g 12, g 13, g 15, g 16, g 17]
    · exact formatTimestamp_eq _ _ _ _ _ _ hyear hmonth hday hhour hminute hsecond
    all_goals omega
  have h1 := key frame (fun _ _ _ _ _ _ => rfl)
  refine ⟨h1, ?_, ?_⟩
  · rw [h1]; exact isoTimestamp_length _ _ _ _ _ _
  · intro frame2 h2
    rw [h1]
    exact key frame2 h2

theorem scenarioCOther_agrees (i : Int) (h14 : i ≠ 34) (h18 : i ≠ 38) (h19 : i ≠ 39)
    (h20 : i ≠ 40) (h21 : i ≠ 41) : frameAt scenarioCOther i = frameAt scenarioC i := by
  unfold frameAt
  by_cases h : i.toNat < 50
  · have h14n : i.toNat ≠ 34 := by omega
    have h18n : i.toNat ≠ 38 := by omega
    have h19n : i.toNat ≠ 39 := by omega
    have h20n : i.toNat ≠ 40 := by omega
    have h21n : i.toNat ≠ 41 := by omega
    generalize i.toNat = n at *
    interval_cases n <;> first | rfl | contradiction
  · rw [List.getD_eq_default _ _ (by simpa [scenarioCOther, header] using h),
      List.getD_eq_default _ _ (by simpa [scenarioC, header] using h)]

/-- Witness for C4: Scenario C gives "2024-05-01 14:30:00", also with other values in payload
bytes 4 and 8..11. -/
theorem timestamp_element_formats_date_witness :
    initState.current_position < (50 : Int) - 10
      ∧ isMarker scenarioC initState.current_position = true
      ∧ frameAt scenarioC (initState.current_position + 9) = 12
      ∧ (step scenarioC 50 initState).reading.timestamp = "2024-05-01 14:30:00"
      ∧ (step scenarioCOther 50 initState).reading.timestamp = "2024-05-01 14:30:00" :=
  have h := timestamp_element_formats_date scenarioC 50 initState (by decide) (by decide)
    (by decide) (by decide) (by decide) (by decide) (by decide) (by decide) (by decide)
    (by decide) (by decide) (by decide) (by decide) (by decide) (by decide)
  have e : (step scenarioC 50 initState).reading.timestamp = "2024-05-01 14:30:00" :=
    h.1.trans (by decide)
  ⟨by decide, by decide, by decide, e,
    (h.2.2 scenarioCOther (fun i h14 h18 h19 h20 h21 =>
      scenarioCOther_agrees i h14 h18 h19 h20 h21)).trans e⟩

/-! ## C5: when the summary is emitted -/

/-- C5: the frame summary is emitted if and only if some executed iteration of the scan
met an element (marker at the cursor) whose value was assigned to a Reading variable
(`known_obis` true when the `switch` is left); equivalently, if and only if the set of
assigned variables is not empty at the end.  An iteration assigns exactly when it adds a
variable to that set, and otherwise leaves the Reading and the set as they were.  In
particular a frame with no marker 0x09 0x06 at any position from 20 to length - 11 yields no
summary. -/
theorem summary_iff_field_assigned (frame : List Nat) (length : Int) :
    ((decodeDLMSFrame frame length).summary.isSome = true
        ↔ ∃ k, iterationRuns frame length k
            ∧ assignsField frame length (loopState frame length k) = true)
      ∧ ((decodeDLMSFrame frame length).summary.isSome = true
        ↔ (scanFrame frame length).assigned ≠ [])
      ∧ (∀ s : State, s.current_position < length - 10 →
          (assignsField frame length s = true
              ↔ ∃ f, (step frame length s).assigned = s.assigned ++ [f])
            ∧ (assignsField frame length s = false →
                (step frame length s).reading = s.reading
                  ∧ (step frame length s).assigned = s.assigned))
      ∧ ((∀ i : Int, 20 ≤ i → i < length - 10 → isMarker frame i = false) →
          (decodeDLMSFrame frame length).summary = none) := by
  obtain ⟨n, _, heq, hexit, hmin⟩ := scanFrame_exits frame length
  have hmain : (decodeDLMSFrame frame length).summary.isSome = true
      ↔ ∃ k, iterationRuns frame length k
          ∧ assignsField frame length (loopState frame length k) = true := by
    rw [summary_isSome, heq, dataFound_loopState frame length n hmin]
    constructor
    · rintro ⟨k, hk, ha⟩
      exact ⟨k, (iterationRuns_iff frame length n hexit hmin k).2 hk, ha⟩
    · rintro ⟨k, hk, ha⟩
      exact ⟨k, (iterationRuns_iff frame length n hexit hmin k).1 hk, ha⟩
  refine ⟨hmain, ?_, ?_, ?_⟩
  · rw [summary_isSome]
    exact (inv_scanFrame frame length).2.2
  · intro s hloop
    obtain ⟨_, hno, hyes⟩ := step_effect frame length s hloop
    refine ⟨⟨fun h => ?_, fun h => ?_⟩, hno⟩
    · obtain ⟨f, hf, _⟩ := hyes h
      exact ⟨f, hf⟩
    · by_contra hne
      have hfalse : assignsField frame length s = false := by simpa using hne
      obtain ⟨f, hf⟩ := h
      rw [(hno hfalse).2] at hf
      have := congrArg List.length hf
      simp at this
  · intro hnone
    have hnot : ¬ (decodeDLMSFrame frame length).summary.isSome = true := by
      rw [hmain]
      rintro ⟨k, hk, ha⟩
      have h1 := loopState_position frame length k (fun j hj => hk j (by omega))
      have h2 := hk k (le_refl k)
      have h3 := hnone _ (by omega) h2
      simp [assignsField, h3] at ha
    cases hs : (decodeDLMSFrame frame length).summary with
    | none => rfl
    | some l => simp [hs] at hnot

/-! ## C6: what the summary reports -/

theorem sentinel_not_present (r : Reading) (g : Field) (h : r.sentinel g) : ¬ r.present g := by
  cases g <;> simp only [Reading.sentinel] at h <;> simp [Reading.present, h]

/-- A line of the summary is printed exactly when one of its variables holds a decoded
value. -/
theorem reported_summaryLines (r : Reading) (f : Field) :
    reported (summaryLines r) f ↔ ∃ g, g.group = f.group ∧ r.present g := by
  have hex : ∀ G : Group, (∃ g : Field, g.group = G ∧ r.present g) ↔
      match G with
      | Group.timestamp => 0 < r.timestamp.length
      | Group.voltage => 0 ≤ r.voltageL1 ∨ 0 ≤ r.voltageL2 ∨ 0 ≤ r.voltageL3
      | Group.current => 0 ≤ r.currentL1 ∨ 0 ≤ r.currentL2 ∨ 0 ≤ r.currentL3
      | Group.activePower => 0 ≤ r.activePowerPlus ∨ 0 ≤ r.activePowerMinus
      | Group.activeEnergy => 0 < r.activeEnergyPlus ∨ 0 < r.activeEnergyMinus := by
    intro G
    constructor
    · rintro ⟨g, hg, hp⟩
      cases g <;> cases G <;> simp only [Field.group, reduceCtorEq] at hg <;>
        simp only [Reading.present] at hp <;> simp [hp]
    · intro h
      cases G
      · exact ⟨Field.timestamp, rfl, h⟩
      · rcases h with h | h | h
        · exact ⟨Field.voltageL1, rfl, h⟩
        · exact ⟨Field.voltageL2, rfl, h⟩
        · exact ⟨Field.voltageL3, rfl, h⟩
      · rcases h with h | h | h
        · exact ⟨Field.currentL1, rfl, h⟩
        · exact ⟨Field.currentL2, rfl, h⟩
        · exact ⟨Field.currentL3, rfl, h⟩
      · rcases h with h | h
        · exact ⟨Field.activePowerPlus, rfl, h⟩
        · exact ⟨Field.activePowerMinus, rfl, h⟩
      · rcases h with h | h
        · exact ⟨Field.activeEnergyPlus, rfl, h⟩
        · exact ⟨Field.activeEnergyMinus, rfl, h⟩
  rw [hex]
  unfold reported summaryLines
  simp only [List.mem_append, ge_iff_le, gt_iff_lt]
  cases hG : f.group <;> simp only [] <;> constructor
  any_goals
    rintro ⟨l, hl, hlg⟩
    rcases hl with (((hl | hl) | hl) | hl) | hl <;> split_ifs at hl with hc <;>
      simp only [List.mem_singleton, List.not_mem_nil] at hl <;> subst hl <;>
      first
        | exact hc
        | (simp [SummaryLine.group] at hlg)
  · intro hc
    exact ⟨SummaryLine.timestamp r.timestamp, by simp [hc], rfl⟩
  · intro hc
    exact ⟨SummaryLine.voltage r.voltageL1 r.voltageL2 r.voltageL3, by simp [hc], rfl⟩
  · intro hc
    exact ⟨SummaryLine.current r.currentL1 r.currentL2 r.currentL3, by simp [hc], rfl⟩
  · intro hc
    exact ⟨SummaryLine.activePower r.activePowerPlus r.activePowerMinus, by simp [hc], rfl⟩
  · intro hc
    exact ⟨SummaryLine.activeEnergy ((r.activeEnergyPlus : ℚ) / 1000)
      ((r.activeEnergyMinus : ℚ) / 1000), by simp [hc], rfl⟩

/-- C6, counterexample: in `scenarioB` only VoltageL1 is assigned, yet the summary prints
the voltage line with VoltageL2 and VoltageL3 as the sentinel -1; in `zeroEnergy`
ActiveEnergyPlus is assigned (the value 0), yet the summary, which is emitted, has no
line at all. -/
theorem summary_not_exactly_assigned_fields :
    (decodeDLMSFrame scenarioB 40).summary = some [SummaryLine.voltage 2310 (-1) (-1)]
      ∧ (scanFrame scenarioB 40).assigned = [Field.voltageL1]
      ∧ reported [SummaryLine.voltage 2310 (-1) (-1)] Field.voltageL2
      ∧ Field.voltageL2 ∉ (scanFrame scenarioB 40).assigned
      ∧ (decodeDLMSFrame zeroEnergy 40).summary = some []
      ∧ (scanFrame zeroEnergy 40).assigned = [Field.activeEnergyPlus]
      ∧ ¬ reported [] Field.activeEnergyPlus := by
  refine ⟨scenarioB_summary, by decide, ⟨_, List.mem_singleton.2 rfl, rfl⟩, by decide,
    zeroEnergy_summary, by decide, ?_⟩
  rintro ⟨l, hl, _⟩
  simp at hl

/-- A variable other than an energy holds a decoded value exactly when it was assigned; an
energy, when it was assigned and is not zero. -/
theorem present_iff_assigned (frame : List Nat) (length : Int) (f : Field) :
    (scanFrame frame length).reading.present f ↔
      f ∈ (scanFrame frame length).assigned
        ∧ (f.group = Group.activeEnergy → (scanFrame frame length).reading.present f) := by
  obtain ⟨i1, i2, _⟩ := inv_scanFrame frame length
  constructor
  · intro hp
    refine ⟨?_, fun _ => hp⟩
    by_contra hna
    exact sentinel_not_present _ f (i1 f hna) hp
  · rintro ⟨hmem, hp⟩
    by_cases he : f.group = Group.activeEnergy
    · exact hp he
    · exact i2 f hmem he

theorem summaryLines_groups (r : Reading) :
    ((summaryLines r).map SummaryLine.group).Sublist
      [Group.timestamp, Group.voltage, Group.current, Group.activePower,
        Group.activeEnergy] := by
  unfold summaryLines
  split_ifs <;> simp only [List.append_nil, List.nil_append, List.singleton_append, List.cons_append, List.map_cons, List.map_nil, SummaryLine.group] <;> decide

theorem mem_summaryLines (r : Reading) :
    (∀ t, SummaryLine.timestamp t ∈ summaryLines r ↔ t = r.timestamp ∧ r.present Field.timestamp)
      ∧ (∀ a b c, SummaryLine.voltage a b c ∈ summaryLines r ↔
          (a = r.voltageL1 ∧ b = r.voltageL2 ∧ c = r.voltageL3)
            ∧ (r.present Field.voltageL1 ∨ r.present Field.voltageL2
              ∨ r.present Field.voltageL3))
      ∧ (∀ a b c, SummaryLine.current a b c ∈ summaryLines r ↔
          (a = r.currentL1 ∧ b = r.currentL2 ∧ c = r.currentL3)
            ∧ (r.present Field.currentL1 ∨ r.present Field.currentL2
              ∨ r.present Field.currentL3))
      ∧ (∀ p m, SummaryLine.activePower p m ∈ summaryLines r ↔
          (p = r.activePowerPlus ∧ m = r.activePowerMinus)
            ∧ (r.present Field.activePowerPlus ∨ r.present Field.activePowerMinus))
      ∧ (∀ p m, SummaryLine.activeEnergy p m ∈ summaryLines r ↔
          (p = (r.activeEnergyPlus : ℚ) / 1000 ∧ m = (r.activeEnergyMinus : ℚ) / 1000)
            ∧ (r.present Field.activeEnergyPlus ∨ r.present Field.activeEnergyMinus)) := by
  refine ⟨fun t => ?_, fun a b c => ?_, fun a b c => ?_, fun p m => ?_, fun p m => ?_⟩
  all_goals
    simp only [summaryLines, List.mem_append, List.mem_ite_nil_right, List.mem_singleton,
      reduceCtorEq, and_false, or_false, false_or, SummaryLine.timestamp.injEq,
      SummaryLine.voltage.injEq, SummaryLine.current.injEq, SummaryLine.activePower.injEq,
      SummaryLine.activeEnergy.injEq, gt_iff_lt, ge_iff_le, Reading.present]
    tauto

/-- C6, amended: when a summary is emitted it has at most the five lines timestamp,
voltage, current, active power, active energy, in this order and each at most once.  A
line is printed exactly when one of its variables was assigned by an element (for the
active energy line: assigned and not zero at the end of the scan), and a printed line
shows every variable of the line with the value it holds at the end of the scan (an energy
divided by 1000); a variable that no element assigned holds its sentinel (-1, 0 for an
energy, the empty timestamp), and that is what its line shows for it.  Hence every assigned
variable other than an active energy is reported, and every reported variable shares its
line with an assigned one. -/
theorem summary_reports_lines_of_assigned (frame : List Nat) (length : Int)
    (lines : List SummaryLine) (h : (decodeDLMSFrame frame length).summary = some lines) :
    lines = summaryLines (scanFrame frame length).reading
      ∧ (∀ f, reported lines f ↔
          ∃ g, g.group = f.group ∧ g ∈ (scanFrame frame length).assigned
            ∧ (g.group = Group.activeEnergy → (scanFrame frame length).reading.present g))
      ∧ (∀ f, f ∉ (scanFrame frame length).assigned →
          (scanFrame frame length).reading.sentinel f)
      ∧ (∀ f, f ∈ (scanFrame frame length).assigned → f.group ≠ Group.activeEnergy →
          reported lines f)
      ∧ (∀ f, reported lines f →
          ∃ g, g.group = f.group ∧ g ∈ (scanFrame frame length).assigned)
      ∧ (lines.map SummaryLine.group).Sublist
          [Group.timestamp, Group.voltage, Group.current, Group.activePower,
            Group.activeEnergy]
      ∧ (∀ t, SummaryLine.timestamp t ∈ lines ↔
          t = (scanFrame frame length).reading.timestamp
            ∧ Field.timestamp ∈ (scanFrame frame length).assigned)
      ∧ (∀ a b c, SummaryLine.voltage a b c ∈ lines ↔
          (a = (scanFrame frame length).reading.voltageL1
              ∧ b = (scanFrame frame length).reading.voltageL2
              ∧ c = (scanFrame frame length).reading.voltageL3)
            ∧ (Field.voltageL1 ∈ (scanFrame frame length).assigned
              ∨ Field.voltageL2 ∈ (scanFrame frame length).assigned
              ∨ Field.voltageL3 ∈ (scanFrame frame length).assigned))
      ∧ (∀ a b c, SummaryLine.current a b c ∈ lines ↔
          (a = (scanFrame frame length).reading.currentL1
              ∧ b = (scanFrame frame length).reading.currentL2
              ∧ c = (scanFrame frame length).reading.currentL3)
            ∧ (Field.currentL1 ∈ (scanFrame frame length).assigned
              ∨ Field.currentL2 ∈ (scanFrame frame length).assigned
              ∨ Field.currentL3 ∈ (scanFrame frame length).assigned))
      ∧ (∀ p m, SummaryLine.activePower p m ∈ lines ↔
          (p = (scanFrame frame length).reading.activePowerPlus
              ∧ m = (scanFrame frame length).reading.activePowerMinus)
            ∧ (Field.activePowerPlus ∈ (scanFrame frame length).assigned
              ∨ Field.activePowerMinus ∈ (scanFrame frame length).assigned))
      ∧ (∀ p m, SummaryLine.activeEnergy p m ∈ lines ↔
          (p = ((scanFrame frame length).reading.activeEnergyPlus : ℚ) / 1000
              ∧ m = ((scanFrame frame length).reading.activeEnergyMinus : ℚ) / 1000)
            ∧ ((Field.activeEnergyPlus ∈ (scanFrame frame length).assigned
                ∧ 0 < (scanFrame frame length).reading.activeEnergyPlus)
              ∨ (Field.activeEnergyMinus ∈ (scanFrame frame length).assigned
                ∧ 0 < (scanFrame frame length).reading.activeEnergyMinus))) := by
  obtain ⟨i1, i2, _⟩ := inv_scanFrame frame length
  have hl : lines = summaryLines (scanFrame frame length).reading := by
    simp only [decodeDLMSFrame, printSummary] at h
    split_ifs at h
    simpa using h.symm
  have hrep : ∀ f, reported lines f ↔
      ∃ g, g.group = f.group ∧ g ∈ (scanFrame frame length).assigned
        ∧ (g.group = Group.activeEnergy → (scanFrame frame length).reading.present g) := by
    intro f
    rw [hl, reported_summaryLines]
    constructor
    · rintro ⟨g, hg, hp⟩
      refine ⟨g, hg, ?_, fun _ => hp⟩
      by_contra hna
      exact sentinel_not_present _ g (i1 g hna) hp
    · rintro ⟨g, hg, hmem, hp⟩
      by_cases he : g.group = Group.activeEnergy
      · exact ⟨g, hg, hp he⟩
      · exact ⟨g, hg, i2 g hmem he⟩
  have hp := present_iff_assigned frame length
  obtain ⟨mT, mV, mC, mP, mE⟩ := mem_summaryLines (scanFrame frame length).reading
  clear h
  generalize scanFrame frame length = S at *
  refine ⟨hl, hrep, i1, ?_, ?_, ?_, ?_, ?_, ?_, ?_, ?_⟩
  · intro f hf hne
    exact (hrep f).2 ⟨f, rfl, hf, fun he => absurd he hne⟩
  · intro f hf
    obtain ⟨g, hg, hmem, _⟩ := (hrep f).1 hf
    exact ⟨g, hg, hmem⟩
  · rw [hl]
    exact summaryLines_groups _
  · intro t
    rw [hl, mT, hp Field.timestamp]
    simp [Field.group]
  · intro a b c
    rw [hl, mV, hp Field.voltageL1, hp Field.voltageL2, hp Field.voltageL3]
    simp [Field.group]
  · intro a b c
    rw [hl, mC, hp Field.currentL1, hp Field.currentL2, hp Field.currentL3]
    simp [Field.group]
  · intro p m
    rw [hl, mP, hp Field.activePowerPlus, hp Field.activePowerMinus]
    simp [Field.group]
  · intro p m
    rw [hl, mE, hp Field.activeEnergyPlus, hp Field.activeEnergyMinus]
    simp [Field.group, Reading.present]

/-- Witness for C6 (amended): the summary of `scenarioB`, whose voltage line reports
VoltageL1, assigned, and with it VoltageL2, shown as the sentinel it still holds. -/
theorem summary_reports_lines_of_assigned_witness :
    (decodeDLMSFrame scenarioB 40).summary = some [SummaryLine.voltage 2310 (-1) (-1)]
      ∧ reported [SummaryLine.voltage 2310 (-1) (-1)] Field.voltageL1
      ∧ (scanFrame scenarioB 40).reading.sentinel Field.voltageL2
      ∧ (2310 : ℚ) = (scanFrame scenarioB 40).reading.voltageL1
      ∧ (-1 : ℚ) = (scanFrame scenarioB 40).reading.voltageL2
      ∧ (-1 : ℚ) = (scanFrame scenarioB 40).reading.voltageL3 :=
  have h := summary_reports_lines_of_assigned scenarioB 40 _ scenarioB_summary
  have hv := ((h.2.2.2.2.2.2.2.1 2310 (-1) (-1)).1 (List.mem_singleton.2 rfl)).1
  ⟨scenarioB_summary, h.2.2.2.1 Field.voltageL1 (by decide) (by decide),
    h.2.2.1 Field.voltageL2 (by decide), hv.1, hv.2.1, hv.2.2⟩

/-! ## C7: unrecognized type tag -/

/-- C7: when the type tag read after an OBIS identifier in the loop is none of 0x00, 0x06,
0x09, 0x12, the iteration sets the cursor to the frame length and leaves every Reading
variable, the data-found flag and the set of assigned fields as they were; it reads no
frame byte beyond the tag; the loop is left there (with any fuel), so when the element is
met in the scan of the frame, `scanFrame` is the state after this iteration, and the
summary is the one of the state before the element: emitted when an earlier element had
been assigned. -/
theorem unknown_tag_ends_scan (frame : List Nat) (length : Int) (s : State)
    (hloop : s.current_position < length - 10)
    (hmark : isMarker frame s.current_position = true)
    (h00 : frameAt frame (s.current_position + 8) ≠ DATA_NULL)
    (h06 : frameAt frame (s.current_position + 8) ≠ DATA_LONG_DOUBLE_UNSIGNED)
    (h09 : frameAt frame (s.current_position + 8) ≠ DATA_OCTET_STRING)
    (h12 : frameAt frame (s.current_position + 8) ≠ DATA_LONG_UNSIGNED) :
    (step frame length s).current_position = length
      ∧ (step frame length s).reading = s.reading
      ∧ (step frame length s).dataFound = s.dataFound
      ∧ (step frame length s).assigned = s.assigned
      ∧ (step frame length s).reads = s.reads ++
          [s.current_position, s.current_position + 1, s.current_position + 2,
            s.current_position + 3, s.current_position + 4, s.current_position + 5,
            s.current_position + 6, s.current_position + 7, s.current_position + 8]
      ∧ (∀ fuel : Nat, scanLoop frame length fuel (step frame length s) = step frame length s)
      ∧ (∀ n : Nat, iterationRuns frame length n → s = loopState frame length n →
          scanFrame frame length = step frame length s
            ∧ (decodeDLMSFrame frame length).summary = printSummary s
            ∧ (s.dataFound = true → (decodeDLMSFrame frame length).summary ≠ none)) := by
  have he : element frame length s =
      { st := (tagState frame s).goto length, data_length := 0, known_obis := false } := by
    simp [element_eq, switchDataType, h00, h06, h09, h12]
  have hstep := step_of_marker frame length s hloop hmark
  have hcp : (step frame length s).current_position = length := by
    rw [hstep, afterSwitch_current_position, he]
    simp
  have hr : (step frame length s).reading = s.reading := by
    rw [hstep, afterSwitch_reading, he]; simp
  have hd : (step frame length s).dataFound = s.dataFound := by
    rw [hstep, afterSwitch_dataFound, he]; simp
  have hexit : ¬ (step frame length s).current_position < length - 10 := by
    rw [hcp]; omega
  refine ⟨hcp, hr, hd, ?_, ?_, fun fuel => scanLoop_of_exit frame length fuel _ hexit, ?_⟩
  · rw [hstep, afterSwitch_assigned, he]; simp
  · rw [hstep, afterSwitch_reads, he]; simp
  · intro n hruns hs
    have hsf : scanFrame frame length = step frame length s := by
      have := scanFrame_eq_loopState frame length (n + 1)
        (fun k hk => hruns k (by omega)) (by simpa [loopState, ← hs] using hexit)
      simpa [loopState, ← hs] using this
    have hsum : (decodeDLMSFrame frame length).summary = printSummary s := by
      simp only [decodeDLMSFrame, hsf]
      exact printSummary_congr s _ hr hd
    refine ⟨hsf, hsum, ?_⟩
    intro hfound
    rw [hsum]
    simp [printSummary, hfound]

/-- Witness for C7: in Scenario D the fourth iteration meets the tag 0x7F; the voltage
decoded before it is kept and the summary is emitted. -/
theorem unknown_tag_ends_scan_witness :
    iterationRuns scenarioD 70 3
      ∧ isMarker scenarioD (loopState scenarioD 70 3).current_position = true
      ∧ frameAt scenarioD ((loopState scenarioD 70 3).current_position + 8) = 0x7F
      ∧ (loopState scenarioD 70 3).dataFound = true
      ∧ (step scenarioD 70 (loopState scenarioD 70 3)).current_position = 70
      ∧ scanFrame scenarioD 70 = step scenarioD 70 (loopState scenarioD 70 3)
      ∧ (decodeDLMSFrame scenarioD 70).summary ≠ none :=
  have h := unknown_tag_ends_scan scenarioD 70 (loopState scenarioD 70 3) (by decide)
    (by decide) (by decide) (by decide) (by decide) (by decide)
  have h3 := h.2.2.2.2.2.2 3 (by decide) rfl
  ⟨by decide, by decide, by decide, by decide, h.1, h3.1, h3.2.2 (by decide)⟩

/-! ## C9 and C8: truncated elements -/

/-- C9: when an UnsignedLong (tag 0x06) element is met in the loop and its payload would
start at a cursor (the position after the tag) with cursor + 4 > length, the decoder prints
the error "Not enough data" for it, takes no value (`data_length` 0, `known_obis` false)
and leaves ActiveEnergyPlus, ActiveEnergyMinus, every other Reading variable, the
data-found flag and the set of assigned fields as they were. -/
theorem truncated_unsignedLong_writes_nothing (frame : List Nat) (length : Int) (s : State)
    (hloop : s.current_position < length - 10)
    (hmark : isMarker frame s.current_position = true)
    (htag : frameAt frame (s.current_position + 8) = DATA_LONG_DOUBLE_UNSIGNED)
    (htrunc : length < s.current_position + 9 + 4) :
    (element frame length s).st.serial = s.serial ++
        [Msg.foundObis s.current_position (obisAt frame s.current_position)
            (getObisDescription (obisAt frame s.current_position)),
          Msg.dataType (s.current_position + 8) DATA_LONG_DOUBLE_UNSIGNED,
          Msg.notEnoughData]
      ∧ (element frame length s).data_length = 0
      ∧ (element frame length s).known_obis = false
      ∧ (step frame length s).reading = s.reading
      ∧ (step frame length s).dataFound = s.dataFound
      ∧ (step frame length s).assigned = s.assigned := by
  have he := element_long_truncated frame length s htag htrunc
  have hstep := step_of_marker frame length s hloop hmark
  refine ⟨?_, ?_, ?_, ?_, ?_, ?_⟩
  · rw [he]; simp [htag]
  · rw [he]
  · rw [he]
  · rw [hstep, afterSwitch_reading, he]; simp
  · rw [hstep, afterSwitch_dataFound, he]; simp
  · rw [hstep, afterSwitch_assigned, he]; simp

/-- Witness for C9: `truncatedLong`, where the cursor after the tag is length - 3. -/
theorem truncated_unsignedLong_writes_nothing_witness :
    initState.current_position < (32 : Int) - 10
      ∧ isMarker truncatedLong initState.current_position = true
      ∧ initState.current_position + 9 = (32 : Int) - 3
      ∧ (element truncatedLong 32 initState).known_obis = false
      ∧ (step truncatedLong 32 initState).reading = initState.reading
      ∧ (step truncatedLong 32 initState).dataFound = false :=
  have h := truncated_unsignedLong_writes_nothing truncatedLong 32 initState (by decide)
    (by decide) (by decide) (by decide)
  ⟨by decide, by decide, by decide, h.2.2.1, h.2.2.2.1, h.2.2.2.2.1⟩

/-- C8, counterexample: in `truncatedOctets` the first element is an OctetString declaring
200 bytes with 25 left.  The iteration leaves the cursor at 30, not at the frame end 55;
the scan goes on, and the element that starts at 30 is decoded and assigned: VoltageL1 =
231. -/
theorem truncated_octets_scan_goes_on :
    isMarker truncatedOctets 20 = true
      ∧ frameAt truncatedOctets 28 = DATA_OCTET_STRING
      ∧ (55 : Int) < 30 + frameAt truncatedOctets 29
      ∧ (step truncatedOctets 55 initState).current_position = 30
      ∧ (step truncatedOctets 55 initState).current_position ≠ 55
      ∧ isMarker truncatedOctets 30 = true
      ∧ (scanFrame truncatedOctets 55).reading.voltageL1 = 231
      ∧ (scanFrame truncatedOctets 55).assigned = [Field.voltageL1]
      ∧ (decodeDLMSFrame truncatedOctets 55).summary ≠ none := by
  have h : (scanFrame truncatedOctets 55).reading.voltageL1 = ((231 : Nat) : ℚ) := by
    rw [← toFloat_toDouble_div_exact 2310 10 231 (by norm_num) (by norm_num) (by norm_num),
      ← toFloat_natCast 2310 (by norm_num)]
    rfl
  have hd : (scanFrame truncatedOctets 55).dataFound = true := by decide
  refine ⟨by decide, by decide, by decide, by decide, by decide, by decide, ?_, by decide, ?_⟩
  · rw [h]; norm_num
  · simp [decodeDLMSFrame, printSummary, hd]

/-- C8, amended: a truncated element met in the loop writes no Reading variable, leaves the
data-found flag and the assigned fields as they were, and the cursor is not moved over the
payload: with p the position right after the type tag (UnsignedLong) or right after the
length byte (OctetString), the cursor ends at p + 2 when p < length - 1 and the byte at p
is 0x02 or 0x0F, and at p otherwise.  For an UnsignedLong with fewer than 4 bytes left, p
is length - 3 or length - 2, the cursor ends between length - 3 and length, so the loop is
left and nothing after the element is decoded.  For an OctetString whose declared length
exceeds the bytes left, p is at most length - 1 and the cursor at most length; it is
length only when p = length - 2 and a separator byte stands there; the truncation itself
does not end the scan, which goes on from the cursor whenever that is below
length - 10. -/
theorem truncated_element_cursor (frame : List Nat) (length : Int) (s : State)
    (hloop : s.current_position < length - 10)
    (hmark : isMarker frame s.current_position = true) :
    (frameAt frame (s.current_position + 8) = DATA_LONG_DOUBLE_UNSIGNED →
      length < s.current_position + 9 + 4 →
        (step frame length s).reading = s.reading
          ∧ (step frame length s).dataFound = s.dataFound
          ∧ (step frame length s).assigned = s.assigned
          ∧ ((step frame length s).current_position = s.current_position + 9
              ∨ (step frame length s).current_position = s.current_position + 11)
          ∧ length - 3 ≤ (step frame length s).current_position
          ∧ (step frame length s).current_position ≤ length
          ∧ (∀ fuel : Nat, scanLoop frame length fuel (step frame length s)
              = step frame length s)
          ∧ (length - 3 = s.current_position + 9 ∨ length - 2 = s.current_position + 9)
          ∧ ((frameAt frame (s.current_position + 9) = 0x02
                ∨ frameAt frame (s.current_position + 9) = 0x0F) →
              (step frame length s).current_position = s.current_position + 9 + 2)
          ∧ (frameAt frame (s.current_position + 9) ≠ 0x02 →
              frameAt frame (s.current_position + 9) ≠ 0x0F →
              (step frame length s).current_position = s.current_position + 9))
      ∧ (frameAt frame (s.current_position + 8) = DATA_OCTET_STRING →
        length < s.current_position + 10 + frameAt frame (s.current_position + 9) →
          (step frame length s).reading = s.reading
            ∧ (step frame length s).dataFound = s.dataFound
            ∧ (step frame length s).assigned = s.assigned
            ∧ ((step frame length s).current_position = s.current_position + 10
                ∨ (step frame length s).current_position = s.current_position + 12)
            ∧ (s.current_position + 10 < length - 1 →
                (frameAt frame (s.current_position + 10) = 0x02
                  ∨ frameAt frame (s.current_position + 10) = 0x0F) →
                (step frame length s).current_position = s.current_position + 10 + 2)
            ∧ (s.current_position + 10 < length - 1 →
                frameAt frame (s.current_position + 10) ≠ 0x02 →
                frameAt frame (s.current_position + 10) ≠ 0x0F →
                (step frame length s).current_position = s.current_position + 10)
            ∧ (length - 1 ≤ s.current_position + 10 →
                (step frame length s).current_position = s.current_position + 10)
            ∧ s.current_position + 10 ≤ length - 1
            ∧ (step frame length s).current_position ≤ length
            ∧ ((step frame length s).current_position = length ↔
                s.current_position + 10 = length - 2
                  ∧ (frameAt frame (s.current_position + 10) = 0x02
                    ∨ frameAt frame (s.current_position + 10) = 0x0F))
            ∧ ((step frame length s).current_position < length - 10 →
                ∀ fuel : Nat, scanLoop frame length (fuel + 1) (step frame length s)
                  = scanLoop frame length fuel (step frame length (step frame length s)))) := by
  have hstep := step_of_marker frame length s hloop hmark
  constructor
  · intro htag htrunc
    have he := element_long_truncated frame length s htag htrunc
    have hpos : (step frame length s).current_position
        = if s.current_position + 9 < length - 1
            ∧ (frameAt frame (s.current_position + 9) = 0x02
              ∨ frameAt frame (s.current_position + 9) = 0x0F)
          then s.current_position + 9 + 2 else s.current_position + 9 := by
      rw [hstep, afterSwitch_current_position, he]
      simp only [State.print_current_position, tagState_current_position, Nat.cast_zero,
        add_zero]
    have hp1 : s.current_position + 9 < length - 1 := by omega
    have hcp : (step frame length s).current_position = s.current_position + 9
        ∨ (step frame length s).current_position = s.current_position + 11 := by
      rw [hpos]
      split_ifs
      · right; omega
      · left; rfl
    have hle : (step frame length s).current_position ≤ length := by
      rcases hcp with h | h <;> omega
    refine ⟨?_, ?_, ?_, hcp, by omega, hle, fun fuel => scanLoop_of_exit frame length fuel _
      (by omega), by omega, fun hsep => ?_, fun h2 hF => ?_⟩
    · rw [hstep, afterSwitch_reading, he]; simp
    · rw [hstep, afterSwitch_dataFound, he]; simp
    · rw [hstep, afterSwitch_assigned, he]; simp
    · rw [hpos, if_pos ⟨hp1, hsep⟩]
    · rw [hpos, if_neg (fun hc => hc.2.elim h2 hF)]
  · intro htag htrunc
    have he := element_octets_truncated frame length s hloop htag htrunc
    have hpos : (step frame length s).current_position
        = if s.current_position + 10 < length - 1
            ∧ (frameAt frame (s.current_position + 10) = 0x02
              ∨ frameAt frame (s.current_position + 10) = 0x0F)
          then s.current_position + 10 + 2 else s.current_position + 10 := by
      rw [hstep, afterSwitch_current_position, he]
      simp only [State.print_current_position, State.goto_current_position, Nat.cast_zero,
        add_zero]
    have hcp : (step frame length s).current_position = s.current_position + 10
        ∨ (step frame length s).current_position = s.current_position + 12 := by
      rw [hpos]
      split_ifs
      · right; omega
      · left; rfl
    refine ⟨?_, ?_, ?_, hcp, fun h1 hsep => ?_, fun h1 h2 hF => ?_, fun h1 => ?_, by omega, ?_,
      ?_, fun hlt fuel => ?_⟩
    · rw [hstep, afterSwitch_reading, he]; simp
    · rw [hstep, afterSwitch_dataFound, he]; simp
    · rw [hstep, afterSwitch_assigned, he]; simp
    · rw [hpos, if_pos ⟨h1, hsep⟩]
    · rw [hpos, if_neg (fun hc => hc.2.elim h2 hF)]
    · rw [hpos, if_neg (fun hc => absurd hc.1 (by omega))]
    · rw [hpos]
      split_ifs with hc
      · have := hc.1
        omega
      · omega
    · rw [hpos]
      split_ifs with hc
      · have := hc.1
        constructor
        · intro h
          exact ⟨by omega, hc.2⟩
        · intro h
          omega
      · constructor
        · intro h
          omega
        · intro h
          exact absurd ⟨by omega, h.2⟩ hc
    · simp only [scanLoop, hlt, if_true]

/-- Witness for C8 (amended): the truncated UnsignedLong of `truncatedLong`, the truncated
OctetString of `truncatedOctets`, and the truncated OctetString of `truncatedAtEnd`, where
the separator after the length byte takes the cursor to the frame end. -/
theorem truncated_element_cursor_witness :
    initState.current_position < (32 : Int) - 10
      ∧ isMarker truncatedLong initState.current_position = true
      ∧ (32 : Int) - 3 ≤ (step truncatedLong 32 initState).current_position
      ∧ initState.current_position < (55 : Int) - 10
      ∧ isMarker truncatedOctets initState.current_position = true
      ∧ (step truncatedOctets 55 initState).reading = initState.reading
      ∧ (step truncatedOctets 55 initState).current_position = 30
      ∧ (step truncatedAtEnd 32 initState).current_position = 32 :=
  have h1 := (truncated_element_cursor truncatedLong 32 initState (by decide) (by decide)).1
    (by decide) (by decide)
  have h2 := (truncated_element_cursor truncatedOctets 55 initState (by decide)
    (by decide)).2 (by decide) (by decide)
  have h3 := (truncated_element_cursor truncatedAtEnd 32 initState (by decide)
    (by decide)).2 (by decide) (by decide)
  ⟨by decide, by decide, h1.2.2.2.2.1, by decide, by decide, h2.1,
    h2.2.2.2.2.2.1 (by decide) (by decide) (by decide),
    (h3.2.2.2.2.2.2.2.2.2.1).2 ⟨by decide, by decide⟩⟩

/-! ## C10: progress and termination of the scan -/

/-- C10: in every iteration of the scan loop the cursor strictly increases, by exactly 1
when the bytes at the cursor are not the marker 0x09 0x06 and by at least 9 when they are;
hence the loop is left after some `n ≤ length` iterations (the loop condition holds before
each of them and fails after the last), `scanFrame` is the state reached then, and it is
what the loop computes with any fuel of at least `length`. -/
theorem cursor_advances_and_scan_terminates (frame : List Nat) (length : Int) :
    (∀ s : State, s.current_position < length - 10 →
        s.current_position < (step frame length s).current_position
          ∧ (isMarker frame s.current_position = false →
              (step frame length s).current_position = s.current_position + 1)
          ∧ (isMarker frame s.current_position = true →
              s.current_position + 9 ≤ (step frame length s).current_position))
      ∧ (∃ n : Nat, n ≤ length.toNat
          ∧ scanFrame frame length = loopState frame length n
          ∧ ¬ (loopState frame length n).current_position < length - 10
          ∧ ∀ k, k < n → (loopState frame length k).current_position < length - 10)
      ∧ (∀ fuel : Nat, length.toNat ≤ fuel →
          scanLoop frame length fuel initState = scanFrame frame length) := by
  refine ⟨fun s hloop => ⟨?_, ?_, ?_⟩, scanFrame_exits frame length,
    fun fuel h => scanLoop_fuel frame length fuel h⟩
  · have := step_position_lt frame length s hloop
    omega
  · intro hmark
    exact (step_of_not_marker frame length s hmark).1
  · intro hmark
    exact step_position_of_marker frame length s hloop hmark

/-! ## C11: frames too short to be scanned -/

/-- C11: for a frame whose length is below DECODER_START_OFFSET + 10 = 30 the loop
condition fails at once: the body is not executed (with any fuel the loop returns the
initial state), no frame byte is read, no variable is assigned and no summary is
emitted. -/
theorem short_frame_not_scanned (frame : List Nat) (length : Int)
    (h : length < DECODER_START_OFFSET + 10) :
    ¬ iterationRuns frame length 0
      ∧ (∀ fuel : Nat, scanLoop frame length fuel initState = initState)
      ∧ scanFrame frame length = initState
      ∧ (scanFrame frame length).reads = []
      ∧ (scanFrame frame length).assigned = []
      ∧ (decodeDLMSFrame frame length).summary = none := by
  have hexit : ¬ initState.current_position < length - 10 := by
    simp only [initState, DECODER_START_OFFSET] at h ⊢
    omega
  have hs : scanFrame frame length = initState := scanLoop_of_exit frame length _ _ hexit
  refine ⟨fun hr => hexit (hr 0 (le_refl 0)), fun fuel => scanLoop_of_exit frame length fuel _ hexit,
    hs, by rw [hs]; rfl, by rw [hs]; rfl, ?_⟩
  simp [decodeDLMSFrame, hs, printSummary, initState]

/-- Witness for C11: `shortFrame`, 29 bytes with a marker at position 20. -/
theorem short_frame_not_scanned_witness :
    (29 : Int) < DECODER_START_OFFSET + 10
      ∧ isMarker shortFrame 20 = true
      ∧ scanFrame shortFrame 29 = initState
      ∧ (decodeDLMSFrame shortFrame 29).summary = none :=
  have h := short_frame_not_scanned shortFrame 29 (by decide)
  ⟨by decide, by decide, h.2.2.1, h.2.2.2.2.2⟩

/-! ## C12: the description depends on C and D only -/

theorem find_cons_description (o : List Nat) (p : Nat × Nat) (text : String)
    (rest : List ((Nat × Nat) × String)) (x : Option String)
    (h : x = (rest.find? (fun e => e.1 == (o.getD OBIS_C 0, o.getD OBIS_D 0))).map
      (fun e => e.2)) :
    (if memcmpCD o p then some text else x) =
      (((p, text) :: rest).find? (fun e => e.1 == (o.getD OBIS_C 0, o.getD OBIS_D 0))).map
        (fun e => e.2) := by
  obtain ⟨a, b⟩ := p
  unfold memcmpCD
  rw [h]
  generalize o.getD OBIS_C 0 = c
  generalize o.getD OBIS_D 0 = d
  rw [List.find?_cons]
  by_cases hcd : c = a ∧ d = b
  · obtain ⟨rfl, rfl⟩ := hcd
    simp
  · have hne : ((a, b) == (c, d)) = false := by
      simp only [beq_eq_false_iff_ne, ne_eq, Prod.mk.injEq]
      exact fun hh => hcd ⟨hh.1.symm, hh.2.symm⟩
    have hm : (c == a && d == b) = false := by
      simpa using hcd
    simp only [hne, hm]
    rfl

theorem getObisDescription_eq_find (obisCode : List Nat) :
    getObisDescription obisCode =
      (obisTable.find? (fun e => e.1 == (obisCode.getD OBIS_C 0, obisCode.getD OBIS_D 0))).map
        (fun e => e.2) := by
  unfold getObisDescription obisTable
  repeat' apply find_cons_description
  rfl

/-- C12: `getObisDescription` looks only at the bytes C (index 2) and D (index 3) of the
identifier: two identifiers that agree there get the same result, whatever their other
bytes (so asking twice gives the same answer); the result is the entry of the first row of
the table whose pair is (C, D), and `none` (null) when no row has that pair. -/
theorem getObisDescription_depends_on_CD :
    (∀ o1 o2 : List Nat, o1.getD OBIS_C 0 = o2.getD OBIS_C 0 →
        o1.getD OBIS_D 0 = o2.getD OBIS_D 0 →
        getObisDescription o1 = getObisDescription o2)
      ∧ (∀ a b c d e f a2 b2 e2 f2 : Nat,
          getObisDescription [a, b, c, d, e, f] = getObisDescription [a2, b2, c, d, e2, f2])
      ∧ (∀ o : List Nat, getObisDescription o =
          (obisTable.find? (fun e => e.1 == (o.getD OBIS_C 0, o.getD OBIS_D 0))).map
            (fun e => e.2))
      ∧ (∀ o : List Nat,
          (∀ e, e ∈ obisTable → e.1 ≠ (o.getD OBIS_C 0, o.getD OBIS_D 0)) →
          getObisDescription o = none) := by
  have h1 : ∀ o1 o2 : List Nat, o1.getD OBIS_C 0 = o2.getD OBIS_C 0 →
      o1.getD OBIS_D 0 = o2.getD OBIS_D 0 →
      getObisDescription o1 = getObisDescription o2 := by
    intro o1 o2 hc hd
    rw [getObisDescription_eq_find, getObisDescription_eq_find, hc, hd]
  refine ⟨h1, ?_, getObisDescription_eq_find, ?_⟩
  · intro a b c d e f a2 b2 e2 f2
    exact h1 _ _ rfl rfl
  · intro o hno
    rw [getObisDescription_eq_find]
    have : obisTable.find? (fun e => e.1 == (o.getD OBIS_C 0, o.getD OBIS_D 0)) = none := by
      rw [List.find?_eq_none]
      intro e he
      simpa using hno e he
    rw [this]
    rfl

/-! ## C13: the byte swaps -/

theorem bytes_div_mod (b0 b1 b2 b3 w : Nat) (h0 : b0 < 256) (h1 : b1 < 256) (h2 : b2 < 256)
    (h3 : b3 < 256) (hw : w = b3 * 16777216 + b2 * 65536 + b1 * 256 + b0) :
    w / 16777216 = b3 ∧ w / 65536 % 256 = b2 ∧ w / 256 % 256 = b1 ∧ w % 256 = b0
      ∧ w < 4294967296 := by
  have e3 : w / 16777216 = b3 := by omega
  have e2 : w / 65536 = b3 * 256 + b2 := by omega
  have e1 : w / 256 = b3 * 65536 + b2 * 256 + b1 := by omega
  refine ⟨e3, ?_, ?_, ?_, ?_⟩ <;> omega

theorem bytes_decompose (y : Nat) (hy : y < 4294967296) :
    y = (y / 16777216) * 16777216 + (y / 65536 % 256) * 65536 + (y / 256 % 256) * 256
      + y % 256 ∧ y / 16777216 < 256 := by
  have y1 : y / 256 / 256 = y / 65536 := Nat.div_div_eq_div_mul y 256 256
  have y2 : y / 65536 / 256 = y / 16777216 := Nat.div_div_eq_div_mul y 65536 256
  omega

/-- C13: for every 16-bit `x`, `swap_uint16 x` is ((x mod 256) * 256 + x div 256) mod 2^16,
a 16-bit value; for every 32-bit `y` with bytes b3 b2 b1 b0 (most significant first),
`swap_uint32 y` is the 32-bit value with bytes b0 b1 b2 b3; both are defined for every
argument and swapping twice gives the argument back. -/
theorem swaps_reverse_bytes (x y : Nat) (hx : x < 2 ^ 16) (hy : y < 2 ^ 32) :
    swap_uint16 x = ((x % 256) * 256 + x / 256) % 2 ^ 16
      ∧ swap_uint16 x < 2 ^ 16
      ∧ swap_uint32 y = (y % 256) * 2 ^ 24 + (y / 2 ^ 8 % 256) * 2 ^ 16
          + (y / 2 ^ 16 % 256) * 2 ^ 8 + y / 2 ^ 24 % 256
      ∧ swap_uint32 y < 2 ^ 32
      ∧ swap_uint32 y / 2 ^ 24 % 256 = y % 256
      ∧ swap_uint32 y / 2 ^ 16 % 256 = y / 2 ^ 8 % 256
      ∧ swap_uint32 y / 2 ^ 8 % 256 = y / 2 ^ 16 % 256
      ∧ swap_uint32 y % 256 = y / 2 ^ 24 % 256
      ∧ swap_uint16 (swap_uint16 x) = x
      ∧ swap_uint32 (swap_uint32 y) = y := by
  have h16 := swap_uint16_eq x hx
  have hy2 : y < 4294967296 := by omega
  obtain ⟨hdec, hb3⟩ := bytes_decompose y hy2
  have h32 : swap_uint32 y = (y % 256) * 16777216 + (y / 256 % 256) * 65536
      + (y / 65536 % 256) * 256 + y / 16777216 := by
    rw [swap_uint32_eq y hy]
    norm_num
  obtain ⟨s3, s2, s1, s0, sb⟩ := bytes_div_mod (y / 16777216) (y / 65536 % 256)
    (y / 256 % 256) (y % 256) (swap_uint32 y) hb3 (Nat.mod_lt _ (by norm_num))
    (Nat.mod_lt _ (by norm_num)) (Nat.mod_lt _ (by norm_num)) h32
  have b16 : swap_uint16 x < 2 ^ 16 := by rw [h16]; omega
  have r32 : swap_uint32 (swap_uint32 y) = y := by
    rw [swap_uint32_eq _ (by omega)]
    norm_num
    rw [s3, s2, s1, s0]
    omega
  norm_num
  refine ⟨by rw [h16]; omega, by omega, by omega, sb, ?_, s2, s1, ?_, ?_, r32⟩
  · rw [s3]; omega
  · rw [s0]; omega
  · rw [swap_uint16_eq _ b16, h16]; omega

/-- Witness for C13: 0x1234 and 0x11223344. -/
theorem swaps_reverse_bytes_witness :
    (0x1234 : Nat) < 2 ^ 16 ∧ (0x11223344 : Nat) < 2 ^ 32
      ∧ swap_uint16 0x1234 = 0x3412 ∧ swap_uint32 0x11223344 = 0x44332211 :=
  have h := swaps_reverse_bytes 0x1234 0x11223344 (by norm_num) (by norm_num)
  ⟨by norm_num, by norm_num, h.1.trans (by norm_num), h.2.2.1.trans (by norm_num)⟩

/-! ## C17: the separator skip -/

/-- C17: after an element met in the loop, with `p` the cursor after its payload (the
cursor the `switch` leaves plus `data_length`): if p < length - 1 and the byte at p is 0x02
or 0x0F, the next iteration starts at p + 2, whatever the byte at p + 1 is; for any other
byte at p, or when p >= length - 1, it starts at p. -/
theorem separator_skips_two_bytes (frame : List Nat) (length : Int) (s : State)
    (hloop : s.current_position < length - 10)
    (hmark : isMarker frame s.current_position = true) :
    let p := (element frame length s).st.current_position
      + ((element frame length s).data_length : Int)
    (p < length - 1 → frameAt frame p = 0x02 ∨ frameAt frame p = 0x0F →
        (step frame length s).current_position = p + 2)
      ∧ (p < length - 1 → frameAt frame p ≠ 0x02 → frameAt frame p ≠ 0x0F →
        (step frame length s).current_position = p)
      ∧ (length - 1 ≤ p → (step frame length s).current_position = p) := by
  intro p
  rw [step_of_marker frame length s hloop hmark, afterSwitch_current_position]
  refine ⟨fun h1 h2 => ?_, fun h1 h2 h3 => ?_, fun h1 => ?_⟩
  · rw [if_pos ⟨h1, h2⟩]
  · rw [if_neg (fun hc => hc.2.elim h2 h3)]
  · rw [if_neg (fun hc => absurd hc.1 (by omega))]

/-- Witness for C17: in `separatorFrame` the voltage value ends at 31, where 0x0F stands:
the next iteration starts at 33; in `scenarioBShifted` the byte at 31 is 0x00 and the next
iteration starts at 31. -/
theorem separator_skips_two_bytes_witness :
    initState.current_position < (40 : Int) - 10
      ∧ isMarker separatorFrame initState.current_position = true
      ∧ frameAt separatorFrame 31 = 0x0F
      ∧ (step separatorFrame 40 initState).current_position = 33
      ∧ frameAt scenarioBShifted 31 = 0x00
      ∧ (step scenarioBShifted 40 initState).current_position = 31 :=
  have h := separator_skips_two_bytes separatorFrame 40 initState (by decide) (by decide)
  have h2 := separator_skips_two_bytes scenarioBShifted 40 initState (by decide) (by decide)
  ⟨by decide, by decide, by decide, (h.1 (by decide) (by decide)).trans (by decide),
    by decide, (h2.2.1 (by decide) (by decide) (by decide)).trans (by decide)⟩

/-! ## C18: the indices read -/

/-- The bytes an element reads lie between its marker and the frame end, and so does the
cursor after its payload. -/
theorem element_reads (frame : List Nat) (length : Int) (s : State)
    (hloop : s.current_position < length - 10) :
    (∀ i, i ∈ (element frame length s).st.reads →
        i ∈ s.reads ∨ (s.current_position ≤ i ∧ i < length))
      ∧ s.current_position + 9 ≤ (element frame length s).st.current_position
          + ((element frame length s).data_length : Int)
      ∧ (element frame length s).st.current_position
          + ((element frame length s).data_length : Int) ≤ length := by
  refine ⟨fun i hi => ?_, ?_⟩
  · rcases element_cases frame length s hloop with
      ⟨_, hin, he⟩ | ⟨_, hin, he⟩ | ⟨_, he⟩ | ⟨_, hin, _, he⟩ | ⟨_, hin, _, he⟩ | ⟨_, hin, he⟩
        | ⟨_, he⟩ | ⟨_, _, _, _, he⟩
    all_goals
      rw [he] at hi
      by_cases hmem : i ∈ s.reads
      · exact Or.inl hmem
      · right
        simp only [finish_reads, State.print_reads, State.rd_reads, State.goto_reads,
          tagState_reads, List.mem_append, List.mem_cons, List.mem_singleton,
          List.not_mem_nil, or_false, mem_shown, hmem, false_or] at hi
        try split_ifs at hi
        all_goals try simp only [List.mem_singleton, List.not_mem_nil, or_false] at hi
        all_goals omega
  · rcases element_cases frame length s hloop with
      ⟨_, hin, he⟩ | ⟨_, hin, he⟩ | ⟨_, he⟩ | ⟨_, hin, _, he⟩ | ⟨_, hin, _, he⟩ | ⟨_, hin, he⟩
        | ⟨_, he⟩ | ⟨_, _, _, _, he⟩
    all_goals
      rw [he]
      simp only [finish_current_position, finish_data_length, State.print_current_position,
        State.rd_current_position, State.goto_current_position, tagState_current_position,
        Nat.cast_ofNat, Nat.cast_zero]
      omega

/-- One iteration reads only positions from its cursor up to the frame end and leaves the
cursor at most at the frame end. -/
theorem step_reads (frame : List Nat) (length : Int) (s : State)
    (hloop : s.current_position < length - 10) :
    (∀ i, i ∈ (step frame length s).reads →
        i ∈ s.reads ∨ (s.current_position ≤ i ∧ i < length))
      ∧ (step frame length s).current_position ≤ length := by
  cases hmark : isMarker frame s.current_position
  · refine ⟨fun i hi => ?_, ?_⟩
    · simp only [step, hmark, Bool.false_eq_true, if_false] at hi
      by_cases hmem : i ∈ s.reads
      · exact Or.inl hmem
      · right
        split_ifs at hi <;>
          simp only [State.goto_reads, State.rd_reads, State.rd_current_position,
            List.mem_append, List.mem_cons, List.mem_singleton, List.not_mem_nil, or_false,
            hmem, false_or] at hi <;> omega
    · rw [(step_of_not_marker frame length s hmark).1]
      omega
  · obtain ⟨hr, hlo, hhi⟩ := element_reads frame length s hloop
    rw [step_of_marker frame length s hloop hmark]
    refine ⟨fun i hi => ?_, ?_⟩
    · rw [afterSwitch_reads] at hi
      rcases List.mem_append.1 hi with h | h
      · exact hr i h
      · right
        split_ifs at h <;>
          simp only [List.mem_cons, List.mem_singleton, List.not_mem_nil, or_false] at h <;>
          omega
    · rw [afterSwitch_current_position]
      split_ifs with hc
      · have := hc.1
        omega
      · exact hhi

/-- Up to any loop head, every index read lies in [20, length), and the cursor lies
between 20 and max(length, 20). -/
theorem reads_loopState (frame : List Nat) (length : Int) (n : Nat)
    (h : ∀ k, k < n → (loopState frame length k).current_position < length - 10) :
    (∀ i, i ∈ (loopState frame length n).reads → 20 ≤ i ∧ i < length)
      ∧ 20 ≤ (loopState frame length n).current_position
      ∧ (loopState frame length n).current_position ≤ max length 20 := by
  induction n with
  | zero =>
    refine ⟨fun i hi => ?_, by simp [loopState, initState], by simp [loopState, initState]⟩
    simp [loopState, initState] at hi
  | succ n ih =>
    obtain ⟨ih1, ih2, _⟩ := ih (fun k hk => h k (by omega))
    have hloop := h n (by omega)
    obtain ⟨hr, hc⟩ := step_reads frame length _ hloop
    have hp := step_position_lt frame length _ hloop
    refine ⟨fun i hi => ?_, by simp only [loopState]; omega, ?_⟩
    · rcases hr i hi with hm | hm
      · exact ih1 i hm
      · omega
    · simp only [loopState]
      exact le_trans hc (le_max_left _ _)

/-- C18, counterexample: for the 5-byte frame `tinyFrame` with length 5 the cursor is 20
from the start to the end of the scan, above the length. -/
theorem cursor_above_short_length :
    ((5 : Nat) : Int) ≤ tinyFrame.length
      ∧ initState.current_position = 20
      ∧ (scanFrame tinyFrame 5).current_position = 20
      ∧ (5 : Int) < (scanFrame tinyFrame 5).current_position := by
  decide

/-- C18, amended: for every frame buffer holding at least `length` bytes, every index at
which the decoder reads the frame (marker look-ahead, identifier, type tag, payloads,
scaler peek, length byte, timestamp bytes, shown octets, separator bytes) lies in
[20, length), hence in [0, length) and inside the buffer.  At every loop head the cursor
is at least 20 and at most max(length, 20): it never exceeds `length` when length >= 20,
and for a shorter frame it stays at its initial value 20. -/
theorem reads_within_frame (frame : List Nat) (length : Int)
    (hbuf : length ≤ (frame.length : Int)) :
    (∀ i, i ∈ (scanFrame frame length).reads →
        0 ≤ i ∧ i < length ∧ DECODER_START_OFFSET ≤ i ∧ i.toNat < frame.length)
      ∧ (∀ n, (∀ k, k < n → (loopState frame length k).current_position < length - 10) →
          (∀ i, i ∈ (loopState frame length n).reads → 0 ≤ i ∧ i < length)
            ∧ 20 ≤ (loopState frame length n).current_position
            ∧ (loopState frame length n).current_position ≤ max length 20)
      ∧ (scanFrame frame length).current_position ≤ max length 20
      ∧ (20 ≤ length → (scanFrame frame length).current_position ≤ length)
      ∧ (length < 20 → (scanFrame frame length).current_position = 20) := by
  obtain ⟨n, _, heq, _, hmin⟩ := scanFrame_exits frame length
  obtain ⟨hr, hlo, hhi⟩ := reads_loopState frame length n hmin
  refine ⟨fun i hi => ?_, fun m hm => ?_, by rw [heq]; exact hhi, fun h20 => ?_, fun hlt => ?_⟩
  · rw [heq] at hi
    have := hr i hi
    simp only [DECODER_START_OFFSET]
    omega
  · obtain ⟨h1, h2, h3⟩ := reads_loopState frame length m hm
    exact ⟨fun i hi => by have := h1 i hi; omega, h2, h3⟩
  · rw [heq]
    have : max length 20 = length := max_eq_left h20
    omega
  · rw [heq]
    have : max length 20 = 20 := max_eq_right (by omega)
    omega

/-- Witness for C18 (amended): Scenario D in a buffer of exactly 70 bytes. -/
theorem reads_within_frame_witness :
    (70 : Int) ≤ (scenarioD.length : Int)
      ∧ (41 : Int) ∈ (scanFrame scenarioD 70).reads
      ∧ (∀ i, i ∈ (scanFrame scenarioD 70).reads → 0 ≤ i ∧ i < 70)
      ∧ (scanFrame scenarioD 70).current_position ≤ 70 :=
  have h := reads_within_frame scenarioD 70 (by decide)
  ⟨by decide, by decide, fun i hi => ⟨(h.1 i hi).1, (h.1 i hi).2.1⟩, h.2.2.2.1 (by decide)⟩
/-! ## C19: error branches that cannot be taken -/

theorem afterSwitch_serial (frame : List Nat) (length : Int) (e : Element) :
    (afterSwitch frame length e).serial = e.st.serial ++
      (Msg.processed (e.st.current_position + e.data_length) ::
        (if e.st.current_position + e.data_length < length - 1
            ∧ (frameAt frame (e.st.current_position + e.data_length) = 0x02
              ∨ frameAt frame (e.st.current_position + e.data_length) = 0x0F)
          then [Msg.skippingSeparator (e.st.current_position + e.data_length)
            (frameAt frame (e.st.current_position + e.data_length))
            (frameAt frame (e.st.current_position + e.data_length + 1))]
          else [])) := by
  unfold afterSwitch
  simp only []
  split_ifs <;> simp_all

theorem notEnoughData_not_mem_separator (c : Prop) [Decidable c] (p : Int) (b0 b1 : Nat) :
    Msg.notEnoughData ∉ (if c then [Msg.skippingSeparator p b0 b1] else []) := by
  split_ifs <;> simp

theorem separator_not_unreachable (c : Prop) [Decidable c] (p : Int) (b0 b1 : Nat) (m : Msg)
    (hm : m ∈ (if c then [Msg.skippingSeparator p b0 b1] else [])) :
    m.unreachableError = false := by
  split_ifs at hm
  · rw [List.mem_singleton] at hm
    subst hm
    rfl
  · exact absurd hm (List.not_mem_nil m)

/-- The lines the type tag switch adds to the debug output at a marker: no line of an
unreachable branch, and `Error: Not enough data` exactly for a truncated UnsignedLong or a
truncated OctetString. -/
theorem element_serial (frame : List Nat) (length : Int) (s : State)
    (hloop : s.current_position < length - 10) :
    ∃ new, (element frame length s).st.serial = s.serial ++ new
      ∧ (∀ m, m ∈ new → m.unreachableError = false)
      ∧ (Msg.notEnoughData ∈ new ↔
          (frameAt frame (s.current_position + 8) = DATA_LONG_DOUBLE_UNSIGNED
              ∧ length < s.current_position + 9 + 4)
            ∨ (frameAt frame (s.current_position + 8) = DATA_OCTET_STRING
              ∧ length < s.current_position + 10 + frameAt frame (s.current_position + 9))) := by
  rcases element_cases frame length s hloop with
    ⟨ht, hin, he⟩ | ⟨ht, hin, he⟩ | ⟨ht, he⟩ | ⟨ht, hin, _, he⟩ | ⟨ht, hin, _, he⟩
      | ⟨ht, hin, he⟩ | ⟨ht, he⟩ | ⟨h0, h6, h9, h12, he⟩
  all_goals
    rw [he]
    simp only [finish_serial, State.print_serial, State.rd_serial, State.goto_serial,
      tagState_serial, List.append_assoc]
    refine ⟨_, rfl, ?_, ?_⟩
  any_goals
    intro m hm
    simp only [List.mem_append, List.mem_cons, List.mem_singleton, List.not_mem_nil,
      or_false, or_assoc] at hm
    rcases hm with rfl | rfl | rfl | rfl | rfl <;> rfl
  all_goals
    simp only [List.mem_append, List.mem_cons, List.mem_singleton, List.not_mem_nil,
      reduceCtorEq, false_or, or_false, or_true, true_or]
  all_goals first
    | (simp only [h6, h9, false_and, or_self])
    | (rw [true_iff]; left; refine ⟨ht, ?_⟩; omega)
    | (rw [true_iff]; right; refine ⟨ht, ?_⟩; omega)
    | (have c0 : DATA_NULL = 0 := rfl
       have c6 : DATA_LONG_DOUBLE_UNSIGNED = 6 := rfl
       have c9 : DATA_OCTET_STRING = 9 := rfl
       have c12 : DATA_LONG_UNSIGNED = 18 := rfl
       simp only [ht, true_iff, false_iff]
       omega)

/-- The lines one iteration at a marker adds to the debug output. -/
theorem step_serial_of_marker (frame : List Nat) (length : Int) (s : State)
    (hloop : s.current_position < length - 10)
    (hmark : isMarker frame s.current_position = true) :
    ∃ new, (step frame length s).serial = s.serial ++ new
      ∧ (∀ m, m ∈ new → m.unreachableError = false)
      ∧ (Msg.notEnoughData ∈ new ↔
          (frameAt frame (s.current_position + 8) = DATA_LONG_DOUBLE_UNSIGNED
              ∧ length < s.current_position + 9 + 4)
            ∨ (frameAt frame (s.current_position + 8) = DATA_OCTET_STRING
              ∧ length < s.current_position + 10 + frameAt frame (s.current_position + 9))) := by
  obtain ⟨new, h1, h2, h3⟩ := element_serial frame length s hloop
  rw [step_of_marker frame length s hloop hmark, afterSwitch_serial, h1]
  refine ⟨new ++ _, (List.append_assoc _ _ _), fun m hm => ?_, ?_⟩
  · rcases List.mem_append.1 hm with h | h
    · exact h2 m h
    · rcases List.mem_cons.1 h with h | h
      · subst h
        rfl
      · exact separator_not_unreachable _ _ _ _ m h
  · rw [← h3]
    simp only [List.mem_append, List.mem_cons, reduceCtorEq, false_or,
      notEnoughData_not_mem_separator, or_false]

/-- No iteration of the loop prints the line of an unreachable branch. -/
theorem step_serial_reachable (frame : List Nat) (length : Int) (s : State)
    (hloop : s.current_position < length - 10)
    (hs : ∀ m, m ∈ s.serial → m.unreachableError = false) :
    ∀ m, m ∈ (step frame length s).serial → m.unreachableError = false := by
  intro m hm
  by_cases hmark : isMarker frame s.current_position = true
  · obtain ⟨new, h1, h2, _⟩ := step_serial_of_marker frame length s hloop hmark
    rw [h1] at hm
    rcases List.mem_append.1 hm with h | h
    · exact hs m h
    · exact h2 m h
  · have h := (step_of_not_marker frame length s (by simpa using hmark)).2.2.2.1
    rw [h] at hm
    exact hs m hm

theorem scanLoop_serial_reachable (frame : List Nat) (length : Int) (fuel : Nat) :
    ∀ s : State, (∀ m, m ∈ s.serial → m.unreachableError = false) →
      ∀ m, m ∈ (scanLoop frame length fuel s).serial → m.unreachableError = false := by
  induction fuel with
  | zero => intro s hs; exact hs
  | succ n ih =>
    intro s hs
    simp only [scanLoop]
    split_ifs with hloop
    · exact ih _ (step_serial_reachable frame length s hloop hs)
    · exact hs

/-- C19: three error branches of `decodeDLMSFrame` are never taken.  For every frame and
length, the debug output holds neither "No data type found after OBIS code" nor "No length
byte".  At every marker recognised in the loop (cursor < length - 10): the test of line 95
holds, the cursor after the type tag is at most length - 2, so the tests `cursor + 2 <=
length` of the UnsignedShort case and `cursor < length` of the OctetString case hold and an
UnsignedShort element always takes its 2 bytes; "Not enough data" is printed in the
iteration exactly when the tag is UnsignedLong with fewer than 4 bytes left or the tag is
OctetString with a declared length above the bytes left; a truncated UnsignedLong has 2 or
3 bytes left. -/
theorem error_branches_unreachable (frame : List Nat) (length : Int) :
    (∀ m, m ∈ (decodeDLMSFrame frame length).debug → m.unreachableError = false)
      ∧ ∀ s : State, s.current_position < length - 10 →
        isMarker frame s.current_position = true →
          (identState frame s).current_position < length
          ∧ (tagState frame s).current_position ≤ length - 2
          ∧ (tagState frame s).current_position + 2 ≤ length
          ∧ (tagState frame s).current_position < length
          ∧ (frameAt frame ((identState frame s).current_position) = DATA_LONG_UNSIGNED →
              (element frame length s).data_length = 2
                ∧ Msg.notEnoughData ∉ (element frame length s).st.serial.drop s.serial.length)
          ∧ (frameAt frame ((identState frame s).current_position) = DATA_LONG_DOUBLE_UNSIGNED →
              length < (tagState frame s).current_position + 4 →
                length - (tagState frame s).current_position = 2
                  ∨ length - (tagState frame s).current_position = 3)
          ∧ ∃ new, (step frame length s).serial = s.serial ++ new
              ∧ (∀ m, m ∈ new → m.unreachableError = false)
              ∧ (Msg.notEnoughData ∈ new ↔
                  (frameAt frame ((identState frame s).current_position)
                        = DATA_LONG_DOUBLE_UNSIGNED
                      ∧ length < (tagState frame s).current_position + 4)
                    ∨ (frameAt frame ((identState frame s).current_position)
                        = DATA_OCTET_STRING
                      ∧ length < (tagState frame s).current_position + 1
                        + frameAt frame ((tagState frame s).current_position))) := by
  refine ⟨?_, fun s hloop hmark => ?_⟩
  · intro m hm
    refine scanLoop_serial_reachable frame length length.toNat initState ?_ m hm
    intro m hm
    simp only [initState, List.mem_singleton] at hm
    subst hm
    rfl
  · have hi : (identState frame s).current_position = s.current_position + 8 := by
      simp [identState_current_position]
    have ht : (tagState frame s).current_position = s.current_position + 9 := by
      simp [tagState_current_position]
    rw [hi, ht]
    refine ⟨by omega, by omega, by omega, by omega, fun h12 => ?_, fun _ _ => by omega, ?_⟩
    · obtain ⟨new, h1, _, h3⟩ := element_serial frame length s hloop
      have c9 : DATA_OCTET_STRING = 9 := rfl
      have c6 : DATA_LONG_DOUBLE_UNSIGNED = 6 := rfl
      have c12 : DATA_LONG_UNSIGNED = 18 := rfl
      constructor
      · rcases element_cases frame length s hloop with
          ⟨ht, hin, he⟩ | ⟨ht, hin, he⟩ | ⟨ht, he⟩ | ⟨ht, hin, _, he⟩ | ⟨ht, hin, _, he⟩
            | ⟨ht, hin, he⟩ | ⟨ht, he⟩ | ⟨h0, h6, h9, h12n, he⟩
        · omega
        · omega
        · rw [he, finish_data_length]
        · omega
        · omega
        · omega
        · have c0 : DATA_NULL = 0 := rfl
          omega
        · exact absurd h12 h12n
      · rw [h1, List.drop_left, h3]
        omega
    · obtain ⟨new, h1, h2, h3⟩ := step_serial_of_marker frame length s hloop hmark
      refine ⟨new, h1, h2, ?_⟩
      rw [h3]
      have e2 : s.current_position + 9 + 1 + (frameAt frame (s.current_position + 9) : Int)
          = s.current_position + 10 + (frameAt frame (s.current_position + 9) : Int) := by
        omega
      rw [e2]

/-- Witness for C19: `truncatedLong` (32 bytes), whose UnsignedLong element at the marker
at 20 has 3 bytes left after the tag. -/
theorem error_branches_unreachable_witness :
    initState.current_position < (32 : Int) - 10
      ∧ isMarker truncatedLong initState.current_position = true
      ∧ (identState truncatedLong initState).current_position < 32
      ∧ (tagState truncatedLong initState).current_position ≤ 32 - 2
      ∧ ((32 : Int) - (tagState truncatedLong initState).current_position = 2
        ∨ (32 : Int) - (tagState truncatedLong initState).current_position = 3) :=
  have h := (error_branches_unreachable truncatedLong 32).2 initState (by decide) (by decide)
  ⟨by decide, by decide, h.1, h.2.1, h.2.2.2.2.2.1 (by decide) (by decide)⟩

/-! ## C20: the two classification tables agree -/

theorem description_of_memcmpCD (o : List Nat) (p : Nat × Nat) (h : memcmpCD o p = true) :
    getObisDescription o = (obisTable.find? (fun e => e.1 == p)).map (fun e => e.2) := by
  rw [getObisDescription_eq_find]
  simp only [memcmpCD, Bool.and_eq_true, beq_iff_eq] at h
  rw [h.1, h.2]

theorem assignLongDoubleUnsigned_description (o : List Nat) (v : Nat) (r r2 : Reading)
    (f : Field) (h : assignLongDoubleUnsigned o v r = some (f, r2)) :
    getObisDescription o = some f.description := by
  unfold assignLongDoubleUnsigned at h
  split_ifs at h with h1 h2
  all_goals
    simp only [Option.some.injEq, Prod.mk.injEq] at h
    rw [← h.1]
  · rw [description_of_memcmpCD o _ h1]; rfl
  · rw [description_of_memcmpCD o _ h2]; rfl

theorem assignLongUnsigned_description (o : List Nat) (v : ℚ) (r r2 : Reading)
    (f : Field) (h : assignLongUnsigned o v r = some (f, r2)) :
    getObisDescription o = some f.description := by
  unfold assignLongUnsigned at h
  split_ifs at h with h1 h2 h3 h4 h5 h6 h7 h8
  all_goals
    simp only [Option.some.injEq, Prod.mk.injEq] at h
    rw [← h.1]
  · rw [description_of_memcmpCD o _ h1]; rfl
  · rw [description_of_memcmpCD o _ h2]; rfl
  · rw [description_of_memcmpCD o _ h3]; rfl
  · rw [description_of_memcmpCD o _ h4]; rfl
  · rw [description_of_memcmpCD o _ h5]; rfl
  · rw [description_of_memcmpCD o _ h6]; rfl
  · rw [description_of_memcmpCD o _ h7]; rfl
  · rw [description_of_memcmpCD o _ h8]; rfl

theorem isTimestampElement_description (n : Nat) (o : List Nat)
    (h : isTimestampElement n o = true) :
    getObisDescription o = some Field.timestamp.description := by
  simp only [isTimestampElement, Bool.and_eq_true, beq_iff_eq] at h
  have hm : memcmpCD o OBIS_TIMESTAMP = true := by
    simp only [memcmpCD, Bool.and_eq_true, beq_iff_eq]
    exact ⟨h.1.2, h.2⟩
  rw [description_of_memcmpCD o _ hm]
  rfl

/-- C20: the assignment chains of `decodeDLMSFrame` agree with the table of
`getObisDescription`.  Whenever a chain assigns a value for an identifier (to the field
`f`), `getObisDescription` of that identifier is not null and is the description naming
the quantity of `f`; the same holds for the timestamp test.  Hence at every element met in
the loop whose value is assigned (`known_obis` true after the `switch`), exactly one field
`f` is written and the description printed for the identifier of the element is the one of
`f`. -/
theorem assigned_field_matches_description (frame : List Nat) (length : Int) (s : State)
    (hloop : s.current_position < length - 10)
    (hmark : isMarker frame s.current_position = true)
    (hk : (element frame length s).known_obis = true) :
    (∃ f, (step frame length s).assigned = s.assigned ++ [f]
        ∧ getObisDescription (obisAt frame s.current_position) = some f.description)
      ∧ (∀ (o : List Nat) (v : Nat) (r r2 : Reading) (f : Field),
          assignLongDoubleUnsigned o v r = some (f, r2) →
            getObisDescription o = some f.description)
      ∧ (∀ (o : List Nat) (v : ℚ) (r r2 : Reading) (f : Field),
          assignLongUnsigned o v r = some (f, r2) →
            getObisDescription o = some f.description)
      ∧ (∀ (n : Nat) (o : List Nat), isTimestampElement n o = true →
            getObisDescription o = some Field.timestamp.description) := by
  refine ⟨?_, assignLongDoubleUnsigned_description, assignLongUnsigned_description,
    isTimestampElement_description⟩
  rw [step_of_marker frame length s hloop hmark, afterSwitch_assigned]
  rcases element_cases frame length s hloop with
    ⟨ht, hin, he⟩ | ⟨ht, hin, he⟩ | ⟨ht, he⟩ | ⟨ht, hin, hts, he⟩ | ⟨ht, hin, _, he⟩
      | ⟨ht, hin, he⟩ | ⟨ht, he⟩ | ⟨h0, h6, h9, h12n, he⟩
  · rw [he] at hk ⊢
    rw [finish_known_obis] at hk
    cases ha : assignLongDoubleUnsigned (obisAt frame s.current_position)
        (swap_uint32 (loadLE32 frame (s.current_position + 9))) s.reading with
    | none => rw [ha] at hk; exact absurd hk (by decide)
    | some p =>
      obtain ⟨f, r2⟩ := p
      exact ⟨f, by simp, assignLongDoubleUnsigned_description _ _ _ _ _ ha⟩
  · rw [he] at hk
    exact absurd hk Bool.false_ne_true
  · rw [he] at hk ⊢
    rw [finish_known_obis] at hk
    cases ha : assignLongUnsigned (obisAt frame s.current_position)
        (applyScaler frame length (s.current_position + 9)
          (swap_uint16 (loadLE16 frame (s.current_position + 9)) : ℚ)) s.reading with
    | none => rw [ha] at hk; exact absurd hk (by decide)
    | some p =>
      obtain ⟨f, r2⟩ := p
      exact ⟨f, by simp, assignLongUnsigned_description _ _ _ _ _ ha⟩
  · rw [he]
    exact ⟨Field.timestamp, by simp, isTimestampElement_description _ _ hts⟩
  · rw [he] at hk
    exact absurd hk Bool.false_ne_true
  · rw [he] at hk
    exact absurd hk Bool.false_ne_true
  · rw [he] at hk
    exact absurd hk Bool.false_ne_true
  · rw [he] at hk
    exact absurd hk Bool.false_ne_true

/-- Witness for C20: the active energy element of scenario A. -/
theorem assigned_field_matches_description_witness :
    initState.current_position < (40 : Int) - 10
      ∧ isMarker scenarioA initState.current_position = true
      ∧ (element scenarioA 40 initState).known_obis = true
      ∧ (step scenarioA 40 initState).assigned = [Field.activeEnergyPlus]
      ∧ getObisDescription (obisAt scenarioA initState.current_position)
          = some "Active Energy (+)"
      ∧ ∃ f, (step scenarioA 40 initState).assigned = initState.assigned ++ [f]
          ∧ getObisDescription (obisAt scenarioA initState.current_position)
            = some f.description :=
  ⟨by decide, by decide, by decide, by decide, by decide,
    (assigned_field_matches_description scenarioA 40 initState (by decide) (by decide)
      (by decide)).1⟩

/-! ## C16: which bytes the result depends on -/

theorem tagState_congr (f1 f2 : List Nat) (s : State)
    (h : ∀ k : Int, 0 ≤ k → k ≤ 8 →
      frameAt f2 (s.current_position + k) = frameAt f1 (s.current_position + k)) :
    tagState f2 s = tagState f1 s ∧ obisAt f2 s.current_position = obisAt f1 s.current_position
      ∧ frameAt f2 (s.current_position + 8) = frameAt f1 (s.current_position + 8) := by
  have h2 := h 2 (by omega) (by omega)
  have h3 := h 3 (by omega) (by omega)
  have h4 := h 4 (by omega) (by omega)
  have h5 := h 5 (by omega) (by omega)
  have h6 := h 6 (by omega) (by omega)
  have h7 := h 7 (by omega) (by omega)
  have h8 := h 8 (by omega) (by omega)
  have ho : obisAt f2 s.current_position = obisAt f1 s.current_position := by
    simp only [obisAt, h2, h3, h4, h5, h6, h7]
  refine ⟨?_, ho, h8⟩
  simp only [tagState, identState, ho, State.goto_current_position, State.print_current_position,
    State.rd_current_position]
  have e : s.current_position + ((2 + OBIS_CODE_LEN : Nat) : Int) = s.current_position + 8 := by
    simp
  rw [e, h8]

theorem applyScaler_congr (f1 f2 : List Nat) (length cp : Int) (v : ℚ)
    (h : cp + 3 < length → frameAt f2 (cp + 3) = frameAt f1 (cp + 3)) :
    applyScaler f2 length cp v = applyScaler f1 length cp v := by
  by_cases hc : cp + 3 < length
  · simp only [applyScaler, hc, if_true, h hc]
  · simp only [applyScaler, hc, if_false]

theorem afterSwitch_congr (f1 f2 : List Nat) (length : Int) (e : Element)
    (h : ∀ i, i ∈ (afterSwitch f1 length e).reads → frameAt f2 i = frameAt f1 i) :
    afterSwitch f2 length e = afterSwitch f1 length e := by
  rw [afterSwitch_reads] at h
  by_cases hc : e.st.current_position + e.data_length < length - 1
  · have h0 : frameAt f2 (e.st.current_position + e.data_length)
        = frameAt f1 (e.st.current_position + e.data_length) := by
      apply h
      rw [if_pos hc]
      split_ifs <;> simp
    by_cases hsep : frameAt f1 (e.st.current_position + e.data_length) = 0x02
        ∨ frameAt f1 (e.st.current_position + e.data_length) = 0x0F
    · have h1 : frameAt f2 (e.st.current_position + e.data_length + 1)
          = frameAt f1 (e.st.current_position + e.data_length + 1) := by
        apply h
        rw [if_pos hc, if_pos hsep]
        simp
      unfold afterSwitch
      simp only [State.print_current_position, State.goto_current_position,
        apply_ite State.current_position, State.found_current_position, ite_self, h0, h1]
    · unfold afterSwitch
      simp only [State.print_current_position, State.goto_current_position,
        apply_ite State.current_position, State.found_current_position, ite_self, h0, hsep,
        if_false]
  · unfold afterSwitch
    simp only [State.print_current_position, State.goto_current_position,
      apply_ite State.current_position, State.found_current_position, ite_self, hc, if_false]

theorem element_congr (f1 f2 : List Nat) (length : Int) (s : State)
    (hloop : s.current_position < length - 10)
    (H : ∀ i, i ∈ (element f1 length s).st.reads → frameAt f2 i = frameAt f1 i) :
    element f2 length s = element f1 length s := by
  rcases element_cases f1 length s hloop with
    ⟨ht, hin, he⟩ | ⟨ht, hin, he⟩ | ⟨ht, he⟩ | ⟨ht, hin, hts, he⟩ | ⟨ht, hin, hts, he⟩
      | ⟨ht, hin, he⟩ | ⟨ht, he⟩ | ⟨h0, h6, h9, h12n, he⟩
  all_goals
    rw [he] at H ⊢
    simp only [finish_reads, State.print_reads, State.rd_reads, State.goto_reads,
      tagState_reads] at H
    obtain ⟨hs, ho, h8⟩ := tagState_congr f1 f2 s (fun k hk0 hk8 => H _ (by
      have : k = 0 ∨ k = 1 ∨ k = 2 ∨ k = 3 ∨ k = 4 ∨ k = 5 ∨ k = 6 ∨ k = 7 ∨ k = 8 := by omega
      rcases this with rfl | rfl | rfl | rfl | rfl | rfl | rfl | rfl | rfl <;> simp))
    rw [element_eq, hs, ho, h8]
  · have a9 := H (s.current_position + 9) (by simp)
    have a10 := H (s.current_position + 10) (by simp)
    have a11 := H (s.current_position + 11) (by simp)
    have a12 := H (s.current_position + 12) (by simp)
    have hl : loadLE32 f2 (s.current_position + 9) = loadLE32 f1 (s.current_position + 9) := by
      simp only [loadLE32, add_assoc]
      norm_num
      rw [a9, a10, a11, a12]
    simp [switchDataType, ht, caseLongDoubleUnsigned, add_assoc, hin, hl]
  · have h : ¬ s.current_position + 13 ≤ length := by omega
    simp [switchDataType, ht, caseLongDoubleUnsigned, add_assoc, h]
  · have hin : s.current_position + 11 ≤ length := by omega
    have a9 := H (s.current_position + 9) (by simp)
    have a10 := H (s.current_position + 10) (by simp)
    have hl : loadLE16 f2 (s.current_position + 9) = loadLE16 f1 (s.current_position + 9) := by
      simp only [loadLE16, add_assoc]
      norm_num
      rw [a9, a10]
    have hsc : ∀ v, applyScaler f2 length (s.current_position + 9) v
        = applyScaler f1 length (s.current_position + 9) v := by
      intro v
      apply applyScaler_congr
      intro hc
      have e : s.current_position + 9 + 3 = s.current_position + 12 := by omega
      rw [e]
      exact H _ (by simp [show s.current_position + 12 < length by omega])
    simp [switchDataType, ht, caseLongUnsigned, add_assoc, hin, hl, hsc]
  · have h9 : s.current_position + 9 < length := by omega
    have a9 := H (s.current_position + 9) (by simp)
    have a10 := H (s.current_position + 10) (by simp)
    have a11 := H (s.current_position + 11) (by simp)
    have a12 := H (s.current_position + 12) (by simp)
    have a13 := H (s.current_position + 13) (by simp)
    have a15 := H (s.current_position + 15) (by simp)
    have a16 := H (s.current_position + 16) (by simp)
    have a17 := H (s.current_position + 17) (by simp)
    have hd : decodeTimestamp f2 (s.current_position + 10)
        = decodeTimestamp f1 (s.current_position + 10) := by
      simp only [decodeTimestamp, loadLE16, add_assoc]
      norm_num
      rw [a10, a11, a12, a13, a15, a16, a17]
    have hin2 : s.current_position + (10 + (frameAt f1 (s.current_position + 9) : Int))
        ≤ length := by omega
    simp [switchDataType, ht, caseOctetString, add_assoc, h9, a9, hin2, hts, hd]
  · have h9 : s.current_position + 9 < length := by omega
    have a9 := H (s.current_position + 9) (by simp)
    have hin2 : s.current_position + (10 + (frameAt f1 (s.current_position + 9) : Int))
        ≤ length := by omega
    have hm : (List.range (min (frameAt f1 (s.current_position + 9)) 8)).map
          (frameAt f2 ∘ fun (k : Nat) => s.current_position + (10 + (k : Int)))
        = (List.range (min (frameAt f1 (s.current_position + 9)) 8)).map
          (frameAt f1 ∘ fun (k : Nat) => s.current_position + (10 + (k : Int))) := by
      apply List.map_congr_left
      intro k hk
      simp only [Function.comp]
      apply H
      simp only [List.mem_append, List.mem_map]
      exact Or.inr ⟨k, hk, by omega⟩
    simp [switchDataType, ht, caseOctetString, add_assoc, h9, a9, hin2, hts]
    rw [hm]
  · have h9 : s.current_position + 9 < length := by omega
    have a9 := H (s.current_position + 9) (by simp)
    have h : ¬ s.current_position + (10 + (frameAt f1 (s.current_position + 9) : Int))
        ≤ length := by omega
    simp [switchDataType, ht, caseOctetString, add_assoc, h9, a9, h]
  · simp [switchDataType, ht]
  · simp [switchDataType, h0, h6, h9, h12n]

theorem tagState_reads_subset (frame : List Nat) (length : Int) (s : State)
    (hloop : s.current_position < length - 10) :
    ∀ i, i ∈ (tagState frame s).reads → i ∈ (element frame length s).st.reads := by
  intro i hi
  rcases element_cases frame length s hloop with
    ⟨_, _, he⟩ | ⟨_, _, he⟩ | ⟨_, he⟩ | ⟨_, _, _, he⟩ | ⟨_, _, _, he⟩
      | ⟨_, _, he⟩ | ⟨_, he⟩ | ⟨_, _, _, _, he⟩
  all_goals
    rw [he]
    simp only [finish_reads, State.print_reads, State.rd_reads, State.goto_reads,
      List.mem_append]
    simp only [hi, true_or]

/-- One iteration run on a frame that agrees with `f1` at every position the iteration
reads on `f1` gives the same state. -/
theorem step_congr (f1 f2 : List Nat) (length : Int) (s : State)
    (hloop : s.current_position < length - 10)
    (H : ∀ i, i ∈ (step f1 length s).reads → frameAt f2 i = frameAt f1 i) :
    step f2 length s = step f1 length s := by
  cases hmark : isMarker f1 s.current_position
  · simp only [step, hmark, Bool.false_eq_true, if_false, State.rd_current_position, if_true,
      State.goto_reads, State.rd_reads] at H
    have a0 : frameAt f2 s.current_position = frameAt f1 s.current_position := by
      apply H
      split_ifs <;> simp
    have hm2 : isMarker f2 s.current_position = false := by
      by_cases h9 : frameAt f1 s.current_position = DATA_OCTET_STRING
      · have a1 : frameAt f2 (s.current_position + 1) = frameAt f1 (s.current_position + 1) := by
          apply H
          rw [if_pos h9]
          simp
        rw [← hmark]
        simp only [isMarker, a0, a1]
      · simp only [isMarker, a0]
        simp [h9]
    simp only [step, hmark, hm2, Bool.false_eq_true, if_false, a0]
  · have hstep := step_of_marker f1 length s hloop hmark
    rw [hstep] at H
    have He : ∀ i, i ∈ (element f1 length s).st.reads → frameAt f2 i = frameAt f1 i := by
      intro i hi
      apply H
      rw [afterSwitch_reads]
      exact List.mem_append_left _ hi
    have hel := element_congr f1 f2 length s hloop He
    have hm2 : isMarker f2 s.current_position = true := by
      have hsub := tagState_reads_subset f1 length s hloop
      have a0 : frameAt f2 s.current_position = frameAt f1 s.current_position :=
        He _ (hsub _ (by simp))
      have a1 : frameAt f2 (s.current_position + 1) = frameAt f1 (s.current_position + 1) :=
        He _ (hsub _ (by simp))
      rw [← hmark]
      simp only [isMarker, a0, a1]
    rw [step_of_marker f2 length s hloop hm2, hstep, hel]
    exact afterSwitch_congr f1 f2 length _ H

/-- An iteration keeps the positions read before it. -/
theorem step_reads_subset (frame : List Nat) (length : Int) (s : State)
    (hloop : s.current_position < length - 10) :
    ∀ i, i ∈ s.reads → i ∈ (step frame length s).reads := by
  intro i hi
  cases hmark : isMarker frame s.current_position
  · simp only [step, hmark, Bool.false_eq_true, if_false, State.rd_current_position, if_true,
      State.goto_reads, State.rd_reads]
    exact List.mem_append_left _ hi
  · rw [step_of_marker frame length s hloop hmark, afterSwitch_reads]
    apply List.mem_append_left
    apply tagState_reads_subset frame length s hloop
    rw [tagState_reads]
    exact List.mem_append_left _ hi

theorem scanLoop_reads_subset (frame : List Nat) (length : Int) (fuel : Nat) :
    ∀ s : State, ∀ i, i ∈ s.reads → i ∈ (scanLoop frame length fuel s).reads := by
  induction fuel with
  | zero => intro s i hi; exact hi
  | succ n ih =>
    intro s i hi
    simp only [scanLoop]
    split_ifs with hloop
    · exact ih _ i (step_reads_subset frame length s hloop i hi)
    · exact hi

/-- The scan run on a frame that agrees with `f1` at every position the scan reads on `f1`
gives the same state. -/
theorem scanLoop_congr (f1 f2 : List Nat) (length : Int) (fuel : Nat) :
    ∀ s : State, (∀ i, i ∈ (scanLoop f1 length fuel s).reads → frameAt f2 i = frameAt f1 i) →
      scanLoop f2 length fuel s = scanLoop f1 length fuel s := by
  induction fuel with
  | zero => intro s _; rfl
  | succ n ih =>
    intro s H
    simp only [scanLoop] at H ⊢
    split_ifs with hloop
    · rw [if_pos hloop] at H
      have hs : step f2 length s = step f1 length s :=
        step_congr f1 f2 length s hloop
          (fun i hi => H i (scanLoop_reads_subset f1 length n _ i hi))
      rw [hs]
      exact ih _ H
    · rfl

/-- Two frames that agree on the positions 20 to length - 1 give the same output. -/
theorem decodeDLMSFrame_congr_range (f1 f2 : List Nat) (length : Int)
    (hag : ∀ i, 20 ≤ i → i < length → frameAt f2 i = frameAt f1 i) :
    decodeDLMSFrame f2 length = decodeDLMSFrame f1 length := by
  obtain ⟨n, _, heq, _, hmin⟩ := scanFrame_exits f1 length
  obtain ⟨hr, _, _⟩ := reads_loopState f1 length n hmin
  have h : scanFrame f2 length = scanFrame f1 length :=
    scanLoop_congr f1 f2 length length.toNat initState (fun i hi => by
      have hi2 : i ∈ (loopState f1 length n).reads := by
        rw [← heq]
        exact hi
      have := hr i hi2
      exact hag i this.1 this.2)
  simp only [decodeDLMSFrame, h]

/-- C16, counterexample: bytes among the final 10 are parsed.  `scenarioA` and
`scenarioATail` have the same length 40 and differ only at position 32 >= 40 - 10 (a payload
byte of the element whose marker is at 20), and the decoded ActiveEnergyPlus differs: 10000
against 10001.  `lateMarker` and `lateMarkerBroken` have the same length 40 and differ only
at position 30 (the second marker byte of the marker at cursor 29), and the emit decision
differs: a summary against none. -/
theorem final_bytes_change_result :
    scenarioA.length = 40 ∧ scenarioATail.length = 40
      ∧ scenarioA.take 32 = scenarioATail.take 32
      ∧ scenarioA.drop 33 = scenarioATail.drop 33
      ∧ (scanFrame scenarioA 40).reading.activeEnergyPlus = 10000
      ∧ (scanFrame scenarioATail 40).reading.activeEnergyPlus = 10001
      ∧ (scanFrame scenarioA 40).reading ≠ (scanFrame scenarioATail 40).reading
      ∧ lateMarker.length = 40 ∧ lateMarkerBroken.length = 40
      ∧ lateMarker.take 30 = lateMarkerBroken.take 30
      ∧ lateMarker.drop 31 = lateMarkerBroken.drop 31
      ∧ (decodeDLMSFrame lateMarker 40).summary.isSome = true
      ∧ (decodeDLMSFrame lateMarkerBroken 40).summary = none := by
  have h1 : (scanFrame scenarioA 40).reading.activeEnergyPlus = 10000 := by decide
  have h2 : (scanFrame scenarioATail 40).reading.activeEnergyPlus = 10001 := by decide
  have h3 : (scanFrame lateMarker 40).dataFound = true := by decide
  have h4 : (scanFrame lateMarkerBroken 40).dataFound = false := by decide
  refine ⟨by decide, by decide, by decide, by decide, h1, h2, ?_, by decide, by decide,
    by decide, by decide, ?_, ?_⟩
  · intro h
    have := congrArg Reading.activeEnergyPlus h
    rw [h1, h2] at this
    exact absurd this (by decide)
  · simp [decodeDLMSFrame, printSummary, h3]
  · simp [decodeDLMSFrame, printSummary, h4]

/-- C16, amended: the result of `decodeDLMSFrame` depends only on the bytes the scan reads.
If a second frame agrees with the first at every position the scan of the first reads, the
scan ends in the same state and the whole output is the same; so two frames that agree
before length - 10 yield the same Reading and the same emit decision whenever the scan of
the first reads no position >= length - 10.  Positions in the final 10 bytes are read only
inside an iteration that starts at a cursor < length - 10: every position read is below
`length` and at or above 20, and two frames that agree on [20, length) always give the same
output. -/
theorem result_depends_on_bytes_read (f1 f2 : List Nat) (length : Int) :
    ((∀ i, i ∈ (scanFrame f1 length).reads → frameAt f2 i = frameAt f1 i) →
        scanFrame f2 length = scanFrame f1 length
          ∧ decodeDLMSFrame f2 length = decodeDLMSFrame f1 length)
      ∧ ((∀ i, i < length - 10 → frameAt f2 i = frameAt f1 i) →
          (∀ i, i ∈ (scanFrame f1 length).reads → i < length - 10) →
            (scanFrame f2 length).reading = (scanFrame f1 length).reading
              ∧ (decodeDLMSFrame f2 length).summary = (decodeDLMSFrame f1 length).summary)
      ∧ ((∀ i, 20 ≤ i → i < length → frameAt f2 i = frameAt f1 i) →
          decodeDLMSFrame f2 length = decodeDLMSFrame f1 length)
      ∧ (∀ s : State, s.current_position < length - 10 →
          ∀ i, i ∈ (step f1 length s).reads → i ∈ s.reads ∨ (s.current_position ≤ i ∧ i < length)) := by
  have main : (∀ i, i ∈ (scanFrame f1 length).reads → frameAt f2 i = frameAt f1 i) →
      scanFrame f2 length = scanFrame f1 length := by
    intro H
    exact scanLoop_congr f1 f2 length length.toNat initState H
  refine ⟨fun H => ?_, fun hd hr => ?_, fun hag => ?_, fun s hloop => (step_reads f1 length s hloop).1⟩
  · have h := main H
    exact ⟨h, by simp only [decodeDLMSFrame, h]⟩
  · have h := main (fun i hi => hd i (hr i hi))
    exact ⟨by rw [h], by simp only [decodeDLMSFrame, h]⟩
  · exact decodeDLMSFrame_congr_range f1 f2 length hag

/-- Witness for C16 (amended): `paddedA` and `paddedATail` (50 bytes) differ in each of the
final 10 bytes; the scan of `paddedA` reads positions 20 to 39 only. -/
theorem result_depends_on_bytes_read_witness :
    paddedA.length = 50 ∧ paddedATail.length = 50
      ∧ frameAt paddedA 45 ≠ frameAt paddedATail 45
      ∧ (39 : Int) ∈ (scanFrame paddedA 50).reads
      ∧ (scanFrame paddedATail 50).reading = (scanFrame paddedA 50).reading
      ∧ (decodeDLMSFrame paddedATail 50).summary = (decodeDLMSFrame paddedA 50).summary :=
  have h := (result_depends_on_bytes_read paddedA paddedATail 50).2.1
    (fun i hi => by
      have hl : scenarioA.length = 40 := by decide
      have hlt : i.toNat < scenarioA.length := by omega
      simp only [frameAt, paddedA, paddedATail, List.getD_append _ _ _ _ hlt])
    (by decide)
  ⟨by decide, by decide, by decide, by decide, h.1, h.2⟩

/-! ## The frame assembler -/

theorem loop_append (a : Assembler) (xs : List Nat) (b : Nat) :
    loop a (xs ++ [b]) = onByte (loop a xs) b := by
  simp [loop, List.foldl_append]

theorem sinceDelimiter_append_flag (xs : List Nat) :
    sinceDelimiter (xs ++ [FRAME_FLAG]) = some [] := by
  simp [sinceDelimiter]

theorem sinceDelimiter_append_other (xs : List Nat) (b : Nat) (hb : b ≠ FRAME_FLAG) :
    sinceDelimiter (xs ++ [b]) = (sinceDelimiter xs).map (fun seg => seg ++ [b]) := by
  have hb2 : ¬ FRAME_FLAG = b := fun h => hb h.symm
  by_cases hm : FRAME_FLAG ∈ xs
  · simp [sinceDelimiter, hm, List.takeWhile_cons, hb]
  · simp [sinceDelimiter, hm, hb2]

theorem sinceDelimiter_no_flag (xs seg : List Nat) (h : sinceDelimiter xs = some seg) :
    ∀ b, b ∈ seg → b ≠ FRAME_FLAG := by
  unfold sinceDelimiter at h
  split_ifs at h
  simp only [Option.some.injEq] at h
  intro b hb
  rw [← h, List.mem_reverse] at hb
  have := List.mem_takeWhile_imp hb
  simpa using this

theorem take_set_succ (l : List Nat) (n b : Nat) (h : n < l.length) :
    (l.set n b).take (n + 1) = l.take n ++ [b] := by
  induction l generalizing n with
  | nil => simp at h
  | cons x xs ih =>
    cases n with
    | zero => simp
    | succ m =>
      simp only [List.length_cons, Nat.add_lt_add_iff_right] at h
      simp [List.set, ih m h]

/-- One byte keeps the assembler in step with the bytes received. -/
theorem onByte_follows (a : Assembler) (xs : List Nat) (b : Nat) (h : a.follows xs) :
    (onByte a b).follows (xs ++ [b]) := by
  obtain ⟨hlen, hst⟩ := h
  by_cases hb : b = FRAME_FLAG
  · subst hb
    refine ⟨?_, ?_⟩
    · simp only [onByte, if_true]
      split_ifs <;> exact hlen
    · rw [sinceDelimiter_append_flag]
      simp only [onByte, if_true]
      simp
  · unfold Assembler.follows
    rw [sinceDelimiter_append_other xs b hb]
    cases hsd : sinceDelimiter xs with
    | none =>
      rw [hsd] at hst
      have hst2 : a.inFrame = false ∧ a.bufferIndex = 0 := hst
      simp only [onByte, hb, if_false, hst2.1, Bool.false_eq_true, Option.map_none']
      exact ⟨hlen, trivial, hst2.2⟩
    | some seg =>
      rw [hsd] at hst
      simp only [Option.map_some', List.length_append, List.length_singleton]
      by_cases hle : seg.length ≤ MAX_BUFFER_SIZE
      · simp only [hle, if_true] at hst
        obtain ⟨hin, hidx, htake⟩ := hst
        by_cases hlt : seg.length < MAX_BUFFER_SIZE
        · have hlt2 : a.bufferIndex < (MAX_BUFFER_SIZE : Int) := by rw [hidx]; exact_mod_cast hlt
          have hle2 : seg.length + 1 ≤ MAX_BUFFER_SIZE := hlt
          simp only [onByte, hb, if_false, hin, if_true, hlt2, hle2, List.length_set]
          refine ⟨hlen, trivial, by rw [hidx]; push_cast; rfl, ?_⟩
          rw [hidx, Int.toNat_ofNat, take_set_succ _ _ _ (by rw [hlen]; exact hlt), htake]
        · have hge : ¬ a.bufferIndex < (MAX_BUFFER_SIZE : Int) := by
            rw [hidx]; intro hh; exact hlt (by exact_mod_cast hh)
          have hgt : ¬ seg.length + 1 ≤ MAX_BUFFER_SIZE := by omega
          simp only [onByte, hb, if_false, hin, if_true, hge, hgt]
          exact ⟨hlen, trivial, trivial⟩
      · simp only [hle, if_false] at hst
        have hgt : ¬ seg.length + 1 ≤ MAX_BUFFER_SIZE := by omega
        simp only [onByte, hb, if_false, hst.1, Bool.false_eq_true, hgt]
        exact ⟨hlen, trivial, hst.2⟩

/-- After any input, the assembler is in step with the bytes received. -/
theorem loop_follows (received : List Nat) : (loop initAssembler received).follows received := by
  induction received using List.reverseRecOn with
  | nil =>
    refine ⟨by simp [loop, initAssembler], ?_⟩
    simp [sinceDelimiter, loop, initAssembler]
  | append_singleton xs b ih =>
    rw [loop_append]
    exact onByte_follows _ xs b ih

theorem follows_bufferIndex (a : Assembler) (xs : List Nat) (h : a.follows xs) :
    0 ≤ a.bufferIndex ∧ a.bufferIndex ≤ MAX_BUFFER_SIZE := by
  obtain ⟨_, hst⟩ := h
  cases hsd : sinceDelimiter xs with
  | none =>
    rw [hsd] at hst
    have h2 : a.inFrame = false ∧ a.bufferIndex = 0 := hst
    rw [h2.2]
    exact ⟨le_refl _, by decide⟩
  | some seg =>
    rw [hsd] at hst
    have h2 : if seg.length ≤ MAX_BUFFER_SIZE then
          a.inFrame = true ∧ a.bufferIndex = seg.length ∧ a.buffer.take seg.length = seg
        else a.inFrame = false ∧ a.bufferIndex = 0 := hst
    split_ifs at h2 with hle
    · rw [h2.2.1]
      exact ⟨by exact_mod_cast Nat.zero_le _, by exact_mod_cast hle⟩
    · rw [h2.2]
      exact ⟨le_refl _, by decide⟩

/-- Every write to `buffer` is at an index from 0 to 1023. -/
theorem loop_writes (received : List Nat) :
    ∀ i, i ∈ (loop initAssembler received).writes → 0 ≤ i ∧ i < MAX_BUFFER_SIZE := by
  induction received using List.reverseRecOn with
  | nil =>
    intro i hi
    simp [loop, initAssembler] at hi
  | append_singleton xs b ih =>
    intro i hi
    have hb := follows_bufferIndex _ xs (loop_follows xs)
    rw [loop_append] at hi
    unfold onByte at hi
    split_ifs at hi with h1 h2 h3 h4
    · exact ih i hi
    · exact ih i hi
    · simp only [List.mem_append, List.mem_singleton] at hi
      rcases hi with hi | hi
      · exact ih i hi
      · rw [hi]
        exact ⟨hb.1, h4⟩
    · exact ih i hi
    · exact ih i hi

/-- While no frame is open, bytes other than the delimiter change nothing. -/
theorem loop_ignores (a : Assembler) (rest : List Nat) (hin : a.inFrame = false)
    (hrest : ∀ c, c ∈ rest → c ≠ FRAME_FLAG) : loop a rest = a := by
  induction rest with
  | nil => rfl
  | cons c cs ih =>
    have hc : c ≠ FRAME_FLAG := hrest c (List.mem_cons_self _ _)
    have h1 : onByte a c = a := by
      simp [onByte, hc, hin]
    simp only [loop, List.foldl_cons] at ih ⊢
    rw [h1]
    exact ih (fun d hd => hrest d (List.mem_cons_of_mem _ hd))

theorem sinceDelimiter_filled (n : Nat) :
    sinceDelimiter (FRAME_FLAG :: List.replicate n 1) = some (List.replicate n 1) := by
  induction n with
  | zero => exact sinceDelimiter_append_flag []
  | succ m ih =>
    have e : FRAME_FLAG :: List.replicate (m + 1) 1 = (FRAME_FLAG :: List.replicate m 1) ++ [1] := by
      rw [List.replicate_succ', List.cons_append]
    rw [e, sinceDelimiter_append_other _ _ (by decide), ih, List.replicate_succ']
    rfl

/-- A delimiter followed by `n` bytes, `n` at most 1024, leaves `n` bytes buffered. -/
theorem loop_filled (n : Nat) (hn : n ≤ MAX_BUFFER_SIZE) :
    (loop initAssembler (FRAME_FLAG :: List.replicate n 1)).inFrame = true
      ∧ (loop initAssembler (FRAME_FLAG :: List.replicate n 1)).bufferIndex = n := by
  obtain ⟨_, hst⟩ := loop_follows (FRAME_FLAG :: List.replicate n 1)
  rw [sinceDelimiter_filled] at hst
  have h2 : if (List.replicate n 1).length ≤ MAX_BUFFER_SIZE then
        (loop initAssembler (FRAME_FLAG :: List.replicate n 1)).inFrame = true
          ∧ (loop initAssembler (FRAME_FLAG :: List.replicate n 1)).bufferIndex
            = (List.replicate n 1).length
          ∧ (loop initAssembler (FRAME_FLAG :: List.replicate n 1)).buffer.take
            (List.replicate n 1).length = List.replicate n 1
      else (loop initAssembler (FRAME_FLAG :: List.replicate n 1)).inFrame = false
        ∧ (loop initAssembler (FRAME_FLAG :: List.replicate n 1)).bufferIndex = 0 := hst
  rw [List.length_replicate, if_pos hn] at h2
  exact ⟨h2.1, h2.2.1⟩

/-! ## C14: the buffer never overflows -/

/-- C14: after every sequence of input bytes, `bufferIndex` is between 0 and
`MAX_BUFFER_SIZE` (1024), `buffer` still has its 1024 cells, and every write so far was at
an index from 0 to 1023.  A byte other than the delimiter that arrives while a frame is
open with 1024 bytes buffered is not stored: it prints the overflow error once, sets
`bufferIndex = 0` and `inFrame = false`, writes nothing and decodes nothing; the bytes
after it up to the next delimiter leave the state as it is; that delimiter opens a new
frame at index 0 without a call of `decodeDLMSFrame`. -/
theorem assembler_buffer_bounded (received : List Nat) :
    0 ≤ (loop initAssembler received).bufferIndex
      ∧ (loop initAssembler received).bufferIndex ≤ MAX_BUFFER_SIZE
      ∧ (loop initAssembler received).buffer.length = MAX_BUFFER_SIZE
      ∧ (∀ i, i ∈ (loop initAssembler received).writes → 0 ≤ i ∧ i < MAX_BUFFER_SIZE)
      ∧ (∀ b : Nat, b ≠ FRAME_FLAG →
          (loop initAssembler received).inFrame = true →
          (loop initAssembler received).bufferIndex = MAX_BUFFER_SIZE →
            (loop initAssembler (received ++ [b])).bufferIndex = 0
              ∧ (loop initAssembler (received ++ [b])).inFrame = false
              ∧ (loop initAssembler (received ++ [b])).overflows
                = (loop initAssembler received).overflows + 1
              ∧ (loop initAssembler (received ++ [b])).writes
                = (loop initAssembler received).writes
              ∧ (loop initAssembler (received ++ [b])).calls
                = (loop initAssembler received).calls
              ∧ ∀ rest : List Nat, (∀ c, c ∈ rest → c ≠ FRAME_FLAG) →
                  loop initAssembler (received ++ [b] ++ rest)
                    = loop initAssembler (received ++ [b])
                  ∧ (loop initAssembler (received ++ [b] ++ rest ++ [FRAME_FLAG])).inFrame
                    = true
                  ∧ (loop initAssembler (received ++ [b] ++ rest ++ [FRAME_FLAG])).bufferIndex
                    = 0
                  ∧ (loop initAssembler (received ++ [b] ++ rest ++ [FRAME_FLAG])).calls
                    = (loop initAssembler received).calls)
      ∧ (∀ b : Nat, (loop initAssembler (received ++ [b])).overflows
            = (loop initAssembler received).overflows + 1
          ↔ (b ≠ FRAME_FLAG ∧ (loop initAssembler received).inFrame = true
            ∧ (loop initAssembler received).bufferIndex = MAX_BUFFER_SIZE)) := by
  have hf := loop_follows received
  have hb := follows_bufferIndex _ received hf
  refine ⟨hb.1, hb.2, hf.1, loop_writes received, ?_, ?_⟩
  · intro b hne hin hidx
    have hnlt : ¬ (loop initAssembler received).bufferIndex < (MAX_BUFFER_SIZE : Int) := by
      rw [hidx]; exact lt_irrefl _
    have hstep : loop initAssembler (received ++ [b])
        = { loop initAssembler received with
            inFrame := false, bufferIndex := 0,
            overflows := (loop initAssembler received).overflows + 1 } := by
      rw [loop_append]
      simp only [onByte, hne, if_false, hin, if_true, hnlt]
    refine ⟨by rw [hstep], by rw [hstep], by rw [hstep], by rw [hstep], by rw [hstep], ?_⟩
    intro rest hrest
    have hig : loop initAssembler (received ++ [b] ++ rest)
        = loop initAssembler (received ++ [b]) := by
      have : loop initAssembler (received ++ [b] ++ rest)
          = loop (loop initAssembler (received ++ [b])) rest := by
        simp [loop, List.foldl_append]
      rw [this]
      exact loop_ignores _ rest (by rw [hstep]) hrest
    refine ⟨hig, ?_⟩
    rw [loop_append, hig, hstep]
    simp [onByte]
  · intro b
    rw [loop_append]
    unfold onByte
    split_ifs with h1 h2 h3 h4
    · simp [h1]
    · simp [h1]
    · constructor
      · intro h
        have h2 : (loop initAssembler received).overflows
            = (loop initAssembler received).overflows + 1 := h
        omega
      · rintro ⟨_, _, h⟩
        rw [h] at h4
        exact absurd h4 (lt_irrefl _)
    · simp only [true_iff]
      exact ⟨h1, h3, by omega⟩
    · simp [h3]

/-- Witness for C14: a delimiter and 1024 bytes fill the buffer; the 1025th byte is
discarded with the buffer. -/
theorem assembler_buffer_bounded_witness :
    (1 : Nat) ≠ FRAME_FLAG
      ∧ (loop initAssembler (FRAME_FLAG :: List.replicate 1024 1)).inFrame = true
      ∧ (loop initAssembler (FRAME_FLAG :: List.replicate 1024 1)).bufferIndex = 1024
      ∧ (loop initAssembler (FRAME_FLAG :: List.replicate 1024 1 ++ [1])).bufferIndex = 0
      ∧ (loop initAssembler (FRAME_FLAG :: List.replicate 1024 1 ++ [1])).inFrame = false :=
  have h0 := loop_filled 1024 (le_refl _)
  have h := (assembler_buffer_bounded (FRAME_FLAG :: List.replicate 1024 1)).2.2.2.2.1 1
    (by decide) h0.1 h0.2
  ⟨by decide, h0.1, h0.2, h.1, h.2.1⟩

/-! ## C15: one call of the decoder per frame -/

theorem frameAt_take (buf : List Nat) (n : Nat) (i : Int) (h0 : 0 ≤ i) (hi : i < n) :
    frameAt (buf.take n) i = frameAt buf i := by
  have hlt : i.toNat < n := by omega
  simp only [frameAt, List.getD_eq_getElem?_getD, List.getElem?_take, hlt, if_true]

theorem framesOf_append (xs : List Nat) (b : Nat) :
    framesOf (xs ++ [b]) = framesOf xs
      ++ (if b = FRAME_FLAG then (frameOnDelimiter xs).toList else []) := by
  simp [framesOf, framesOfReversed]

/-- What the arrival of a delimiter adds to the calls of the decoder. -/
theorem calls_on_delimiter (received : List Nat) :
    (loop initAssembler (received ++ [FRAME_FLAG])).calls
        = (loop initAssembler received).calls
          ++ (match frameOnDelimiter received with
              | some seg => [((loop initAssembler received).buffer, (seg.length : Int))]
              | none => [])
      ∧ ∀ seg, frameOnDelimiter received = some seg →
          (loop initAssembler received).buffer.take seg.length = seg := by
  obtain ⟨_, hst⟩ := loop_follows received
  rw [loop_append]
  unfold frameOnDelimiter
  cases hsd : sinceDelimiter received with
  | none =>
    rw [hsd] at hst
    have h2 : (loop initAssembler received).inFrame = false
        ∧ (loop initAssembler received).bufferIndex = 0 := hst
    refine ⟨?_, fun seg h => by simp at h⟩
    simp [onByte, h2.1]
  | some seg =>
    rw [hsd] at hst
    have h2 : if seg.length ≤ MAX_BUFFER_SIZE then
          (loop initAssembler received).inFrame = true
            ∧ (loop initAssembler received).bufferIndex = seg.length
            ∧ (loop initAssembler received).buffer.take seg.length = seg
        else (loop initAssembler received).inFrame = false
          ∧ (loop initAssembler received).bufferIndex = 0 := hst
    by_cases hle : seg.length ≤ MAX_BUFFER_SIZE
    · rw [if_pos hle] at h2
      obtain ⟨hin, hidx, htake⟩ := h2
      by_cases h1 : 1 ≤ seg.length
      · have hpos : (loop initAssembler received).bufferIndex > 0 := by
          rw [hidx]; exact_mod_cast h1
        refine ⟨?_, fun seg2 h => ?_⟩
        · simp only [onByte, if_true, hin, hpos, and_self, h1, hle]
          rw [hidx]
        · simp only [h1, hle, and_self, if_true, Option.some.injEq] at h
          rw [← h]
          exact htake
      · have hz : ¬ (loop initAssembler received).bufferIndex > 0 := by
          rw [hidx]; intro hh; exact h1 (by exact_mod_cast hh)
        refine ⟨?_, fun seg2 h => ?_⟩
        · simp [onByte, hz, h1]
        · simp [h1] at h
    · rw [if_neg hle] at h2
      refine ⟨?_, fun seg2 h => ?_⟩
      · simp [onByte, h2.1, hle]
      · simp [hle] at h

theorem calls_on_other (received : List Nat) (b : Nat) (hb : b ≠ FRAME_FLAG) :
    (loop initAssembler (received ++ [b])).calls = (loop initAssembler received).calls := by
  rw [loop_append]
  unfold onByte
  split_ifs <;> first | rfl | contradiction

/-- The frames decoded for a whole input are those of the specification. -/
theorem calls_eq_framesOf (received : List Nat) :
    (loop initAssembler received).calls.map (fun c => c.1.take c.2.toNat) = framesOf received := by
  induction received using List.reverseRecOn with
  | nil => simp [loop, initAssembler, framesOf, framesOfReversed]
  | append_singleton xs b ih =>
    rw [framesOf_append]
    by_cases hb : b = FRAME_FLAG
    · subst hb
      obtain ⟨hc, ht⟩ := calls_on_delimiter xs
      rw [hc, List.map_append, ih, if_pos rfl]
      cases hfd : frameOnDelimiter xs with
      | none => simp
      | some seg =>
        have := ht seg hfd
        simp [this]
    · rw [calls_on_other xs b hb, ih, if_neg hb, List.append_nil]

/-- Every call of the decoder passes a length from 1 to the size of the buffer. -/
theorem calls_wellformed (received : List Nat) :
    ∀ c, c ∈ (loop initAssembler received).calls →
      ∃ n : Nat, c.2 = (n : Int) ∧ 1 ≤ n ∧ n ≤ MAX_BUFFER_SIZE ∧ c.1.length = MAX_BUFFER_SIZE := by
  induction received using List.reverseRecOn with
  | nil =>
    intro c hc
    simp [loop, initAssembler] at hc
  | append_singleton xs b ih =>
    intro c hc
    by_cases hb : b = FRAME_FLAG
    · subst hb
      rw [(calls_on_delimiter xs).1] at hc
      rcases List.mem_append.1 hc with h | h
      · exact ih c h
      · cases hfd : frameOnDelimiter xs with
        | none => rw [hfd] at h; simp at h
        | some seg =>
          rw [hfd] at h
          simp only [List.mem_singleton] at h
          have hseg : 1 ≤ seg.length ∧ seg.length ≤ MAX_BUFFER_SIZE := by
            unfold frameOnDelimiter at hfd
            cases hsd : sinceDelimiter xs with
            | none => rw [hsd] at hfd; simp at hfd
            | some seg2 =>
              rw [hsd] at hfd
              simp only at hfd
              split_ifs at hfd with hc2
              simp only [Option.some.injEq] at hfd
              rw [← hfd]
              exact hc2
          rw [h]
          exact ⟨seg.length, rfl, hseg.1, hseg.2, (loop_follows xs).1⟩
    · rw [calls_on_other xs b hb] at hc
      exact ih c hc

/-- C15: `loop()` calls `decodeDLMSFrame` exactly when a delimiter 0x7E arrives while a
frame is open with n buffered bytes, 1 <= n <= 1024: a delimiter was received before and n
bytes, none of them a delimiter, were received since.  The call is made once, with length
n and a buffer whose first n bytes are these bytes in order, so its output is that of
decoding exactly these bytes.  No call is made for the first delimiter, for a delimiter
right after a delimiter, for a delimiter that follows more than 1024 bytes (an overflow),
nor when any other byte arrives.  Over a whole input the frames decoded are, in order,
those of the specification. -/
theorem decode_called_once_per_frame (received : List Nat) :
    (∀ seg, sinceDelimiter received = some seg → 1 ≤ seg.length →
        seg.length ≤ MAX_BUFFER_SIZE →
          (loop initAssembler received).inFrame = true
            ∧ (loop initAssembler received).bufferIndex = seg.length
            ∧ (loop initAssembler received).buffer.take seg.length = seg
            ∧ (∀ b, b ∈ seg → b ≠ FRAME_FLAG)
            ∧ (loop initAssembler (received ++ [FRAME_FLAG])).calls
              = (loop initAssembler received).calls
                ++ [((loop initAssembler received).buffer, (seg.length : Int))]
            ∧ (loop initAssembler (received ++ [FRAME_FLAG])).decoded
              = (loop initAssembler received).decoded ++ [decodeDLMSFrame seg seg.length])
      ∧ (sinceDelimiter received = none →
          (loop initAssembler (received ++ [FRAME_FLAG])).calls
            = (loop initAssembler received).calls)
      ∧ (sinceDelimiter received = some [] →
          (loop initAssembler (received ++ [FRAME_FLAG])).calls
            = (loop initAssembler received).calls)
      ∧ (∀ seg, sinceDelimiter received = some seg → MAX_BUFFER_SIZE < seg.length →
          (loop initAssembler (received ++ [FRAME_FLAG])).calls
            = (loop initAssembler received).calls)
      ∧ (∀ b, b ≠ FRAME_FLAG →
          (loop initAssembler (received ++ [b])).calls = (loop initAssembler received).calls)
      ∧ (loop initAssembler received).calls.map (fun c => c.1.take c.2.toNat)
          = framesOf received
      ∧ (loop initAssembler received).decoded
          = (framesOf received).map (fun seg => decodeDLMSFrame seg seg.length) := by
  obtain ⟨hc, ht⟩ := calls_on_delimiter received
  have hdec : ∀ (buf : List Nat) (n : Nat), n ≤ buf.length →
      decodeDLMSFrame buf n = decodeDLMSFrame (buf.take n) ((buf.take n).length : Nat) := by
    intro buf n hn
    have hl : (buf.take n).length = n := by
      rw [List.length_take]
      exact min_eq_left hn
    rw [hl]
    exact (decodeDLMSFrame_congr_range (buf.take n) buf n
      (fun i h20 hi => (frameAt_take buf n i (by omega) hi).symm))
  refine ⟨fun seg hsd h1 hle => ?_, fun hsd => ?_, fun hsd => ?_, fun seg hsd hgt => ?_,
    calls_on_other received, calls_eq_framesOf received, ?_⟩
  · have hfd : frameOnDelimiter received = some seg := by
      simp [frameOnDelimiter, hsd, h1, hle]
    obtain ⟨hlen, hst⟩ := loop_follows received
    rw [hsd] at hst
    have h2 : if seg.length ≤ MAX_BUFFER_SIZE then
          (loop initAssembler received).inFrame = true
            ∧ (loop initAssembler received).bufferIndex = seg.length
            ∧ (loop initAssembler received).buffer.take seg.length = seg
        else (loop initAssembler received).inFrame = false
          ∧ (loop initAssembler received).bufferIndex = 0 := hst
    rw [if_pos hle] at h2
    have hcalls : (loop initAssembler (received ++ [FRAME_FLAG])).calls
        = (loop initAssembler received).calls
          ++ [((loop initAssembler received).buffer, (seg.length : Int))] := by
      rw [hc, hfd]
    refine ⟨h2.1, h2.2.1, h2.2.2, sinceDelimiter_no_flag received seg hsd, hcalls, ?_⟩
    simp only [Assembler.decoded, hcalls, List.map_append, List.map_cons, List.map_nil]
    have := hdec (loop initAssembler received).buffer seg.length (by rw [hlen]; exact hle)
    rw [h2.2.2] at this
    rw [this]
  · rw [hc]
    simp [frameOnDelimiter, hsd]
  · rw [hc]
    simp [frameOnDelimiter, hsd]
  · rw [hc]
    have : ¬ seg.length ≤ MAX_BUFFER_SIZE := by omega
    simp [frameOnDelimiter, hsd, this]
  · rw [← calls_eq_framesOf received, List.map_map]
    unfold Assembler.decoded
    apply List.map_congr_left
    intro c hcm
    obtain ⟨n, hn, _, hle, hlen⟩ := calls_wellformed received c hcm
    simp only [Function.comp, hn, Int.toNat_ofNat]
    exact hdec c.1 n (by rw [hlen]; exact hle)

/-- Witness for C15: the input 7E 01 02 03 followed by a delimiter. -/
theorem decode_called_once_per_frame_witness :
    sinceDelimiter [0x7E, 1, 2, 3] = some [1, 2, 3]
      ∧ (loop initAssembler [0x7E, 1, 2, 3]).buffer.take 3 = [1, 2, 3]
      ∧ (loop initAssembler ([0x7E, 1, 2, 3] ++ [FRAME_FLAG])).calls
          = (loop initAssembler [0x7E, 1, 2, 3]).calls
            ++ [((loop initAssembler [0x7E, 1, 2, 3]).buffer, 3)]
      ∧ (loop initAssembler ([0x7E, 1, 2, 3] ++ [FRAME_FLAG])).decoded
          = (loop initAssembler [0x7E, 1, 2, 3]).decoded ++ [decodeDLMSFrame [1, 2, 3] 3] :=
  have h := (decode_called_once_per_frame [0x7E, 1, 2, 3]).1 [1, 2, 3] (by decide)
    (by decide) (by decide)
  ⟨by decide, h.2.2.1, h.2.2.2.2.1, h.2.2.2.2.2⟩

end P1Reader
